import Mathlib

/-!
# Toy: literal dictionary and script runner

A shallow embedding of `source/literal_dictionary.c` and `repl/lib_runner.c`.

Conventions of the embedding.

* C `int` fields are unbounded integers: no run of the code that stays below
  `2^31` slots is affected, and signed overflow has no defined meaning in C.
* A pointer into the slot array (`_entry*`) is the index of the slot; the
  `NULL` pointer is `none`.
* Dereferencing `NULL` has no defined behaviour: every function that does
  so on some path returns `Option`, and `none` marks that path.
* Heap buffers have value semantics, so `copyString` and `memcpy` are the
  identity on contents and `freeLiteral` has no effect on values.
-/

namespace Toy

/-! ## Literals -/

/-- Modelled from the spec: the `Literal` tagged variant of `literal.h`, which
is not part of the sources at hand.  The cases are those the spec lists (Null,
Boolean, Number, String, Identifier, Array, Dictionary, Function (script or
native), Opaque (tagged), Type).  Arrays, dictionaries and opaque handles are
pointers in the C union and are kept as addresses. -/
inductive Literal where
  | null
  | boolean (value : Bool)
  | number (value : Int)
  | string (chars : String)
  | identifier (chars : String)
  | array (ptr : Nat)
  | dictionary (ptr : Nat)
  | function (bytecode : List Nat) (scope : Nat)
  | functionNative (fn : Nat)
  | opaqueLiteral (ptr : Nat) (tag : Int)
  | type (typeOf : Nat) (constant : Bool)
  deriving DecidableEq, Repr

/-- The macro `TO_NULL_LITERAL`. -/
def TO_NULL_LITERAL : Literal := Literal.null

/-- The macro `TO_BOOLEAN_LITERAL`. -/
def TO_BOOLEAN_LITERAL (b : Bool) : Literal := Literal.boolean b

/-- The macro `TO_STRING_LITERAL`. -/
def TO_STRING_LITERAL (s : String) : Literal := Literal.string s

/-- The macro `TO_IDENTIFIER_LITERAL`. -/
def TO_IDENTIFIER_LITERAL (s : String) : Literal := Literal.identifier s

/-- The macro `IS_NULL`. -/
def IS_NULL : Literal → Bool
  | .null => true
  | _ => false

/-- The macro `IS_STRING`. -/
def IS_STRING : Literal → Bool
  | .string _ => true
  | _ => false

/-- The macro `IS_IDENTIFIER`. -/
def IS_IDENTIFIER : Literal → Bool
  | .identifier _ => true
  | _ => false

/-- The macro `IS_FUNCTION`. -/
def IS_FUNCTION : Literal → Bool
  | .function _ _ => true
  | _ => false

/-- The helper `copyString`: a fresh buffer holding the same characters. -/
def copyString (s : String) : String := s

/-- The two helpers of the literal module that the dictionary calls and that
are not part of the sources at hand: `literalsAreEqual` and `hashLiteral`.
They are parameters of every dictionary operation. -/
structure LiteralOps where
  literalsAreEqual : Literal → Literal → Bool
  hashLiteral : Literal → Nat

/-! ## Dictionary data model -/

/-- The slot type `_entry`: a key and a value. -/
structure _entry where
  key : Literal
  value : Literal
  deriving DecidableEq, Repr

/-- The struct `LiteralDictionary`. -/
structure LiteralDictionary where
  entries : List _entry
  capacity : Nat
  contains : Int
  count : Int
  deriving DecidableEq, Repr

/-- Modelled from the spec: the macro `GROW_CAPACITY` of `memory.h`, which is
not part of the sources at hand.  The spec asks for a fixed non-zero initial
capacity and geometric growth by a factor of two. -/
def GROW_CAPACITY (capacity : Nat) : Nat :=
  if capacity < 8 then 8 else capacity * 2

/-- Modelled from the spec: the macro `DICTIONARY_MAX_LOAD`, the load factor
threshold `0.75`, as the fraction `3 / 4`.  The C test
`contains + 1 > capacity * DICTIONARY_MAX_LOAD` multiplies an `int` by `0.75`,
which is exact in double precision, so it is the integer test
`4 * (contains + 1) > 3 * capacity`. -/
def DICTIONARY_MAX_LOAD : Nat × Nat := (3, 4)

/-- The growth test of `setEntryArray`. -/
def exceedsMaxLoad (contains : Int) (capacity : Nat) : Bool :=
  decide ((DICTIONARY_MAX_LOAD.1 : Int) * capacity < DICTIONARY_MAX_LOAD.2 * (contains + 1))

/-! ## Dictionary operations -/

/-- `setEntryValues`: overwrite the slot with (copies of) key and value. -/
def setEntryValues (entry : _entry) (key value : Literal) : _entry :=
  let entry : _entry :=
    match key with
    | .string s => { entry with key := TO_STRING_LITERAL (copyString s) }
    | .identifier s => { entry with key := TO_IDENTIFIER_LITERAL (copyString s) }
    | _ => { entry with key := key }
  match value with
  | .string s => { entry with value := TO_STRING_LITERAL (copyString s) }
  | .function bytecode scope => { entry with value := Literal.function bytecode scope }
  | _ => { entry with value := value }

/-- The `while (index != start)` loop of `getEntryArray`, one iteration per unit
of fuel.  The loop body reads `array[index]`; the result is the index of the
slot returned, `none` for `NULL`. -/
def getEntryLoop (ops : LiteralOps) (array : List _entry) (capacity : Nat) (key : Literal)
    (mustExist : Bool) (start : Nat) : Nat → Nat → Option Nat
  | 0, _ => none
  | fuel + 1, index =>
    if index = start then none
    else
      match array[index]? with
      | none => none
      | some entry =>
        if IS_NULL entry.key then
          if IS_NULL entry.value && !mustExist then some index
          else getEntryLoop ops array capacity key mustExist start fuel ((index + 1) % capacity)
        else
          if ops.literalsAreEqual key entry.key then some index
          else getEntryLoop ops array capacity key mustExist start fuel ((index + 1) % capacity)

/-- `getEntryArray`: the probe starts one past `hash % capacity` and stops when
it comes back to `hash % capacity`; at most `capacity - 1` slots are read, so
`capacity` units of fuel run the loop to its end. -/
def getEntryArray (ops : LiteralOps) (array : List _entry) (capacity : Nat) (key : Literal)
    (hash : Nat) (mustExist : Bool) : Option Nat :=
  let index := hash % capacity
  let start := index
  let index := (index + 1) % capacity
  getEntryLoop ops array capacity key mustExist start capacity index

/-- One iteration of the second loop of `adjustEntryCapacity`: move an
occupied old slot to the new array. -/
def rehashEntry (ops : LiteralOps) (capacity : Nat) (newEntries : List _entry) (old : _entry) :
    Option (List _entry) :=
  if IS_NULL old.key then some newEntries
  else
    match getEntryArray ops newEntries capacity TO_NULL_LITERAL (ops.hashLiteral old.key) false with
    | none => none
    | some index => some (newEntries.set index { key := old.key, value := old.value })

/-- `adjustEntryCapacity`: a new array of `capacity` empty slots, into which
the occupied slots among the first `oldCapacity` old ones are moved in index
order. -/
def adjustEntryCapacity (ops : LiteralOps) (dictionaryHandle : List _entry)
    (oldCapacity capacity : Nat) : Option (List _entry) :=
  let newEntries : List _entry :=
    List.replicate capacity { key := TO_NULL_LITERAL, value := TO_NULL_LITERAL }
  (dictionaryHandle.take oldCapacity).foldlM (rehashEntry ops capacity) newEntries

/-- The four reassignments of the local `key` in `setEntryArray` (lines
127 to 139 of the source): the last two test `value` and assign `key`. -/
def setEntryArrayKey (key value : Literal) : Literal :=
  let key := match key with
    | .string s => TO_STRING_LITERAL (copyString s)
    | _ => key
  let key := match key with
    | .identifier s => TO_IDENTIFIER_LITERAL (copyString s)
    | _ => key
  let key := match value with
    | .string s => TO_STRING_LITERAL (copyString s)
    | _ => key
  let key := match value with
    | .identifier s => TO_IDENTIFIER_LITERAL (copyString s)
    | _ => key
  key

/-- `setEntryArray`: the new slot array, the new capacity, and whether a new
slot was claimed. -/
def setEntryArray (ops : LiteralOps) (dictionaryHandle : List _entry) (capacity : Nat)
    (contains : Int) (key value : Literal) (hash : Nat) : Option (List _entry × Nat × Bool) :=
  let grown : Option (List _entry × Nat) :=
    if exceedsMaxLoad contains capacity then
      let oldCapacity := capacity
      let capacity := GROW_CAPACITY capacity
      (adjustEntryCapacity ops dictionaryHandle oldCapacity capacity).map (fun es => (es, capacity))
    else some (dictionaryHandle, capacity)
  match grown with
  | none => none
  | some (dictionaryHandle, capacity) =>
    match getEntryArray ops dictionaryHandle capacity key hash false with
    | none => none
    | some index =>
      match dictionaryHandle[index]? with
      | none => none
      | some entry =>
        let key := setEntryArrayKey key value
        if IS_NULL entry.key then
          some (dictionaryHandle.set index (setEntryValues entry key value), capacity, true)
        else
          some (dictionaryHandle.set index (setEntryValues entry key value), capacity, false)

/-- `freeEntry`: both fields become Null. -/
def freeEntry (_ : _entry) : _entry :=
  { key := TO_NULL_LITERAL, value := TO_NULL_LITERAL }

/-- `initLiteralDictionary`. -/
def initLiteralDictionary (ops : LiteralOps) : Option LiteralDictionary :=
  let capacity := GROW_CAPACITY 0
  (adjustEntryCapacity ops [] 0 capacity).map
    (fun entries => { entries := entries, capacity := capacity, contains := 0, count := 0 })

/-- `setLiteralDictionary`. -/
def setLiteralDictionary (ops : LiteralOps) (dictionary : LiteralDictionary)
    (key value : Literal) : Option LiteralDictionary :=
  if IS_NULL key then some dictionary
  else
    match setEntryArray ops dictionary.entries dictionary.capacity dictionary.contains key value
        (ops.hashLiteral key) with
    | none => none
    | some (entries, capacity, increment) =>
      if increment then
        some { entries := entries, capacity := capacity,
               contains := dictionary.contains + 1, count := dictionary.count + 1 }
      else
        some { entries := entries, capacity := capacity,
               contains := dictionary.contains, count := dictionary.count }

/-- `getLiteralDictionary`. -/
def getLiteralDictionary (ops : LiteralOps) (dictionary : LiteralDictionary) (key : Literal) :
    Literal :=
  if IS_NULL key then TO_NULL_LITERAL
  else
    match getEntryArray ops dictionary.entries dictionary.capacity key (ops.hashLiteral key) true with
    | some index =>
      match dictionary.entries[index]? with
      | some entry => entry.value
      | none => TO_NULL_LITERAL
    | none => TO_NULL_LITERAL

/-- `removeLiteralDictionary`. -/
def removeLiteralDictionary (ops : LiteralOps) (dictionary : LiteralDictionary) (key : Literal) :
    LiteralDictionary :=
  if IS_NULL key then dictionary
  else
    match getEntryArray ops dictionary.entries dictionary.capacity key (ops.hashLiteral key) true with
    | some index =>
      match dictionary.entries[index]? with
      | some entry =>
        let entry := freeEntry entry
        let entry := { entry with value := TO_BOOLEAN_LITERAL true }
        { dictionary with entries := dictionary.entries.set index entry,
                          count := dictionary.count - 1 }
      | none => dictionary
    | none => dictionary

/-- `existsLiteralDictionary`. -/
def existsLiteralDictionary (ops : LiteralOps) (dictionary : LiteralDictionary) (key : Literal) :
    Option Bool :=
  match getEntryArray ops dictionary.entries dictionary.capacity key (ops.hashLiteral key) false with
  | none => none
  | some index =>
    match dictionary.entries[index]? with
    | none => none
    | some entry => some (!(IS_NULL entry.key && IS_NULL entry.value))

/-! ## Slot classification -/

/-- A slot is occupied when its key is not Null. -/
def isOccupied (e : _entry) : Bool := !IS_NULL e.key

/-- A slot is tombstoned when its key is Null and its value is not. -/
def isTombstone (e : _entry) : Bool := IS_NULL e.key && !IS_NULL e.value

/-- A slot is empty when key and value are both Null. -/
def isEmptySlot (e : _entry) : Bool := IS_NULL e.key && IS_NULL e.value

/-- Number of occupied slots of a slot array. -/
def occupiedSlots (es : List _entry) : Nat := es.countP isOccupied

/-- Number of tombstoned slots of a slot array. -/
def tombstonedSlots (es : List _entry) : Nat := es.countP isTombstone

/-- Number of empty slots of a slot array. -/
def emptySlots (es : List _entry) : Nat := es.countP isEmptySlot

/-- A call made on a dictionary after its initialisation. -/
inductive DictCall where
  | set (key value : Literal)
  | remove (key : Literal)
  deriving DecidableEq, Repr

/-- Run one call. -/
def applyCall (ops : LiteralOps) (d : LiteralDictionary) : DictCall → Option LiteralDictionary
  | .set key value => setLiteralDictionary ops d key value
  | .remove key => some (removeLiteralDictionary ops d key)

/-- Initialise a dictionary and run the calls in order. -/
def applyCalls (ops : LiteralOps) (calls : List DictCall) : Option LiteralDictionary :=
  (initLiteralDictionary ops).bind (fun d => calls.foldlM (applyCall ops) d)

/-- The dictionary states that `initLiteralDictionary` followed by calls of
`setLiteralDictionary` and `removeLiteralDictionary` can produce. -/
inductive Reachable (ops : LiteralOps) : LiteralDictionary → Prop where
  | init {d : LiteralDictionary} : initLiteralDictionary ops = some d → Reachable ops d
  | set {d d' : LiteralDictionary} (key value : Literal) :
      Reachable ops d → setLiteralDictionary ops d key value = some d' → Reachable ops d'
  | remove {d : LiteralDictionary} (key : Literal) :
      Reachable ops d → Reachable ops (removeLiteralDictionary ops d key)

/-- The condition under which the probe loop returns the slot it is reading. -/
def probeStops (ops : LiteralOps) (key : Literal) (mustExist : Bool) (e : _entry) : Bool :=
  if IS_NULL e.key then IS_NULL e.value && !mustExist else ops.literalsAreEqual key e.key

/-- Number of iterations left before the probe index is back at `start`. -/
def stepsToStart (capacity start index : Nat) : Nat :=
  if index ≤ start then start - index else start + capacity - index

/-- The slots the loop has still to read: from `index` on, cyclically, up to
`start` excluded. -/
def ahead (capacity start index j : Nat) : Prop :=
  j < capacity ∧ (if index ≤ start then index ≤ j ∧ j < start else index ≤ j ∨ j < start)

/-- The assumption that `literalsAreEqual` never finds Null equal to a key that
is not Null. -/
def NullIsDistinct (ops : LiteralOps) : Prop :=
  ∀ k, IS_NULL k = false → ops.literalsAreEqual TO_NULL_LITERAL k = false

/-- The size invariant kept by every dictionary operation. -/
structure WellSized (d : LiteralDictionary) : Prop where
  length_eq : d.entries.length = d.capacity
  cap_ge : 8 ≤ d.capacity
  used_le : ((occupiedSlots d.entries + tombstonedSlots d.entries : Nat) : Int) ≤ d.contains
  load : 4 * d.contains ≤ 3 * (d.capacity : Int)
  occ_le : (occupiedSlots d.entries : Int) ≤ d.count
  count_le : d.count ≤ d.contains

/-! ## Concrete inputs -/

/-- A sample instance of the two external helpers, used to run the code on
concrete inputs: structural equality, and a hash that is the number itself for
a Number, the length for a String or an Identifier, and zero otherwise. -/
def sampleOps : LiteralOps where
  literalsAreEqual a b := decide (a = b)
  hashLiteral
    | .number n => n.toNat
    | .string s => s.length
    | .identifier s => s.length
    | _ => 0

/-- An empty slot. -/
def emptyEntry : _entry := { key := TO_NULL_LITERAL, value := TO_NULL_LITERAL }

/-- One insert, its removal, then six inserts of fresh keys: the last insert
finds `contains = 6` in a table of capacity 8 and grows it. -/
def churnCalls : List DictCall :=
  [.set (.number 1) (.boolean false), .remove (.number 1),
   .set (.number 2) (.boolean false), .set (.number 3) (.boolean false),
   .set (.number 4) (.boolean false), .set (.number 5) (.boolean false),
   .set (.number 6) (.boolean false), .set (.number 7) (.boolean false)]

/-- The dictionary that `churnCalls` produces under `sampleOps`. -/
def grownDictionary : LiteralDictionary :=
  { entries :=
      [emptyEntry, emptyEntry, emptyEntry,
       { key := .number 2, value := .boolean false },
       { key := .number 3, value := .boolean false },
       { key := .number 4, value := .boolean false },
       { key := .number 5, value := .boolean false },
       { key := .number 6, value := .boolean false },
       { key := .number 7, value := .boolean false },
       emptyEntry, emptyEntry, emptyEntry, emptyEntry, emptyEntry, emptyEntry, emptyEntry],
    capacity := 16, contains := 7, count := 6 }

/-- The dictionary after the first seven calls of `churnCalls`, just before
the growth. -/
def churnedDictionary : LiteralDictionary :=
  { entries :=
      [emptyEntry, emptyEntry,
       { key := TO_NULL_LITERAL, value := .boolean true },
       { key := .number 2, value := .boolean false },
       { key := .number 3, value := .boolean false },
       { key := .number 4, value := .boolean false },
       { key := .number 5, value := .boolean false },
       { key := .number 6, value := .boolean false }],
    capacity := 8, contains := 6, count := 5 }

/-! ## Script runner: data model

The natives of `lib_runner.c` work on the caller's interpreter, on the argument
array they are handed, and on `Toy_Runner` objects reached through the pointer
of an Opaque literal.  The interpreter, the scope and the function-call
primitive are collaborators whose code is not part of the sources at hand; they
are the fields of `Externals`, and every call of one that changes or runs an
interpreter is recorded in the field `calls` of the world.
-/

/-- Modelled from the spec: a scope `Toy_Scope`, variables keyed by the name of
an Identifier. -/
abbrev Toy_Scope := List (String × Literal)

/-- The parts of `Toy_Interpreter` that the natives touch: the value stack and
the scope.  The error sink `errorOutput` is shared by the caller and the nested
interpreters and is kept in the world. -/
structure Toy_Interpreter where
  stack : List Literal
  scope : Toy_Scope
  deriving DecidableEq, Repr

/-- The struct `Toy_Runner`. -/
structure Toy_Runner where
  interpreter : Toy_Interpreter
  bytecode : List Nat
  size : Nat
  dirty : Bool
  deriving DecidableEq, Repr

/-- A call of a collaborator that runs, resets or frees an interpreter, calls a
function, or declares, sets or injects a name in the caller's scope.  `runner`
is the address of the `Toy_Runner` whose nested interpreter is passed;
`callLiteralFn` records the interpreter it is handed; `declareScopeVariable`
records the type literal and the subtypes pushed on it. -/
inductive Call where
  | runInterpreter (runner : Nat) (bytecode : List Nat) (size : Nat)
  | resetInterpreter (runner : Nat)
  | freeInterpreter (runner : Nat)
  | callLiteralFn (interpreter : Toy_Interpreter) (fn : Literal) (arguments : List Literal)
  | declareScopeVariable (key type : Literal) (subtypes : List Literal)
  | setScopeVariable (key value : Literal)
  | injectNativeFn (name : String) (fn : Nat)
  deriving DecidableEq, Repr

/-- The state the natives work on: the caller's interpreter, the runners in the
heap by address, the messages sent to the error sink and the collaborator
calls made, both oldest first. -/
structure World where
  interpreter : Toy_Interpreter
  runners : Nat → Option Toy_Runner
  errorOutput : List String
  calls : List Call

/-- The collaborators of the runner natives, which are not part of the sources
at hand.  `parseIdentifierToValue` and `getScopeVariable` return `none` when
the C function returns false and leaves its out-parameter untouched;
`callLiteralFn` yields the interpreter it was handed, as the call leaves it,
and the array of returned values, and what the called function does to state
it reaches through other pointers (a scope it captured, the output sinks) is
outside the model; `freeLiteralArray` yields what a freed array holds
afterwards. -/
structure Externals where
  parseIdentifierToValue : Toy_Interpreter → Literal → Option Literal
  getScopeVariable : Toy_Scope → Literal → Option Literal
  runInterpreter : Toy_Interpreter → List Nat → Nat → Toy_Interpreter
  resetInterpreter : Toy_Interpreter → Toy_Interpreter
  callLiteralFn : Toy_Interpreter → Literal → List Literal → Toy_Interpreter × List Literal
  freeLiteralArray : List Literal → List Literal

/-- What a native leaves behind: its return code, the world, and the argument
array it was handed. -/
structure Outcome where
  code : Int
  world : World
  arguments : List Literal

/-- Modelled from the spec: the integer tag that marks an Opaque literal as a
Runner handle (`TOY_OPAQUE_TAG_RUNNER` of `lib_runner.h`); the spec fixes no
value for it. -/
def TOY_OPAQUE_TAG_RUNNER : Int := 100

/-- Modelled from the spec: `Toy_pushLiteralArray`, the push of the value-stack
interface; the array grows at its end. -/
def Toy_pushLiteralArray (array : List Literal) (literal : Literal) : List Literal :=
  array ++ [literal]

/-- Modelled from the spec: `Toy_popLiteralArray`, the pop of the value-stack
interface; it takes the last value, and Null from an empty array. -/
def Toy_popLiteralArray (array : List Literal) : Literal × List Literal :=
  match array.getLast? with
  | none => (TO_NULL_LITERAL, array)
  | some literal => (literal, array.dropLast)

/-- A call of `interpreter->errorOutput`. -/
def World.sendError (w : World) (message : String) : World :=
  { w with errorOutput := w.errorOutput ++ [message] }

/-- A push on `interpreter->stack`. -/
def World.pushStack (w : World) (literal : Literal) : World :=
  { w with interpreter :=
      { w.interpreter with stack := Toy_pushLiteralArray w.interpreter.stack literal } }

/-- Record a collaborator call. -/
def World.record (w : World) (call : Call) : World :=
  { w with calls := w.calls ++ [call] }

/-- A write through a `Toy_Runner*`. -/
def World.setRunner (w : World) (ptr : Nat) (runner : Option Toy_Runner) : World :=
  { w with runners := fun p => if p = ptr then runner else w.runners p }

/-- The idiom that opens every native:
`if (TOY_IS_IDENTIFIER(l) && Toy_parseIdentifierToValue(interpreter, &l))`. -/
def resolveIdentifier (ext : Externals) (interpreter : Toy_Interpreter) (literal : Literal) :
    Literal :=
  if IS_IDENTIFIER literal then
    match ext.parseIdentifierToValue interpreter literal with
    | some value => value
    | none => literal
  else literal

/-- The checks `TOY_GET_OPAQUE_TAG(l) != TOY_OPAQUE_TAG_RUNNER` and
`TOY_AS_OPAQUE(l)` followed by the first read through the pointer.  The result
is `some (Except.error ())` when the tag differs, `some (Except.ok (ptr, runner))`
when the pointer leads to a runner, and `none` when the literal is not Opaque
or no runner lives at the address (no defined behaviour). -/
def asRunner (w : World) (literal : Literal) : Option (Except Unit (Nat × Toy_Runner)) :=
  match literal with
  | .opaqueLiteral ptr tag =>
    if tag ≠ TOY_OPAQUE_TAG_RUNNER then some (Except.error ())
    else
      match w.runners ptr with
      | none => none
      | some runner => some (Except.ok (ptr, runner))
  | _ => none

/-- The macro `TOY_AS_STRING` followed by `Toy_copyRefString` and
`TOY_TO_IDENTIFIER_LITERAL`; defined on String literals only. -/
def stringToIdentifier : Literal → Option Literal
  | .string s => some (TO_IDENTIFIER_LITERAL s)
  | _ => none

/-- `Toy_getScopeVariable(scope, name, &result)` with `result` initialised to
Null. -/
def scopeVariableOrNull (ext : Externals) (scope : Toy_Scope) (name : Literal) : Literal :=
  match ext.getScopeVariable scope name with
  | some value => value
  | none => TO_NULL_LITERAL

/-! ## Script runner: natives -/

/-- `nativeRunScript`. -/
def nativeRunScript (ext : Externals) (w : World) (arguments : List Literal) : Option Outcome :=
  if arguments.length ≠ 1 then
    some ⟨-1, w.sendError "Incorrect number of arguments to runScript\n", arguments⟩
  else
    let (runnerLiteral, arguments) := Toy_popLiteralArray arguments
    let runnerLiteral := resolveIdentifier ext w.interpreter runnerLiteral
    if IS_IDENTIFIER runnerLiteral then some ⟨-1, w, arguments⟩
    else
      match asRunner w runnerLiteral with
      | none => none
      | some (Except.error _) =>
        some ⟨-1, w.sendError "Unrecognized opaque literal in runScript\n", arguments⟩
      | some (Except.ok (ptr, runner)) =>
        if runner.dirty then
          some ⟨-1, w.sendError "Can't re-run a dirty script (try resetting it first)\n",
            arguments⟩
        else
          let bytecodeCopy := runner.bytecode.take runner.size
          let runner := { runner with
            interpreter := ext.runInterpreter runner.interpreter bytecodeCopy runner.size }
          let w := w.record (Call.runInterpreter ptr bytecodeCopy runner.size)
          let runner := { runner with dirty := true }
          some ⟨0, w.setRunner ptr (some runner), arguments⟩

/-- `nativeGetScriptVar`. -/
def nativeGetScriptVar (ext : Externals) (w : World) (arguments : List Literal) :
    Option Outcome :=
  if arguments.length ≠ 2 then
    some ⟨-1, w.sendError "Incorrect number of arguments to getScriptVar\n", arguments⟩
  else
    let (varName, arguments) := Toy_popLiteralArray arguments
    let (runnerLiteral, arguments) := Toy_popLiteralArray arguments
    let varName := resolveIdentifier ext w.interpreter varName
    let runnerLiteral := resolveIdentifier ext w.interpreter runnerLiteral
    if IS_IDENTIFIER varName || IS_IDENTIFIER runnerLiteral then some ⟨-1, w, arguments⟩
    else
      match asRunner w runnerLiteral with
      | none => none
      | some (Except.error _) =>
        some ⟨-1, w.sendError "Unrecognized opaque literal in getScriptVar\n", arguments⟩
      | some (Except.ok (_, runner)) =>
        if !runner.dirty then
          some ⟨-1, w.sendError
            "Can't access variable from a non-dirty script (try running it first)\n", arguments⟩
        else
          match stringToIdentifier varName with
          | none => none
          | some varIdn =>
            let result := scopeVariableOrNull ext runner.interpreter.scope varIdn
            some ⟨1, w.pushStack result, arguments⟩

/-- The loop `while (from->count > keep) { push(to, pop(from)); }` that
`nativeCallScriptFn` runs twice, one iteration per unit of fuel. -/
def moveLiterals (keep : Nat) : Nat → List Literal → List Literal → List Literal × List Literal
  | 0, source, target => (source, target)
  | fuel + 1, source, target =>
    if source.length > keep then
      let (lit, source) := Toy_popLiteralArray source
      moveLiterals keep fuel source (Toy_pushLiteralArray target lit)
    else (source, target)

/-- `nativeCallScriptFn`.  The branch for a value that is not a function sends
its message and frees its locals, and has no `return`: control goes on to the
call.  The interpreter handed to `Toy_callLiteralFn` is the caller's. -/
def nativeCallScriptFn (ext : Externals) (w : World) (arguments : List Literal) :
    Option Outcome :=
  if arguments.length < 2 then
    some ⟨-1, w.sendError "Incorrect number of arguments to callScriptFn\n", arguments⟩
  else
    let (arguments, tmp) := moveLiterals 2 arguments.length arguments []
    let (_, rest) := moveLiterals 0 tmp.length tmp []
    let (varName, arguments) := Toy_popLiteralArray arguments
    let (runnerLiteral, arguments) := Toy_popLiteralArray arguments
    let varName := resolveIdentifier ext w.interpreter varName
    let runnerLiteral := resolveIdentifier ext w.interpreter runnerLiteral
    if IS_IDENTIFIER varName || IS_IDENTIFIER runnerLiteral then some ⟨-1, w, arguments⟩
    else
      match asRunner w runnerLiteral with
      | none => none
      | some (Except.error _) =>
        some ⟨-1, w.sendError "Unrecognized opaque literal in callScriptFn\n", arguments⟩
      | some (Except.ok (_, runner)) =>
        if !runner.dirty then
          some ⟨-1, w.sendError
            "Can't access fn from a non-dirty script (try running it first)\n", arguments⟩
        else
          match stringToIdentifier varName with
          | none => none
          | some varIdn =>
            let fn := scopeVariableOrNull ext runner.interpreter.scope varIdn
            let (w, rest) :=
              if !IS_FUNCTION fn then
                (w.sendError "Can't run a non-function literal\n", ext.freeLiteralArray rest)
              else (w, rest)
            let w := w.record (Call.callLiteralFn w.interpreter fn rest)
            let (interpreter, resultArray) := ext.callLiteralFn w.interpreter fn rest
            let w := { w with interpreter := interpreter }
            let result :=
              if resultArray.length > 0 then (Toy_popLiteralArray resultArray).1
              else TO_NULL_LITERAL
            some ⟨1, w.pushStack result, arguments⟩

/-- `nativeResetScript`. -/
def nativeResetScript (ext : Externals) (w : World) (arguments : List Literal) :
    Option Outcome :=
  if arguments.length ≠ 1 then
    some ⟨-1, w.sendError "Incorrect number of arguments to resetScript\n", arguments⟩
  else
    let (runnerLiteral, arguments) := Toy_popLiteralArray arguments
    let runnerLiteral := resolveIdentifier ext w.interpreter runnerLiteral
    if IS_IDENTIFIER runnerLiteral then some ⟨-1, w, arguments⟩
    else
      match asRunner w runnerLiteral with
      | none => none
      | some (Except.error _) =>
        some ⟨-1, w.sendError "Unrecognized opaque literal in resetScript\n", arguments⟩
      | some (Except.ok (ptr, runner)) =>
        if !runner.dirty then
          some ⟨-1, w.sendError "Can't reset a non-dirty script (try running it first)\n",
            arguments⟩
        else
          let runner := { runner with interpreter := ext.resetInterpreter runner.interpreter }
          let w := w.record (Call.resetInterpreter ptr)
          let runner := { runner with dirty := false }
          some ⟨0, w.setRunner ptr (some runner), arguments⟩

/-- `nativeFreeScript`. -/
def nativeFreeScript (ext : Externals) (w : World) (arguments : List Literal) :
    Option Outcome :=
  if arguments.length ≠ 1 then
    some ⟨-1, w.sendError "Incorrect number of arguments to freeScript\n", arguments⟩
  else
    let (runnerLiteral, arguments) := Toy_popLiteralArray arguments
    let runnerLiteral := resolveIdentifier ext w.interpreter runnerLiteral
    if IS_IDENTIFIER runnerLiteral then some ⟨-1, w, arguments⟩
    else
      match asRunner w runnerLiteral with
      | none => none
      | some (Except.error _) =>
        some ⟨-1, w.sendError "Unrecognized opaque literal in freeScript\n", arguments⟩
      | some (Except.ok (ptr, _)) =>
        let w := w.record (Call.freeInterpreter ptr)
        some ⟨0, w.setRunner ptr none, arguments⟩

/-- `nativeCheckScriptDirty`: the value is pushed and the code returned is 0. -/
def nativeCheckScriptDirty (ext : Externals) (w : World) (arguments : List Literal) :
    Option Outcome :=
  if arguments.length ≠ 1 then
    some ⟨-1, w.sendError "Incorrect number of arguments to checkScriptDirty\n", arguments⟩
  else
    let (runnerLiteral, arguments) := Toy_popLiteralArray arguments
    let runnerLiteral := resolveIdentifier ext w.interpreter runnerLiteral
    if IS_IDENTIFIER runnerLiteral then some ⟨-1, w, arguments⟩
    else
      match asRunner w runnerLiteral with
      | none => none
      | some (Except.error _) =>
        some ⟨-1, w.sendError "Unrecognized opaque literal in checkScriptDirty\n", arguments⟩
      | some (Except.ok (_, runner)) =>
        let result := TO_BOOLEAN_LITERAL runner.dirty
        some ⟨0, w.pushStack result, arguments⟩

/-- The scenario Run, Reset, Run on one runner handle: the three return codes
and the final world. -/
def runResetRun (ext : Externals) (w : World) (runnerLiteral : Literal) :
    Option (List Int × World) :=
  match nativeRunScript ext w [runnerLiteral] with
  | none => none
  | some first =>
    match nativeResetScript ext first.world [runnerLiteral] with
    | none => none
    | some second =>
      match nativeRunScript ext second.world [runnerLiteral] with
      | none => none
      | some third => some ([first.code, second.code, third.code], third.world)

/-! ## Concrete inputs for the runner -/

/-- A sample instance of the collaborators, used to run the natives on concrete
inputs: identifiers and variables are looked up by name, running a script
declares `answer = 42`, a reset empties the interpreter, and a called function
returns nothing. -/
def sampleExternals : Externals where
  parseIdentifierToValue interpreter literal :=
    match literal with
    | .identifier s => interpreter.scope.lookup s
    | _ => some literal
  getScopeVariable scope literal :=
    match literal with
    | .identifier s => scope.lookup s
    | _ => none
  runInterpreter interpreter _ _ := { interpreter with scope := [("answer", .number 42)] }
  resetInterpreter _ := { stack := [], scope := [] }
  callLiteralFn interpreter _ _ := (interpreter, [])
  freeLiteralArray _ := []

/-- A runner that has been run: its scope holds `answer = 42`. -/
def executedRunner : Toy_Runner :=
  { interpreter := { stack := [], scope := [("answer", .number 42)] },
    bytecode := [1, 2, 3], size := 3, dirty := true }

/-- A runner as the load natives build it. -/
def loadedRunner : Toy_Runner :=
  { interpreter := { stack := [], scope := [] }, bytecode := [1, 2, 3], size := 3, dirty := false }

/-- A world whose heap holds `executedRunner` at address 0 and `loadedRunner`
at address 1; the caller's stack holds one value. -/
def sampleWorld : World :=
  { interpreter := { stack := [.number 7], scope := [] },
    runners := fun p => if p = 0 then some executedRunner else if p = 1 then some loadedRunner else none,
    errorOutput := [],
    calls := [] }

/-- What is compared of an outcome on concrete inputs: the return code, the
caller's stack, the error sink, the collaborator calls and the argument array. -/
def Outcome.observe (o : Outcome) :
    Int × List Literal × List String × List Call × List Literal :=
  (o.code, o.world.interpreter.stack, o.world.errorOutput, o.world.calls, o.arguments)

/-! ## Further scenarios and measures on the dictionary -/

/-- The calls of `n` rounds of churn: `setLiteralDictionary(d, key, value)`
followed by `removeLiteralDictionary(d, key)`, `n` times. -/
def churnRounds (key value : Literal) : Nat → List DictCall
  | 0 => []
  | n + 1 => churnRounds key value n ++ [DictCall.set key value, DictCall.remove key]

/-- The (key, value) pairs held by the occupied slots of a slot array, in slot
order; two arrays hold the same multiset of pairs when these lists are
permutations of each other. -/
def occupiedPairs (es : List _entry) : List (Literal × Literal) :=
  (es.filter isOccupied).map (fun e => (e.key, e.value))

/-! ## Further concrete inputs for the runner -/

/-- A runner that has been run and whose scope binds `add` to a script
function. -/
def functionRunner : Toy_Runner :=
  { interpreter := { stack := [], scope := [("add", .function [10, 20, 30] 0)] },
    bytecode := [1, 2, 3], size := 3, dirty := true }

/-- A world whose heap holds `functionRunner` at address 2; the caller's
interpreter has one value on its stack and one variable in its scope. -/
def callWorld : World :=
  { interpreter := { stack := [.number 7], scope := [("outer", .number 1)] },
    runners := fun p => if p = 2 then some functionRunner else none,
    errorOutput := [],
    calls := [] }

/-- The sample collaborators with a function-call primitive that returns the
arguments it was given and leaves the interpreter as it was. -/
def echoExternals : Externals :=
  { sampleExternals with callLiteralFn := fun interpreter _ arguments => (interpreter, arguments) }

/-! ## Script runner: the load natives -/

/-- The collaborators of the two load natives, which are not part of the
sources at hand: the drive path mapping (Null when the path does not resolve),
the file reader and the compiler (`none` for a `NULL` result; the size they
report is the length of the buffer), and the allocator, which picks the address
of the new `Toy_Runner`. -/
structure LoadExternals where
  getDrivePathLiteral : Toy_Interpreter → Literal → Literal
  readFile : String → Option (List Nat)
  compileString : List Nat → Option (List Nat)
  allocateRunner : World → Nat

/-- The block "build the runner object" shared by the two load natives: the new
runner gets a nested interpreter with no scope that `Toy_resetInterpreter` has
initialised, the bytecode and `dirty = false`, and the Opaque literal that
points to it is pushed on the caller's stack. -/
def buildRunner (ext : Externals) (lx : LoadExternals) (w : World) (bytecode : List Nat) :
    World :=
  let ptr := lx.allocateRunner w
  let runner : Toy_Runner :=
    { interpreter := ext.resetInterpreter { stack := [], scope := [] },
      bytecode := bytecode, size := bytecode.length, dirty := false }
  let w := (w.record (Call.resetInterpreter ptr)).setRunner ptr (some runner)
  w.pushStack (Literal.opaqueLiteral ptr TOY_OPAQUE_TAG_RUNNER)

/-- `nativeLoadScript`. -/
def nativeLoadScript (ext : Externals) (lx : LoadExternals) (w : World)
    (arguments : List Literal) : Option Outcome :=
  if arguments.length ≠ 1 then
    some ⟨-1, w.sendError "Incorrect number of arguments to loadScript\n", arguments⟩
  else
    let (drivePathLiteral, arguments) := Toy_popLiteralArray arguments
    let drivePathLiteral := resolveIdentifier ext w.interpreter drivePathLiteral
    if IS_IDENTIFIER drivePathLiteral then some ⟨-1, w, arguments⟩
    else
      let filePathLiteral := lx.getDrivePathLiteral w.interpreter drivePathLiteral
      if IS_NULL filePathLiteral then some ⟨-1, w, arguments⟩
      else
        match filePathLiteral with
        | .string filePath =>
          match lx.readFile filePath with
          | none => some ⟨-1, w.sendError "Failed to load source file\n", arguments⟩
          | some source =>
            match lx.compileString source with
            | none => some ⟨-1, w.sendError "Failed to compile source file\n", arguments⟩
            | some bytecode => some ⟨1, buildRunner ext lx w bytecode, arguments⟩
        | _ => none

/-- `nativeLoadScriptBytecode`. -/
def nativeLoadScriptBytecode (ext : Externals) (lx : LoadExternals) (w : World)
    (arguments : List Literal) : Option Outcome :=
  if arguments.length ≠ 1 then
    some ⟨-1, w.sendError "Incorrect number of arguments to loadScriptBytecode\n", arguments⟩
  else
    let (drivePathLiteral, arguments) := Toy_popLiteralArray arguments
    let drivePathLiteral := resolveIdentifier ext w.interpreter drivePathLiteral
    if IS_IDENTIFIER drivePathLiteral then some ⟨-1, w, arguments⟩
    else
      let filePathLiteral := lx.getDrivePathLiteral w.interpreter drivePathLiteral
      if IS_NULL filePathLiteral then some ⟨-1, w, arguments⟩
      else
        match filePathLiteral with
        | .string filePath =>
          match lx.readFile filePath with
          | none => some ⟨-1, w.sendError "Failed to load bytecode file\n", arguments⟩
          | some bytecode => some ⟨1, buildRunner ext lx w bytecode, arguments⟩
        | _ => none

/-- A sample instance of the load collaborators: the drive maps a String path to
itself, one file exists, the compiler accepts every source, and the allocator
returns address 9. -/
def sampleLoadExternals : LoadExternals where
  getDrivePathLiteral _ literal :=
    match literal with
    | .string s => .string s
    | _ => TO_NULL_LITERAL
  readFile path := if path = "scripts:/main.toy" then some [1, 2, 3] else none
  compileString source := some source
  allocateRunner _ := 9

/-! ## Script runner: the hook -/

/-- The assumptions of the map-update law on the two external helpers:
`literalsAreEqual` is an equivalence relation, equal literals have equal
hashes, and Null equals no literal that is not Null. -/
structure LawfulOps (ops : LiteralOps) : Prop where
  refl : ∀ a, ops.literalsAreEqual a a = true
  symm : ∀ a b, ops.literalsAreEqual a b = true → ops.literalsAreEqual b a = true
  trans : ∀ a b c, ops.literalsAreEqual a b = true → ops.literalsAreEqual b c = true →
    ops.literalsAreEqual a c = true
  hash_eq : ∀ a b, ops.literalsAreEqual a b = true → ops.hashLiteral a = ops.hashLiteral b
  null_distinct : ∀ k, IS_NULL k = false → ops.literalsAreEqual TO_NULL_LITERAL k = false

/-- The dictionary states that `initLiteralDictionary` followed by calls of
`setLiteralDictionary` with values that are neither String nor Identifier, and
of `removeLiteralDictionary`, can produce. -/
inductive PlainReachable (ops : LiteralOps) : LiteralDictionary → Prop where
  | init {d : LiteralDictionary} : initLiteralDictionary ops = some d → PlainReachable ops d
  | set {d d' : LiteralDictionary} (key value : Literal) :
      IS_STRING value = false → IS_IDENTIFIER value = false →
      PlainReachable ops d → setLiteralDictionary ops d key value = some d' →
      PlainReachable ops d'
  | remove {d : LiteralDictionary} (key : Literal) :
      PlainReachable ops d → PlainReachable ops (removeLiteralDictionary ops d key)

/-- Whether the values of all `set` calls of a list are neither String nor
Identifier. -/
def plainCalls (calls : List DictCall) : Bool :=
  calls.all (fun c =>
    match c with
    | .set _ value => !IS_STRING value && !IS_IDENTIFIER value
    | .remove _ => true)

/-- Every occupied slot lies on the probe path of its own key: it is not the
slot at `hash mod capacity`, and no slot from the first slot probed up to it is
empty. -/
def OnProbePath (ops : LiteralOps) (es : List _entry) (capacity : Nat) : Prop :=
  ∀ (j : Nat) (e : _entry), es[j]? = some e → IS_NULL e.key = false →
    j ≠ ops.hashLiteral e.key % capacity ∧
    ∀ i, ahead capacity j ((ops.hashLiteral e.key % capacity + 1) % capacity) i →
      ∃ x, es[i]? = some x ∧ isEmptySlot x = false

/-- No two occupied slots hold equal keys. -/
def UniqueKeys (ops : LiteralOps) (es : List _entry) : Prop :=
  ∀ (j1 j2 : Nat) (e1 e2 : _entry), es[j1]? = some e1 → es[j2]? = some e2 →
    IS_NULL e1.key = false → IS_NULL e2.key = false →
    ops.literalsAreEqual e1.key e2.key = true → j1 = j2

/-- A scenario in which a key written through the String-value path of
`setEntryArray` ends up off its probe path: the first call stores the slot
`("a", "a")` on the probe path of key 5, the second stores `("a", 1)` on the
probe path of `"a"`, the third removes the latter. -/
def strayKeyCalls : List DictCall :=
  [.set (.number 5) (.string "a"), .set (.string "a") (.number 1), .remove (.string "a")]

/-- The invariant behind the map-update law: keys lie on their probe paths and
are pairwise unequal. -/
structure Probed (ops : LiteralOps) (d : LiteralDictionary) : Prop where
  onPath : OnProbePath ops d.entries d.capacity
  unique : UniqueKeys ops d.entries

/-! ## Counting lemmas -/

theorem slot_partition (es : List _entry) :
    occupiedSlots es + tombstonedSlots es + emptySlots es = es.length := by
  induction es with
  | nil => rfl
  | cons e t ih =>
    unfold occupiedSlots tombstonedSlots emptySlots at *
    simp only [List.countP_cons, List.length_cons]
    cases h1 : IS_NULL e.key <;> cases h2 : IS_NULL e.value <;>
      simp [isOccupied, isTombstone, isEmptySlot, h1, h2] <;> omega

theorem countP_set {α : Type} (p : α → Bool) (l : List α) (i : Nat) (a b : α)
    (h : l[i]? = some a) :
    (l.set i b).countP p + (if p a then 1 else 0) = l.countP p + (if p b then 1 else 0) := by
  induction l generalizing i with
  | nil => simp at h
  | cons x t ih =>
    cases i with
    | zero =>
      simp at h
      subst h
      simp only [List.set_cons_zero, List.countP_cons]
      omega
    | succ j =>
      simp at h
      have := ih j h
      simp only [List.set_cons_succ, List.countP_cons]
      omega

theorem applyCalls_foldl_reachable (ops : LiteralOps) (calls : List DictCall)
    (d d' : LiteralDictionary) (hd : Reachable ops d)
    (h : calls.foldlM (applyCall ops) d = some d') : Reachable ops d' := by
  induction calls generalizing d with
  | nil => simp at h; subst h; exact hd
  | cons c t ih =>
    simp only [List.foldlM_cons, Option.bind_eq_bind] at h
    cases hc : applyCall ops d c with
    | none => simp [hc] at h
    | some d1 =>
      simp [hc] at h
      refine ih d1 ?_ h
      cases c with
      | set key value => exact Reachable.set key value hd hc
      | remove key =>
        simp [applyCall] at hc
        subst hc
        exact Reachable.remove key hd

theorem applyCalls_reachable (ops : LiteralOps) (calls : List DictCall) (d : LiteralDictionary)
    (h : applyCalls ops calls = some d) : Reachable ops d := by
  unfold applyCalls at h
  cases hi : initLiteralDictionary ops with
  | none => simp [hi] at h
  | some d0 =>
    simp [hi] at h
    exact applyCalls_foldl_reachable ops calls d0 d (Reachable.init hi) h

/-! ## The probe loop -/

theorem succ_mod_capacity (index capacity : Nat) (h : index < capacity) :
    (index + 1) % capacity = if index + 1 = capacity then 0 else index + 1 := by
  split
  · next h1 => rw [h1]; exact Nat.mod_self _
  · next h1 => exact Nat.mod_eq_of_lt (by omega)

theorem getEntryLoop_succ (ops : LiteralOps) (array : List _entry) (capacity : Nat)
    (key : Literal) (mustExist : Bool) (start fuel index : Nat) :
    getEntryLoop ops array capacity key mustExist start (fuel + 1) index =
      if index = start then none
      else match array[index]? with
        | none => none
        | some e =>
          if probeStops ops key mustExist e then some index
          else getEntryLoop ops array capacity key mustExist start fuel ((index + 1) % capacity) := by
  rw [getEntryLoop]
  split
  · rfl
  · cases array[index]? with
    | none => rfl
    | some e =>
      simp only [probeStops]
      by_cases h1 : IS_NULL e.key = true <;> simp [h1]

theorem getEntryLoop_sound (ops : LiteralOps) (array : List _entry) (capacity : Nat)
    (key : Literal) (mustExist : Bool) (start : Nat) (fuel index i : Nat)
    (h : getEntryLoop ops array capacity key mustExist start fuel index = some i) :
    i ≠ start ∧ ∃ e, array[i]? = some e ∧ probeStops ops key mustExist e = true := by
  induction fuel generalizing index with
  | zero => simp [getEntryLoop] at h
  | succ n ih =>
    rw [getEntryLoop_succ] at h
    split at h
    · simp at h
    · next hne =>
      cases he : array[index]? with
      | none => simp [he] at h
      | some e =>
        simp only [he] at h
        split at h
        · next hs =>
          simp at h
          subst h
          exact ⟨hne, e, he, hs⟩
        · exact ih _ h

theorem getEntryLoop_none (ops : LiteralOps) (array : List _entry) (capacity : Nat)
    (key : Literal) (mustExist : Bool) (start : Nat)
    (hlen : array.length = capacity) (hstart : start < capacity) :
    ∀ fuel index, index < capacity → stepsToStart capacity start index ≤ fuel →
      getEntryLoop ops array capacity key mustExist start fuel index = none →
      ∀ j, ahead capacity start index j →
        ∃ e, array[j]? = some e ∧ probeStops ops key mustExist e = false := by
  intro fuel
  induction fuel with
  | zero =>
    intro index hi hsteps _ j hj
    unfold stepsToStart at hsteps
    unfold ahead at hj
    split_ifs at hsteps hj <;> omega
  | succ n ih =>
    intro index hi hsteps h j hj
    rw [getEntryLoop_succ] at h
    split at h
    · next heq =>
      unfold ahead at hj
      subst heq
      simp at hj
      omega
    · next hne =>
      have hget : array[index]? = some array[index] := List.getElem?_eq_getElem (by omega)
      rw [hget] at h
      simp only at h
      split at h
      · simp at h
      · next hstop =>
        rw [succ_mod_capacity index capacity hi] at h
        by_cases hji : j = index
        · subst hji
          exact ⟨_, hget, by simpa using hstop⟩
        · refine ih _ ?_ ?_ h j ?_
          · split_ifs <;> omega
          · unfold stepsToStart at hsteps ⊢
            split_ifs at hsteps ⊢ <;> omega
          · unfold ahead at hj ⊢
            split_ifs at hj ⊢ <;> omega

theorem getEntryArray_none (ops : LiteralOps) (array : List _entry) (capacity : Nat)
    (key : Literal) (hash : Nat) (mustExist : Bool)
    (hlen : array.length = capacity) (hcap : 0 < capacity)
    (h : getEntryArray ops array capacity key hash mustExist = none) :
    ∀ j, j < capacity → j ≠ hash % capacity →
      ∃ e, array[j]? = some e ∧ probeStops ops key mustExist e = false := by
  intro j hj hne
  have hstart : hash % capacity < capacity := Nat.mod_lt _ hcap
  unfold getEntryArray at h
  simp only at h
  rw [succ_mod_capacity _ capacity hstart] at h
  refine getEntryLoop_none ops array capacity key mustExist (hash % capacity) hlen hstart
    capacity _ ?_ ?_ h j ?_
  · split_ifs <;> omega
  · unfold stepsToStart
    split_ifs <;> omega
  · unfold ahead
    split_ifs <;> omega

theorem countP_le_one_of_all_but_one {α : Type} (p : α → Bool) (l : List α) (s : Nat)
    (h : ∀ j, j < l.length → j ≠ s → ∃ e, l[j]? = some e ∧ p e = false) :
    l.countP p ≤ 1 := by
  induction l generalizing s with
  | nil => simp
  | cons x t ih =>
    cases s with
    | zero =>
      have ht : t.countP p = 0 := by
        rw [List.countP_eq_zero]
        intro a ha
        obtain ⟨i, hi, hia⟩ := List.getElem_of_mem ha
        obtain ⟨e, he, hpe⟩ := h (i + 1) (by simp; omega) (by omega)
        simp [hi] at he
        rw [← hia, he]
        simp [hpe]
      rw [List.countP_cons, ht]
      split <;> omega
    | succ s' =>
      obtain ⟨e, he, hpe⟩ := h 0 (by simp) (by omega)
      simp at he
      subst he
      have := ih s' (fun j hj hne => by
        obtain ⟨e, he, hpe⟩ := h (j + 1) (by simp; omega) (by omega)
        simp at he
        exact ⟨e, he, hpe⟩)
      rw [List.countP_cons]
      simp [hpe]
      exact this

theorem getEntryArray_isSome (ops : LiteralOps) (array : List _entry) (capacity : Nat)
    (key : Literal) (hash : Nat)
    (hlen : array.length = capacity) (hcap : 0 < capacity) (hempty : 2 ≤ emptySlots array) :
    ∃ i, getEntryArray ops array capacity key hash false = some i := by
  cases h : getEntryArray ops array capacity key hash false with
  | some i => exact ⟨i, rfl⟩
  | none =>
    exfalso
    have hall := getEntryArray_none ops array capacity key hash false hlen hcap h
    have := countP_le_one_of_all_but_one isEmptySlot array (hash % capacity) (fun j hj hne => by
      obtain ⟨e, he, hs⟩ := hall j (by omega) hne
      refine ⟨e, he, ?_⟩
      unfold probeStops at hs
      unfold isEmptySlot
      by_cases hk : IS_NULL e.key = true
      · simp [hk] at hs ⊢
        exact hs
      · simp [hk])
    unfold emptySlots at hempty
    omega

/-! ## Writing a slot -/

theorem getEntryArray_sound (ops : LiteralOps) (array : List _entry) (capacity : Nat)
    (key : Literal) (hash : Nat) (mustExist : Bool) (i : Nat)
    (h : getEntryArray ops array capacity key hash mustExist = some i) :
    i ≠ hash % capacity ∧ ∃ e, array[i]? = some e ∧ probeStops ops key mustExist e = true :=
  getEntryLoop_sound ops array capacity key mustExist _ _ _ i h

theorem setEntryValues_key (e : _entry) (key value : Literal) :
    (setEntryValues e key value).key = key := by
  unfold setEntryValues
  cases key <;> cases value <;> rfl

theorem setEntryValues_value (e : _entry) (key value : Literal) :
    (setEntryValues e key value).value = value := by
  unfold setEntryValues
  cases key <;> cases value <;> rfl

theorem setEntryValues_eq (e : _entry) (key value : Literal) :
    setEntryValues e key value = { key := key, value := value } := by
  have h1 := setEntryValues_key e key value
  have h2 := setEntryValues_value e key value
  cases h : setEntryValues e key value with
  | mk k v => simp [h] at h1 h2; simp [h1, h2]

theorem setEntryArrayKey_not_null (key value : Literal) (h : IS_NULL key = false) :
    IS_NULL (setEntryArrayKey key value) = false := by
  unfold setEntryArrayKey
  cases key <;> cases value <;> simp_all [IS_NULL, TO_STRING_LITERAL, TO_IDENTIFIER_LITERAL]

theorem setEntryArrayKey_plain (key value : Literal) (hs : IS_STRING value = false)
    (hi : IS_IDENTIFIER value = false) : setEntryArrayKey key value = key := by
  unfold setEntryArrayKey
  cases key <;> cases value <;>
    simp_all [IS_STRING, IS_IDENTIFIER, TO_STRING_LITERAL, TO_IDENTIFIER_LITERAL, copyString]

/-- Counting after a slot that stopped an insertion probe is overwritten with
an occupied entry. -/
theorem write_slot_counts (ops : LiteralOps) (es : List _entry) (key : Literal) (i : Nat)
    (e new : _entry) (hget : es[i]? = some e) (hstop : probeStops ops key false e = true)
    (hnew : IS_NULL new.key = false) :
    (es.set i new).length = es.length ∧
    tombstonedSlots (es.set i new) = tombstonedSlots es ∧
    occupiedSlots (es.set i new) = occupiedSlots es + (if IS_NULL e.key then 1 else 0) := by
  have ht := countP_set isTombstone es i e new hget
  have ho := countP_set isOccupied es i e new hget
  unfold tombstonedSlots occupiedSlots
  refine ⟨List.length_set _ _ _, ?_, ?_⟩
  · have h1 : isTombstone new = false := by simp [isTombstone, hnew]
    have h2 : isTombstone e = false := by
      unfold probeStops at hstop
      unfold isTombstone
      by_cases hk : IS_NULL e.key = true
      · simp [hk] at hstop ⊢
        exact hstop
      · simp [hk]
    simp [h1, h2] at ht
    exact ht
  · have h1 : isOccupied new = true := by simp [isOccupied, hnew]
    by_cases hk : IS_NULL e.key = true
    · have h2 : isOccupied e = false := by simp [isOccupied, hk]
      simp [h1, h2] at ho
      simp [hk]
      omega
    · have h2 : isOccupied e = true := by simpa [isOccupied] using hk
      simp [h1, h2] at ho
      simp [hk]
      omega

/-! ## Rehashing -/

theorem rehashEntry_spec (ops : LiteralOps) (capacity : Nat) (acc : List _entry) (old : _entry)
    (hlen : acc.length = capacity) (hcap : 0 < capacity) (hempty : 2 ≤ emptySlots acc) :
    ∃ acc', rehashEntry ops capacity acc old = some acc' ∧ acc'.length = capacity ∧
      tombstonedSlots acc' = tombstonedSlots acc ∧
      occupiedSlots acc' ≤ occupiedSlots acc + (if isOccupied old then 1 else 0) ∧
      (NullIsDistinct ops →
        occupiedSlots acc' = occupiedSlots acc + (if isOccupied old then 1 else 0)) := by
  unfold rehashEntry
  by_cases hk : IS_NULL old.key = true
  · simp [hk, isOccupied, hlen]
  · obtain ⟨i, hi⟩ := getEntryArray_isSome ops acc capacity TO_NULL_LITERAL
      (ops.hashLiteral old.key) hlen hcap hempty
    obtain ⟨_, e, he, hstop⟩ := getEntryArray_sound _ _ _ _ _ _ _ hi
    have hk' : IS_NULL old.key = false := by simpa using hk
    obtain ⟨h1, h2, h3⟩ := write_slot_counts ops acc TO_NULL_LITERAL i e
      { key := old.key, value := old.value } he hstop hk'
    simp only [hk, hi, if_false, Bool.false_eq_true]
    refine ⟨_, rfl, by omega, h2, ?_, ?_⟩
    · rw [h3]
      simp [isOccupied, hk']
      split <;> omega
    · intro hnull
      rw [h3]
      have : IS_NULL e.key = true := by
        by_contra hne
        have hne' : IS_NULL e.key = false := by simpa using hne
        unfold probeStops at hstop
        simp [hne'] at hstop
        rw [hnull _ hne'] at hstop
        simp at hstop
      simp [isOccupied, hk', this]

theorem rehash_fold (ops : LiteralOps) (capacity : Nat) (olds acc : List _entry)
    (hlen : acc.length = capacity) (htomb : tombstonedSlots acc = 0)
    (hroom : occupiedSlots acc + olds.length + 2 ≤ capacity) :
    ∃ acc', olds.foldlM (rehashEntry ops capacity) acc = some acc' ∧ acc'.length = capacity ∧
      tombstonedSlots acc' = 0 ∧
      occupiedSlots acc' ≤ occupiedSlots acc + occupiedSlots olds ∧
      (NullIsDistinct ops → occupiedSlots acc' = occupiedSlots acc + occupiedSlots olds) := by
  induction olds generalizing acc with
  | nil => exact ⟨acc, rfl, hlen, htomb, by simp [occupiedSlots], by simp [occupiedSlots]⟩
  | cons old t ih =>
    have hpart := slot_partition acc
    simp only [List.length_cons] at hroom
    obtain ⟨acc1, h1, hlen1, htomb1, hocc1, hex1⟩ :=
      rehashEntry_spec ops capacity acc old hlen (by omega) (by omega)
    have hstep : (if isOccupied old = true then 1 else 0) ≤ 1 := by split <;> omega
    obtain ⟨acc2, h2, hlen2, htomb2, hocc2, hex2⟩ :=
      ih acc1 hlen1 (by omega) (by omega)
    refine ⟨acc2, ?_, hlen2, htomb2, ?_, ?_⟩
    · simp [List.foldlM_cons, h1, h2]
    · simp only [occupiedSlots, List.countP_cons] at *
      omega
    · intro hnull
      have e1 := hex1 hnull
      have e2 := hex2 hnull
      simp only [occupiedSlots, List.countP_cons] at *
      omega

theorem adjustEntryCapacity_spec (ops : LiteralOps) (es : List _entry) (oldCapacity capacity : Nat)
    (hlen : es.length = oldCapacity) (hroom : oldCapacity + 2 ≤ capacity) :
    ∃ new, adjustEntryCapacity ops es oldCapacity capacity = some new ∧ new.length = capacity ∧
      tombstonedSlots new = 0 ∧ occupiedSlots new ≤ occupiedSlots es ∧
      (NullIsDistinct ops → occupiedSlots new = occupiedSlots es) := by
  unfold adjustEntryCapacity
  have htake : es.take oldCapacity = es := by rw [← hlen]; exact List.take_length es
  rw [htake]
  have h0 : occupiedSlots (List.replicate capacity
      ({ key := TO_NULL_LITERAL, value := TO_NULL_LITERAL } : _entry)) = 0 := by
    simp [occupiedSlots, List.countP_replicate, isOccupied, TO_NULL_LITERAL, IS_NULL]
  have h1 : tombstonedSlots (List.replicate capacity
      ({ key := TO_NULL_LITERAL, value := TO_NULL_LITERAL } : _entry)) = 0 := by
    simp [tombstonedSlots, List.countP_replicate, isTombstone, TO_NULL_LITERAL, IS_NULL]
  obtain ⟨new, hn, hl, ht, ho, hx⟩ := rehash_fold ops capacity es
    (List.replicate capacity { key := TO_NULL_LITERAL, value := TO_NULL_LITERAL })
    (by simp) h1 (by rw [h0]; omega)
  refine ⟨new, hn, hl, ht, by omega, fun hnull => ?_⟩
  have := hx hnull
  omega

/-! ## The size invariant -/

theorem init_eq (ops : LiteralOps) :
    initLiteralDictionary ops = some
      { entries := List.replicate 8 { key := TO_NULL_LITERAL, value := TO_NULL_LITERAL },
        capacity := 8, contains := 0, count := 0 } := rfl

theorem init_wellSized (ops : LiteralOps) (d : LiteralDictionary)
    (h : initLiteralDictionary ops = some d) :
    WellSized d ∧ (occupiedSlots d.entries : Int) = d.count := by
  rw [init_eq] at h
  simp at h
  subst h
  refine ⟨⟨rfl, by simp, ?_, by simp, ?_, by simp⟩, ?_⟩ <;>
    simp [occupiedSlots, tombstonedSlots, isOccupied, isTombstone, TO_NULL_LITERAL, IS_NULL]

theorem GROW_CAPACITY_of_ge (capacity : Nat) (h : 8 ≤ capacity) :
    GROW_CAPACITY capacity = capacity * 2 := by
  unfold GROW_CAPACITY
  split <;> omega

theorem exceedsMaxLoad_iff (contains : Int) (capacity : Nat) :
    exceedsMaxLoad contains capacity = true ↔ 3 * (capacity : Int) < 4 * (contains + 1) := by
  simp [exceedsMaxLoad, DICTIONARY_MAX_LOAD]

/-- The part of `setEntryArray` after the growth test: probe for the slot and
overwrite it. -/
theorem setEntryArray_write (ops : LiteralOps) (es : List _entry) (capacity : Nat)
    (key value : Literal) (hash : Nat)
    (hlen : es.length = capacity) (hcap : 0 < capacity) (hempty : 2 ≤ emptySlots es)
    (hkey : IS_NULL key = false) :
    ∃ i e, getEntryArray ops es capacity key hash false = some i ∧ es[i]? = some e ∧
      probeStops ops key false e = true ∧ i ≠ hash % capacity ∧
      (es.set i (setEntryValues e (setEntryArrayKey key value) value)).length = capacity ∧
      tombstonedSlots (es.set i (setEntryValues e (setEntryArrayKey key value) value)) =
        tombstonedSlots es ∧
      occupiedSlots (es.set i (setEntryValues e (setEntryArrayKey key value) value)) =
        occupiedSlots es + (if IS_NULL e.key then 1 else 0) := by
  obtain ⟨i, hi⟩ := getEntryArray_isSome ops es capacity key hash hlen hcap hempty
  obtain ⟨hne, e, he, hstop⟩ := getEntryArray_sound _ _ _ _ _ _ _ hi
  have hnew : IS_NULL (setEntryValues e (setEntryArrayKey key value) value).key = false := by
    rw [setEntryValues_key]
    exact setEntryArrayKey_not_null key value hkey
  obtain ⟨h1, h2, h3⟩ := write_slot_counts ops es key i e _ he hstop hnew
  exact ⟨i, e, hi, he, hstop, hne, by omega, h2, h3⟩

theorem setEntryArray_spec (ops : LiteralOps) (es : List _entry) (capacity : Nat)
    (contains : Int) (key value : Literal) (hash : Nat)
    (hlen : es.length = capacity) (hcap : 8 ≤ capacity)
    (hused : ((occupiedSlots es + tombstonedSlots es : Nat) : Int) ≤ contains)
    (hload : 4 * contains ≤ 3 * (capacity : Int)) (hkey : IS_NULL key = false) :
    ∃ es' capacity' increment,
      setEntryArray ops es capacity contains key value hash = some (es', capacity', increment) ∧
      es'.length = capacity' ∧ 8 ≤ capacity' ∧
      4 * (contains + (if increment then 1 else 0)) ≤ 3 * (capacity' : Int) ∧
      ((occupiedSlots es' + tombstonedSlots es' : Nat) : Int) ≤
        contains + (if increment then 1 else 0) ∧
      occupiedSlots es' ≤ occupiedSlots es + (if increment then 1 else 0) ∧
      (NullIsDistinct ops →
        occupiedSlots es' = occupiedSlots es + (if increment then 1 else 0)) ∧
      capacity ≤ capacity' ∧
      (capacity' = capacity →
        occupiedSlots es' + tombstonedSlots es' =
          occupiedSlots es + tombstonedSlots es + (if increment then 1 else 0)) := by
  unfold setEntryArray
  by_cases hg : exceedsMaxLoad contains capacity = true
  · have hgrow := GROW_CAPACITY_of_ge capacity hcap
    obtain ⟨new, hn, hl, ht, ho, hx⟩ :=
      adjustEntryCapacity_spec ops es capacity (GROW_CAPACITY capacity) hlen (by omega)
    have hpart := slot_partition new
    have hpart0 := slot_partition es
    obtain ⟨i, e, hi, he, _, _, w1, w2, w3⟩ := setEntryArray_write ops new
      (GROW_CAPACITY capacity) key value hash hl (by omega) (by omega) hkey
    simp only [hg, if_true, hn, Option.map_some', hi, he]
    by_cases hk : IS_NULL e.key = true
    · simp only [hk, if_true] at w3 ⊢
      refine ⟨_, _, _, rfl, w1, by omega, ?_, ?_, ?_, ?_, by omega, ?_⟩
      · simp; omega
      · simp; omega
      · simp; omega
      · intro hnull
        have := hx hnull
        simp; omega
      · intro hc
        omega
    · simp only [hk, if_false, Bool.false_eq_true] at w3 ⊢
      refine ⟨_, _, _, rfl, w1, by omega, ?_, ?_, ?_, ?_, by omega, ?_⟩
      · simp; omega
      · simp; omega
      · simp; omega
      · intro hnull
        have := hx hnull
        simp; omega
      · intro hc
        omega
  · have hg' : ¬ (3 * (capacity : Int) < 4 * (contains + 1)) := by
      rwa [← exceedsMaxLoad_iff]
    have hpart := slot_partition es
    obtain ⟨i, e, hi, he, _, _, w1, w2, w3⟩ := setEntryArray_write ops es
      capacity key value hash hlen (by omega) (by omega) hkey
    simp only [hg, if_false, Bool.false_eq_true, hi, he]
    by_cases hk : IS_NULL e.key = true
    · simp only [hk, if_true] at w3 ⊢
      refine ⟨_, _, _, rfl, w1, by omega, ?_, ?_, ?_, ?_, by omega, ?_⟩
      · simp; omega
      · simp; omega
      · simp; omega
      · intro _
        simp; omega
      · intro _
        simp; omega
    · simp only [hk, if_false, Bool.false_eq_true] at w3 ⊢
      refine ⟨_, _, _, rfl, w1, by omega, ?_, ?_, ?_, ?_, by omega, ?_⟩
      · simp; omega
      · simp; omega
      · simp; omega
      · intro _
        simp; omega
      · intro _
        simp; omega

theorem set_wellSized (ops : LiteralOps) (d : LiteralDictionary) (key value : Literal)
    (h : WellSized d) :
    ∃ d', setLiteralDictionary ops d key value = some d' ∧ WellSized d' ∧
      (NullIsDistinct ops → (occupiedSlots d.entries : Int) = d.count →
        (occupiedSlots d'.entries : Int) = d'.count) ∧
      d.capacity ≤ d'.capacity ∧
      (d'.capacity = d.capacity →
        ((occupiedSlots d.entries + tombstonedSlots d.entries : Nat) : Int) = d.contains →
        ((occupiedSlots d'.entries + tombstonedSlots d'.entries : Nat) : Int) = d'.contains) := by
  unfold setLiteralDictionary
  by_cases hk : IS_NULL key = true
  · simp only [hk, if_true]
    exact ⟨d, rfl, h, fun _ hc => hc, le_refl _, fun _ hc => hc⟩
  · have hk' : IS_NULL key = false := by simpa using hk
    obtain ⟨es', cap', inc, hset, hlen, hcap, hload, hused, hocc, hex, hmono, hsame⟩ :=
      setEntryArray_spec ops d.entries d.capacity d.contains key value (ops.hashLiteral key)
        h.length_eq h.cap_ge h.used_le h.load hk'
    have ho := h.occ_le
    have hc := h.count_le
    simp only [hk, if_false, Bool.false_eq_true, hset]
    cases inc with
    | true =>
      simp only [if_true] at hload hused hocc hex hsame ⊢
      refine ⟨_, rfl, ⟨hlen, hcap, hused, hload, ?_, ?_⟩, ?_, hmono, ?_⟩
      · simp only; omega
      · simp only; omega
      · intro hnull heq
        have := hex hnull
        simp only; omega
      · intro hc heq
        have := hsame hc
        simp only at *; omega
    | false =>
      simp only [if_false, Bool.false_eq_true] at hload hused hocc hex hsame ⊢
      refine ⟨_, rfl, ⟨hlen, hcap, ?_, ?_, ?_, ?_⟩, ?_, hmono, ?_⟩
      · simp only; omega
      · simp only; omega
      · simp only; omega
      · simp only; omega
      · intro hnull heq
        have := hex hnull
        simp only; omega
      · intro hc heq
        have := hsame hc
        simp only at *; omega

theorem remove_wellSized (ops : LiteralOps) (d : LiteralDictionary) (key : Literal)
    (h : WellSized d) :
    WellSized (removeLiteralDictionary ops d key) ∧
      ((occupiedSlots d.entries : Int) = d.count →
        (occupiedSlots (removeLiteralDictionary ops d key).entries : Int) =
          (removeLiteralDictionary ops d key).count) ∧
      (removeLiteralDictionary ops d key).capacity = d.capacity ∧
      (removeLiteralDictionary ops d key).contains = d.contains ∧
      occupiedSlots (removeLiteralDictionary ops d key).entries +
          tombstonedSlots (removeLiteralDictionary ops d key).entries =
        occupiedSlots d.entries + tombstonedSlots d.entries := by
  unfold removeLiteralDictionary
  by_cases hk : IS_NULL key = true
  · simp only [hk, if_true]
    exact ⟨h, fun hc => hc, trivial, trivial, trivial⟩
  · simp only [hk, if_false, Bool.false_eq_true]
    cases hi : getEntryArray ops d.entries d.capacity key (ops.hashLiteral key) true with
    | none => exact ⟨h, fun hc => hc, rfl, rfl, rfl⟩
    | some i =>
      obtain ⟨_, e, he, hstop⟩ := getEntryArray_sound _ _ _ _ _ _ _ hi
      simp only [he]
      have hocc : isOccupied e = true := by
        unfold probeStops at hstop
        unfold isOccupied
        by_cases hn : IS_NULL e.key = true
        · simp [hn] at hstop
        · simpa using hn
      have htomb : isTombstone e = false := by
        unfold isOccupied at hocc
        unfold isTombstone
        simp at hocc
        simp [hocc]
      have ht := countP_set isTombstone d.entries i e
        { freeEntry e with value := TO_BOOLEAN_LITERAL true } he
      have ho := countP_set isOccupied d.entries i e
        { freeEntry e with value := TO_BOOLEAN_LITERAL true } he
      have n1 : isTombstone { freeEntry e with value := TO_BOOLEAN_LITERAL true } = true := by
        simp [isTombstone, freeEntry, TO_NULL_LITERAL, TO_BOOLEAN_LITERAL, IS_NULL]
      have n2 : isOccupied { freeEntry e with value := TO_BOOLEAN_LITERAL true } = false := by
        simp [isOccupied, freeEntry, TO_NULL_LITERAL, IS_NULL]
      simp only [n1, n2, hocc, htomb, if_true, if_false, Bool.false_eq_true] at ht ho
      have hu := h.used_le
      have hol := h.occ_le
      have hcl := h.count_le
      refine ⟨⟨?_, h.cap_ge, ?_, h.load, ?_, ?_⟩, ?_, trivial, trivial, ?_⟩
      · simp only [List.length_set]; exact h.length_eq
      · simp only [occupiedSlots, tombstonedSlots] at *; omega
      · simp only [occupiedSlots, tombstonedSlots] at *; omega
      · simp only; omega
      · intro heq
        simp only [occupiedSlots, tombstonedSlots] at *; omega
      · simp only [occupiedSlots, tombstonedSlots] at *; omega

theorem reachable_wellSized (ops : LiteralOps) (d : LiteralDictionary) (h : Reachable ops d) :
    WellSized d := by
  induction h with
  | init hi => exact (init_wellSized ops _ hi).1
  | set key value _ hs ih =>
    obtain ⟨d1, h1, hw, _, _, _⟩ := set_wellSized ops _ key value ih
    rw [h1] at hs
    cases hs
    exact hw
  | remove key _ ih => exact (remove_wellSized ops _ key ih).1

theorem reachable_count_exact (ops : LiteralOps) (hnull : NullIsDistinct ops)
    (d : LiteralDictionary) (h : Reachable ops d) :
    (occupiedSlots d.entries : Int) = d.count := by
  induction h with
  | init hi => exact (init_wellSized ops _ hi).2
  | set key value hr hs ih =>
    obtain ⟨d1, h1, _, hx, _, _⟩ := set_wellSized ops _ key value (reachable_wellSized ops _ hr)
    rw [h1] at hs
    cases hs
    exact hx hnull ih
  | remove key hr ih => exact (remove_wellSized ops _ key (reachable_wellSized ops _ hr)).2.1 ih

theorem reachable_contains_exact (ops : LiteralOps) (d : LiteralDictionary)
    (h : Reachable ops d) (hcap : d.capacity = GROW_CAPACITY 0) :
    ((occupiedSlots d.entries + tombstonedSlots d.entries : Nat) : Int) = d.contains := by
  induction h with
  | init hi =>
    rw [init_eq] at hi
    simp at hi
    subst hi
    simp [occupiedSlots, tombstonedSlots, isOccupied, isTombstone, TO_NULL_LITERAL, IS_NULL]
  | set key value hr hs ih =>
    have hw := reachable_wellSized ops _ hr
    obtain ⟨d1, h1, _, _, hmono, hsame⟩ := set_wellSized ops _ key value hw
    rw [h1] at hs
    cases hs
    have hge := hw.cap_ge
    have h8 : GROW_CAPACITY 0 = 8 := rfl
    exact hsame (by omega) (ih (by omega))
  | remove key hr ih =>
    obtain ⟨_, _, hc, hn, hu⟩ := remove_wellSized ops _ key (reachable_wellSized ops _ hr)
    rw [hc] at hcap
    rw [hn, hu]
    exact ih hcap

/-! ## Fuel of the probe loop -/

theorem getEntryLoop_fuel (ops : LiteralOps) (array : List _entry) (capacity : Nat)
    (key : Literal) (mustExist : Bool) (start : Nat) (hstart : start < capacity) :
    ∀ fuel index extra, index < capacity → stepsToStart capacity start index ≤ fuel →
      getEntryLoop ops array capacity key mustExist start (fuel + extra) index =
        getEntryLoop ops array capacity key mustExist start fuel index := by
  intro fuel
  induction fuel with
  | zero =>
    intro index extra hi hsteps
    have : index = start := by
      unfold stepsToStart at hsteps
      split_ifs at hsteps <;> omega
    subst this
    cases extra with
    | zero => rfl
    | succ k => simp [getEntryLoop]
  | succ n ih =>
    intro index extra hi hsteps
    have hadd : n + 1 + extra = (n + extra) + 1 := by omega
    rw [hadd, getEntryLoop_succ, getEntryLoop_succ]
    split
    · rfl
    · next hne =>
      cases he : array[index]? with
      | none => rfl
      | some e =>
        simp only
        split
        · rfl
        · rw [succ_mod_capacity index capacity hi]
          refine ih _ extra ?_ ?_
          · split_ifs <;> omega
          · unfold stepsToStart at hsteps ⊢
            split_ifs at hsteps ⊢ <;> omega

/-- The loop of `getEntryArray` ends by its own test within `capacity` units of
fuel: more fuel gives the same result. -/
theorem getEntryArray_fuel (ops : LiteralOps) (array : List _entry) (capacity : Nat)
    (key : Literal) (hash : Nat) (mustExist : Bool) (hcap : 0 < capacity) (extra : Nat) :
    getEntryLoop ops array capacity key mustExist (hash % capacity) (capacity + extra)
        ((hash % capacity + 1) % capacity) =
      getEntryArray ops array capacity key hash mustExist := by
  have hstart : hash % capacity < capacity := Nat.mod_lt _ hcap
  unfold getEntryArray
  simp only
  refine getEntryLoop_fuel ops array capacity key mustExist _ hstart capacity _ extra
    (Nat.mod_lt _ hcap) ?_
  rw [succ_mod_capacity _ capacity hstart]
  unfold stepsToStart
  split_ifs <;> omega

/-! ## Reading back what was written -/

theorem probeStops_mustExist (ops : LiteralOps) (key : Literal) (e : _entry)
    (h : probeStops ops key true e = true) :
    probeStops ops key false e = true ∧ IS_NULL e.key = false := by
  unfold probeStops at h ⊢
  by_cases hk : IS_NULL e.key = true
  · simp [hk] at h
  · simp [hk] at h ⊢
    exact h

theorem getEntryLoop_after_write (ops : LiteralOps) (es : List _entry) (capacity : Nat)
    (key : Literal) (start i : Nat) (new : _entry)
    (hnew : IS_NULL new.key = false) (heq : ops.literalsAreEqual key new.key = true) :
    ∀ fuel index,
      getEntryLoop ops es capacity key false start fuel index = some i →
      getEntryLoop ops (es.set i new) capacity key true start fuel index = some i := by
  intro fuel
  induction fuel with
  | zero => intro index h; simp [getEntryLoop] at h
  | succ n ih =>
    intro index h
    rw [getEntryLoop_succ] at h ⊢
    split at h
    · simp at h
    · next hne =>
      rw [if_neg hne]
      cases he : es[index]? with
      | none => simp [he] at h
      | some e =>
        simp only [he] at h
        have hlt : index < es.length := by
          by_contra hge
          rw [List.getElem?_eq_none (by omega)] at he
          simp at he
        split at h
        · next hs =>
          simp at h
          subst h
          rw [List.getElem?_set_self hlt]
          simp [probeStops, hnew, heq]
        · next hs =>
          have hi : index ≠ i := by
            intro hii
            obtain ⟨_, e', he', hs'⟩ := getEntryLoop_sound _ _ _ _ _ _ _ _ _ h
            rw [← hii, he] at he'
            simp at he'
            subst he'
            exact hs hs'
          rw [List.getElem?_set_ne (Ne.symm hi), he]
          simp only
          have hs2 : ¬ probeStops ops key true e = true :=
            fun h2 => hs (probeStops_mustExist ops key e h2).1
          rw [if_neg hs2]
          exact ih _ h

theorem setEntryArray_shape (ops : LiteralOps) (es : List _entry) (capacity : Nat)
    (contains : Int) (key value : Literal) (hash : Nat)
    (es' : List _entry) (capacity' : Nat) (increment : Bool)
    (h : setEntryArray ops es capacity contains key value hash = some (es', capacity', increment)) :
    ∃ es0 i e,
      ((exceedsMaxLoad contains capacity = false ∧ es0 = es ∧ capacity' = capacity) ∨
        (exceedsMaxLoad contains capacity = true ∧
          adjustEntryCapacity ops es capacity (GROW_CAPACITY capacity) = some es0 ∧
          capacity' = GROW_CAPACITY capacity)) ∧
      getEntryArray ops es0 capacity' key hash false = some i ∧ es0[i]? = some e ∧
      es' = es0.set i (setEntryValues e (setEntryArrayKey key value) value) ∧
      increment = IS_NULL e.key := by
  unfold setEntryArray at h
  by_cases hg : exceedsMaxLoad contains capacity = true
  · simp only [hg, if_true] at h
    cases hadj : adjustEntryCapacity ops es capacity (GROW_CAPACITY capacity) with
    | none => simp [hadj] at h
    | some es0 =>
      simp only [hadj, Option.map_some'] at h
      cases hi : getEntryArray ops es0 (GROW_CAPACITY capacity) key hash false with
      | none => simp [hi] at h
      | some i =>
        simp only [hi] at h
        cases he : es0[i]? with
        | none => simp [he] at h
        | some e =>
          simp only [he] at h
          refine ⟨es0, i, e, Or.inr ⟨hg, rfl, ?_⟩, ?_, he, ?_, ?_⟩ <;>
            (by_cases hk : IS_NULL e.key = true <;> simp [hk] at h <;>
              obtain ⟨h1, h2, h3⟩ := h <;> simp_all)
  · have hg' : exceedsMaxLoad contains capacity = false := by simpa using hg
    simp only [hg', Bool.false_eq_true, if_false] at h
    cases hi : getEntryArray ops es capacity key hash false with
    | none => simp [hi] at h
    | some i =>
      simp only [hi] at h
      cases he : es[i]? with
      | none => simp [he] at h
      | some e =>
        simp only [he] at h
        refine ⟨es, i, e, Or.inl ⟨hg', rfl, ?_⟩, ?_, he, ?_, ?_⟩ <;>
          (by_cases hk : IS_NULL e.key = true <;> simp [hk] at h <;>
            obtain ⟨h1, h2, h3⟩ := h <;> simp_all)

/-- Totality of `setLiteralDictionary` on reachable states, and the round trip
for a value that is neither a String nor an Identifier. -/
theorem set_then_get_plain (ops : LiteralOps) (d : LiteralDictionary) (hd : Reachable ops d)
    (key value : Literal) (hkey : IS_NULL key = false)
    (hrefl : ops.literalsAreEqual key key = true)
    (hs : IS_STRING value = false) (hi : IS_IDENTIFIER value = false) :
    ∃ d', setLiteralDictionary ops d key value = some d' ∧
      getLiteralDictionary ops d' key = value := by
  obtain ⟨d', hset, _, _, _, _⟩ := set_wellSized ops d key value (reachable_wellSized ops d hd)
  refine ⟨d', hset, ?_⟩
  unfold setLiteralDictionary at hset
  simp only [hkey, Bool.false_eq_true, if_false] at hset
  cases hsa : setEntryArray ops d.entries d.capacity d.contains key value (ops.hashLiteral key) with
  | none => simp [hsa] at hset
  | some r =>
    obtain ⟨es', cap', inc⟩ := r
    obtain ⟨es0, i, e, _, hprobe, he, hes', _⟩ :=
      setEntryArray_shape ops _ _ _ _ _ _ _ _ _ hsa
    have hentries : d'.entries = es' ∧ d'.capacity = cap' := by
      simp only [hsa] at hset
      cases inc <;> simp at hset <;> subst hset <;> exact ⟨rfl, rfl⟩
    have hplain := setEntryArrayKey_plain key value hs hi
    rw [hplain, setEntryValues_eq] at hes'
    have hlt : i < es0.length := by
      by_contra hge
      rw [List.getElem?_eq_none (by omega)] at he
      simp at he
    have hback := getEntryLoop_after_write ops es0 cap' key (ops.hashLiteral key % cap') i
      { key := key, value := value } hkey hrefl cap' _ hprobe
    unfold getLiteralDictionary
    simp only [hkey, Bool.false_eq_true, if_false, hentries.1, hentries.2, hes']
    unfold getEntryArray
    simp only
    rw [hback]
    simp only [List.getElem?_set_self hlt]

/-- The defect of `setEntryArray` for any `literalsAreEqual` and `hashLiteral`:
on a fresh dictionary, storing a String under a key that is not equal to that
String succeeds, and the key then reads back as Null. -/
theorem set_string_then_get_null (ops : LiteralOps) (key : Literal) (s : String)
    (hkey : IS_NULL key = false)
    (hne : ops.literalsAreEqual key (Literal.string s) = false) :
    ∃ d', applyCalls ops [DictCall.set key (Literal.string s)] = some d' ∧
      getLiteralDictionary ops d' key = TO_NULL_LITERAL := by
  obtain ⟨d0, hinit, hd0e, hd0c, hd0n⟩ : ∃ d0, initLiteralDictionary ops = some d0 ∧
      d0.entries = List.replicate 8 { key := TO_NULL_LITERAL, value := TO_NULL_LITERAL } ∧
      d0.capacity = 8 ∧ d0.contains = 0 := ⟨_, init_eq ops, rfl, rfl, rfl⟩
  obtain ⟨d', hset, _, _, _, _⟩ := set_wellSized ops d0 key (Literal.string s)
    (init_wellSized ops d0 hinit).1
  refine ⟨d', ?_, ?_⟩
  · simp [applyCalls, hinit, applyCall, hset]
  unfold setLiteralDictionary at hset
  simp only [hkey, Bool.false_eq_true, if_false] at hset
  cases hsa : setEntryArray ops d0.entries d0.capacity d0.contains key (Literal.string s)
      (ops.hashLiteral key) with
  | none => simp [hsa] at hset
  | some r =>
    obtain ⟨es', cap', inc⟩ := r
    obtain ⟨es0, i, e, hgrow, _, he, hes', _⟩ := setEntryArray_shape ops _ _ _ _ _ _ _ _ _ hsa
    have hentries : d'.entries = es' ∧ d'.capacity = cap' := by
      simp only [hsa] at hset
      cases inc <;> simp at hset <;> subst hset <;> exact ⟨rfl, rfl⟩
    have hes0 : es0 = List.replicate 8 { key := TO_NULL_LITERAL, value := TO_NULL_LITERAL } := by
      rcases hgrow with ⟨_, h, _⟩ | ⟨h, _, _⟩
      · rw [h, hd0e]
      · simp [exceedsMaxLoad, DICTIONARY_MAX_LOAD, hd0c, hd0n] at h
    have hk : setEntryArrayKey key (Literal.string s) = Literal.string s := by
      unfold setEntryArrayKey
      cases key <;> rfl
    rw [hk, setEntryValues_eq] at hes'
    unfold getLiteralDictionary
    simp only [hkey, Bool.false_eq_true, if_false, hentries.1, hentries.2]
    cases hget : getEntryArray ops es' cap' key (ops.hashLiteral key) true with
    | none => rfl
    | some j =>
      exfalso
      obtain ⟨_, e', he', hstop⟩ := getEntryArray_sound _ _ _ _ _ _ _ hget
      obtain ⟨_, hnn⟩ := probeStops_mustExist ops key e' hstop
      by_cases hji : j = i
      · subst hji
        have hlt : j < es0.length := by
          by_contra hge
          rw [List.getElem?_eq_none (by omega)] at he
          simp at he
        rw [hes', List.getElem?_set_self hlt] at he'
        simp at he'
        subst he'
        simp [probeStops, IS_NULL, hne] at hstop
      · rw [hes', List.getElem?_set_ne (Ne.symm hji), hes0] at he'
        rw [List.getElem?_replicate] at he'
        split at he'
        · simp at he'
          subst he'
          simp [TO_NULL_LITERAL, IS_NULL] at hnn
        · simp at he'

/-! ## Concrete runs -/

theorem sampleOps_nullIsDistinct : NullIsDistinct sampleOps := by
  intro k hk
  cases k <;> simp_all [sampleOps, TO_NULL_LITERAL, IS_NULL]

theorem churnedDictionary_run : applyCalls sampleOps (churnCalls.take 7) = some churnedDictionary := by
  decide

theorem grownDictionary_run : applyCalls sampleOps churnCalls = some grownDictionary := by
  decide

theorem grownDictionary_reachable : Reachable sampleOps grownDictionary :=
  applyCalls_reachable sampleOps churnCalls grownDictionary grownDictionary_run

theorem churnedDictionary_reachable : Reachable sampleOps churnedDictionary :=
  applyCalls_reachable sampleOps (churnCalls.take 7) churnedDictionary churnedDictionary_run

/-! ## Claims on the dictionary -/

/-- C1 (defect in `setEntryArray`): the round trip fails when the value is a
String.  On a fresh dictionary, `setLiteralDictionary(d, 1, "a")` stores the
slot `(key = "a", value = "a")`, because the copy of the value is assigned to
the local `key`; `getLiteralDictionary(d, 1)` then returns Null, not `"a"`. -/
theorem C1_string_value_replaces_key :
    (applyCalls sampleOps [.set (.number 1) (.string "a")]).map
        (fun d => (d.entries[2]?, getLiteralDictionary sampleOps d (.number 1))) =
      some (some { key := .string "a", value := .string "a" }, Literal.null) := by
  decide

/-- C2 (defect in `setEntryArray`): the overwrite is not idempotent when the
first value is a String.  After `setLiteralDictionary(d, 1, "a")` the count is
1; the second call `setLiteralDictionary(d, 1, 2)` does not find key `1`
(the slot holds key `"a"`), claims a second slot and the count becomes 2. -/
theorem C2_second_set_claims_new_slot :
    (applyCalls sampleOps [.set (.number 1) (.string "a")]).map
        (fun d => (d.count, occupiedSlots d.entries)) = some (1, 1) ∧
    (applyCalls sampleOps [.set (.number 1) (.string "a"), .set (.number 1) (.number 2)]).map
        (fun d => (d.count, occupiedSlots d.entries, d.entries[2]?, d.entries[3]?)) =
      some (2, 2, some { key := .string "a", value := .string "a" },
        some { key := .number 1, value := .number 2 }) := by
  decide

/-- C3 (defect in `setEntryArray`): after two calls
`setLiteralDictionary(d, 1, "a")` two slots hold the key `"a"`;
`removeLiteralDictionary(d, "a")` tombstones the first one only, so that
afterwards `existsLiteralDictionary(d, "a")` is true and
`getLiteralDictionary(d, "a")` returns `"a"`, not Null. -/
theorem C3_remove_leaves_second_copy :
    (applyCalls sampleOps
        [.set (.number 1) (.string "a"), .set (.number 1) (.string "a"),
         .remove (.string "a")]).map
        (fun d => (existsLiteralDictionary sampleOps d (.string "a"),
          getLiteralDictionary sampleOps d (.string "a"))) =
      some (some true, Literal.string "a") := by
  decide

/-- C8: in every dictionary state reachable from `initLiteralDictionary` by
calls of `setLiteralDictionary` and `removeLiteralDictionary`, the capacity is
positive, `0 <= count <= contains`, `contains <= capacity * DICTIONARY_MAX_LOAD`
(written without division) and hence `contains <= capacity`; the slot array has
`capacity` slots. -/
theorem C8_size_invariant (ops : LiteralOps) (d : LiteralDictionary) (h : Reachable ops d) :
    0 < d.capacity ∧ d.entries.length = d.capacity ∧ 0 ≤ d.count ∧ d.count ≤ d.contains ∧
      (DICTIONARY_MAX_LOAD.2 : Int) * d.contains ≤ DICTIONARY_MAX_LOAD.1 * (d.capacity : Int) ∧
      d.contains ≤ d.capacity := by
  have hw := reachable_wellSized ops d h
  have h1 := hw.cap_ge
  have h2 := hw.load
  have h3 := hw.occ_le
  have h4 := hw.count_le
  refine ⟨by omega, hw.length_eq, by omega, h4, ?_, by omega⟩
  simp only [DICTIONARY_MAX_LOAD]
  omega

/-- Witness of C8: the state right after an insert that triggered growth. -/
theorem C8_size_invariant_witness :
    Reachable sampleOps grownDictionary ∧
      (0 < grownDictionary.capacity ∧ grownDictionary.entries.length = grownDictionary.capacity ∧
        0 ≤ grownDictionary.count ∧ grownDictionary.count ≤ grownDictionary.contains ∧
        (DICTIONARY_MAX_LOAD.2 : Int) * grownDictionary.contains ≤
          DICTIONARY_MAX_LOAD.1 * (grownDictionary.capacity : Int) ∧
        grownDictionary.contains ≤ grownDictionary.capacity) :=
  ⟨grownDictionary_reachable, C8_size_invariant sampleOps grownDictionary grownDictionary_reachable⟩

/-- C9 as stated fails: after one insert, its removal and six more inserts the
table has grown, the rehash has dropped the tombstone, and `contains` is 7 while
the slot array holds 6 occupied and no tombstoned slots. -/
theorem C9_contains_exceeds_used_slots :
    applyCalls sampleOps churnCalls = some grownDictionary ∧
      grownDictionary.contains = 7 ∧
      occupiedSlots grownDictionary.entries = 6 ∧ tombstonedSlots grownDictionary.entries = 0 := by
  decide

/-- C9 amended: in every reachable dictionary state, `contains` is at least the
number of occupied slots plus the number of tombstoned slots, and it is equal
to it as long as the table has not grown (its capacity is the initial one). -/
theorem C9_contains_bounds_used_slots (ops : LiteralOps) (d : LiteralDictionary)
    (h : Reachable ops d) :
    ((occupiedSlots d.entries + tombstonedSlots d.entries : Nat) : Int) ≤ d.contains ∧
      (d.capacity = GROW_CAPACITY 0 →
        d.contains = ((occupiedSlots d.entries + tombstonedSlots d.entries : Nat) : Int)) :=
  ⟨(reachable_wellSized ops d h).used_le,
    fun hcap => (reachable_contains_exact ops d h hcap).symm⟩

/-- Witness of the amended C9: a state with a tombstone, before any growth. -/
theorem C9_contains_bounds_used_slots_witness :
    Reachable sampleOps churnedDictionary ∧
      (((occupiedSlots churnedDictionary.entries + tombstonedSlots churnedDictionary.entries : Nat)
          : Int) ≤ churnedDictionary.contains ∧
        (churnedDictionary.capacity = GROW_CAPACITY 0 →
          churnedDictionary.contains =
            ((occupiedSlots churnedDictionary.entries +
              tombstonedSlots churnedDictionary.entries : Nat) : Int))) :=
  ⟨churnedDictionary_reachable,
    C9_contains_bounds_used_slots sampleOps churnedDictionary churnedDictionary_reachable⟩

/-- C10: provided `literalsAreEqual` never finds Null equal to a non-Null key,
in every reachable dictionary state the field `count` equals the number of
occupied slots (slots whose key is not Null) of the current slot array. -/
theorem C10_count_is_occupied (ops : LiteralOps) (hnull : NullIsDistinct ops)
    (d : LiteralDictionary) (h : Reachable ops d) :
    d.count = (occupiedSlots d.entries : Int) :=
  (reachable_count_exact ops hnull d h).symm

/-- Witness of C10: the state after a removal and a growth. -/
theorem C10_count_is_occupied_witness :
    NullIsDistinct sampleOps ∧ Reachable sampleOps grownDictionary ∧
      grownDictionary.count = (occupiedSlots grownDictionary.entries : Int) :=
  ⟨sampleOps_nullIsDistinct, grownDictionary_reachable,
    C10_count_is_occupied sampleOps sampleOps_nullIsDistinct grownDictionary
      grownDictionary_reachable⟩

/-! ## Remove, Null keys and the probe -/

theorem removeLiteralDictionary_found (ops : LiteralOps) (d : LiteralDictionary) (key : Literal)
    (hkey : IS_NULL key = false) (i : Nat)
    (h : getEntryArray ops d.entries d.capacity key (ops.hashLiteral key) true = some i) :
    removeLiteralDictionary ops d key =
      { d with entries := d.entries.set i { key := TO_NULL_LITERAL,
                                             value := TO_BOOLEAN_LITERAL true },
               count := d.count - 1 } := by
  obtain ⟨_, e, he, _⟩ := getEntryArray_sound _ _ _ _ _ _ _ h
  unfold removeLiteralDictionary
  simp only [hkey, Bool.false_eq_true, if_false, h, he]
  rfl

theorem removeLiteralDictionary_not_found (ops : LiteralOps) (d : LiteralDictionary)
    (key : Literal)
    (h : getEntryArray ops d.entries d.capacity key (ops.hashLiteral key) true = none) :
    removeLiteralDictionary ops d key = d := by
  unfold removeLiteralDictionary
  simp only [h]
  split <;> rfl

/-- C11: for every dictionary and non-Null key, `removeLiteralDictionary` leaves
`contains` and `capacity` as they were; when its lookup finds a slot (which
then holds a non-Null key equal to the query key) that slot becomes
`key = Null, value = Boolean(true)`, no other slot changes and `count` drops by
exactly 1; when the lookup finds none, the dictionary is unchanged. -/
theorem C11_remove_counters (ops : LiteralOps) (d : LiteralDictionary) (key : Literal)
    (hkey : IS_NULL key = false) :
    (removeLiteralDictionary ops d key).contains = d.contains ∧
      (removeLiteralDictionary ops d key).capacity = d.capacity ∧
      (∀ i, getEntryArray ops d.entries d.capacity key (ops.hashLiteral key) true = some i →
        (∃ e, d.entries[i]? = some e ∧ IS_NULL e.key = false ∧
          ops.literalsAreEqual key e.key = true) ∧
        (removeLiteralDictionary ops d key).count = d.count - 1 ∧
        (removeLiteralDictionary ops d key).entries =
          d.entries.set i { key := TO_NULL_LITERAL, value := TO_BOOLEAN_LITERAL true }) ∧
      (getEntryArray ops d.entries d.capacity key (ops.hashLiteral key) true = none →
        removeLiteralDictionary ops d key = d) := by
  refine ⟨?_, ?_, ?_, removeLiteralDictionary_not_found ops d key⟩
  · cases h : getEntryArray ops d.entries d.capacity key (ops.hashLiteral key) true with
    | none => rw [removeLiteralDictionary_not_found ops d key h]
    | some i => rw [removeLiteralDictionary_found ops d key hkey i h]
  · cases h : getEntryArray ops d.entries d.capacity key (ops.hashLiteral key) true with
    | none => rw [removeLiteralDictionary_not_found ops d key h]
    | some i => rw [removeLiteralDictionary_found ops d key hkey i h]
  · intro i h
    obtain ⟨_, e, he, hstop⟩ := getEntryArray_sound _ _ _ _ _ _ _ h
    obtain ⟨_, hnn⟩ := probeStops_mustExist ops key e hstop
    refine ⟨⟨e, he, hnn, ?_⟩, ?_, ?_⟩
    · simpa [probeStops, hnn] using hstop
    · rw [removeLiteralDictionary_found ops d key hkey i h]
    · rw [removeLiteralDictionary_found ops d key hkey i h]

/-- Witness of C11: removing key 2 from the dictionary with five live
entries and one tombstone. -/
theorem C11_remove_counters_witness :
    (removeLiteralDictionary sampleOps churnedDictionary (.number 2)).contains =
        churnedDictionary.contains ∧
      (removeLiteralDictionary sampleOps churnedDictionary (.number 2)).capacity =
        churnedDictionary.capacity ∧
      (∀ i, getEntryArray sampleOps churnedDictionary.entries churnedDictionary.capacity
          (.number 2) (sampleOps.hashLiteral (.number 2)) true = some i →
        (∃ e, churnedDictionary.entries[i]? = some e ∧ IS_NULL e.key = false ∧
          sampleOps.literalsAreEqual (.number 2) e.key = true) ∧
        (removeLiteralDictionary sampleOps churnedDictionary (.number 2)).count =
          churnedDictionary.count - 1 ∧
        (removeLiteralDictionary sampleOps churnedDictionary (.number 2)).entries =
          churnedDictionary.entries.set i
            { key := TO_NULL_LITERAL, value := TO_BOOLEAN_LITERAL true }) ∧
      (getEntryArray sampleOps churnedDictionary.entries churnedDictionary.capacity
          (.number 2) (sampleOps.hashLiteral (.number 2)) true = none →
        removeLiteralDictionary sampleOps churnedDictionary (.number 2) = churnedDictionary) :=
  C11_remove_counters sampleOps churnedDictionary (.number 2) rfl

/-- C13: with a Null key, `setLiteralDictionary` and `removeLiteralDictionary`
return the dictionary they were given (slot array, capacity, contains and count
unchanged) and `getLiteralDictionary` returns Null; the latter reads the
dictionary only. -/
theorem C13_null_key_rejected (ops : LiteralOps) (d : LiteralDictionary) (value : Literal) :
    setLiteralDictionary ops d TO_NULL_LITERAL value = some d ∧
      removeLiteralDictionary ops d TO_NULL_LITERAL = d ∧
      getLiteralDictionary ops d TO_NULL_LITERAL = TO_NULL_LITERAL := by
  refine ⟨?_, ?_, ?_⟩ <;>
    simp [setLiteralDictionary, removeLiteralDictionary, getLiteralDictionary, TO_NULL_LITERAL,
      IS_NULL]

theorem wellSized_two_empty (d : LiteralDictionary) (h : WellSized d) :
    2 ≤ emptySlots d.entries := by
  have h1 := slot_partition d.entries
  have h2 := h.length_eq
  have h3 := h.cap_ge
  have h4 := h.used_le
  have h5 := h.load
  omega

/-- C19: in every reachable dictionary state and for every key and value,
the insertion-mode lookup on the current slot array returns a slot,
`existsLiteralDictionary` returns a result, the rehash of
`adjustEntryCapacity` into the grown array completes with every one of its
lookups returning a slot, and `setLiteralDictionary` completes; in the
embedding a function returns `none` exactly when a lookup result that is
dereferenced is `NULL`. -/
theorem C19_probe_finds_slot (ops : LiteralOps) (d : LiteralDictionary) (h : Reachable ops d)
    (key value : Literal) (hash : Nat) :
    (∃ i, getEntryArray ops d.entries d.capacity key hash false = some i ∧
        i < d.capacity) ∧
      (∃ b, existsLiteralDictionary ops d key = some b) ∧
      (∃ es, adjustEntryCapacity ops d.entries d.capacity (GROW_CAPACITY d.capacity) = some es) ∧
      (∃ d', setLiteralDictionary ops d key value = some d') := by
  have hw := reachable_wellSized ops d h
  have hcap := hw.cap_ge
  have hempty := wellSized_two_empty d hw
  refine ⟨?_, ?_, ?_, ?_⟩
  · obtain ⟨i, hi⟩ := getEntryArray_isSome ops d.entries d.capacity key hash hw.length_eq
      (by omega) hempty
    obtain ⟨_, e, he, _⟩ := getEntryArray_sound _ _ _ _ _ _ _ hi
    refine ⟨i, hi, ?_⟩
    by_contra hge
    rw [List.getElem?_eq_none (by have := hw.length_eq; omega)] at he
    simp at he
  · obtain ⟨i, hi⟩ := getEntryArray_isSome ops d.entries d.capacity key (ops.hashLiteral key)
      hw.length_eq (by omega) hempty
    obtain ⟨_, e, he, _⟩ := getEntryArray_sound _ _ _ _ _ _ _ hi
    exact ⟨!(IS_NULL e.key && IS_NULL e.value), by simp [existsLiteralDictionary, hi, he]⟩
  · have hgrow := GROW_CAPACITY_of_ge d.capacity hcap
    obtain ⟨new, hn, _⟩ := adjustEntryCapacity_spec ops d.entries d.capacity
      (GROW_CAPACITY d.capacity) hw.length_eq (by omega)
    exact ⟨new, hn⟩
  · obtain ⟨d', hd', _⟩ := set_wellSized ops d key value hw
    exact ⟨d', hd'⟩

/-- Witness of C19: the dictionary with five live entries and one tombstone,
whose next insert grows the table. -/
theorem C19_probe_finds_slot_witness :
    Reachable sampleOps churnedDictionary ∧
      ((∃ i, getEntryArray sampleOps churnedDictionary.entries churnedDictionary.capacity
            (.number 7) 7 false = some i ∧ i < churnedDictionary.capacity) ∧
        (∃ b, existsLiteralDictionary sampleOps churnedDictionary (.number 7) = some b) ∧
        (∃ es, adjustEntryCapacity sampleOps churnedDictionary.entries
            churnedDictionary.capacity (GROW_CAPACITY churnedDictionary.capacity) = some es) ∧
        (∃ d', setLiteralDictionary sampleOps churnedDictionary (.number 7) (.boolean false) =
            some d')) :=
  ⟨churnedDictionary_reachable,
    C19_probe_finds_slot sampleOps churnedDictionary churnedDictionary_reachable (.number 7)
      (.boolean false) 7⟩

/-! ## Churn -/

theorem applyCalls_append (ops : LiteralOps) (xs ys : List DictCall) (d : LiteralDictionary)
    (h : applyCalls ops xs = some d) :
    applyCalls ops (xs ++ ys) = ys.foldlM (applyCall ops) d := by
  unfold applyCalls at h ⊢
  cases hi : initLiteralDictionary ops with
  | none => simp [hi] at h
  | some d0 =>
    simp only [hi, Option.some_bind] at h ⊢
    rw [List.foldlM_append, h]
    rfl

theorem churn_round (ops : LiteralOps) (d : LiteralDictionary) (key value : Literal)
    (hw : WellSized d) (hocc : occupiedSlots d.entries = 0) (hcount : d.count = 0)
    (hkey : IS_NULL key = false) (hrefl : ops.literalsAreEqual key key = true)
    (hs : IS_STRING value = false) (hi : IS_IDENTIFIER value = false) :
    ∃ d1, setLiteralDictionary ops d key value = some d1 ∧
      WellSized (removeLiteralDictionary ops d1 key) ∧
      occupiedSlots (removeLiteralDictionary ops d1 key).entries = 0 ∧
      (removeLiteralDictionary ops d1 key).count = 0 ∧
      (removeLiteralDictionary ops d1 key).contains = d.contains + 1 := by
  obtain ⟨d1, hset, hw1, _, _, _⟩ := set_wellSized ops d key value hw
  refine ⟨d1, hset, ?_⟩
  have hset0 := hset
  unfold setLiteralDictionary at hset
  simp only [hkey, Bool.false_eq_true, if_false] at hset
  cases hsa : setEntryArray ops d.entries d.capacity d.contains key value (ops.hashLiteral key) with
  | none => simp [hsa] at hset
  | some r =>
    obtain ⟨es', cap', inc⟩ := r
    obtain ⟨es0, i, e, hgrow, hprobe, he, hes', hinc⟩ :=
      setEntryArray_shape ops _ _ _ _ _ _ _ _ _ hsa
    -- the array probed holds no occupied slot
    have hocc0 : occupiedSlots es0 = 0 := by
      rcases hgrow with ⟨_, h, _⟩ | ⟨_, hadj, _⟩
      · rw [h]; exact hocc
      · obtain ⟨new, hn, _, _, hle, _⟩ := adjustEntryCapacity_spec ops d.entries d.capacity
          (GROW_CAPACITY d.capacity) hw.length_eq
          (by have := GROW_CAPACITY_of_ge d.capacity hw.cap_ge; have := hw.cap_ge; omega)
        rw [hadj] at hn
        cases hn
        omega
    have hek : IS_NULL e.key = true := by
      have hmem : e ∈ es0 := List.getElem?_mem he
      have := (List.countP_eq_zero.mp hocc0) e hmem
      simpa [isOccupied] using this
    have hinc' : inc = true := by rw [hinc, hek]
    subst hinc'
    simp only [hsa, if_true] at hset
    have hd1 : d1 = { entries := es', capacity := cap', contains := d.contains + 1,
                      count := d.count + 1 } := by
      simp at hset
      exact hset.symm
    have hplain := setEntryArrayKey_plain key value hs hi
    rw [hplain, setEntryValues_eq] at hes'
    -- the lookup of the removal finds the slot just written
    have hback := getEntryLoop_after_write ops es0 cap' key (ops.hashLiteral key % cap') i
      { key := key, value := value } hkey hrefl cap' _ hprobe
    have hfound : getEntryArray ops d1.entries d1.capacity key (ops.hashLiteral key) true
        = some i := by
      rw [hd1, hes']
      exact hback
    have hrm := removeLiteralDictionary_found ops d1 key hkey i hfound
    have hstop : probeStops ops key false e = true :=
      (getEntryArray_sound _ _ _ _ _ _ _ hprobe).2.elim (fun e' h => by
        rw [he] at h
        simp at h
        obtain ⟨h1, h2⟩ := h
        subst h1
        exact h2)
    obtain ⟨_, _, hocc1⟩ := write_slot_counts ops es0 key i e { key := key, value := value } he
      hstop hkey
    simp only [hek, if_true] at hocc1
    have hocc1' : (occupiedSlots d1.entries : Int) = d1.count := by
      rw [hd1, hes', hocc1, hocc0, hcount]
      simp
    obtain ⟨hw2, hex2, _, hcont2, _⟩ := remove_wellSized ops d1 key hw1
    have hc2 : (removeLiteralDictionary ops d1 key).count = 0 := by
      rw [hrm, hd1]
      simp only
      omega
    refine ⟨hw2, ?_, hc2, ?_⟩
    · have := hex2 hocc1'
      omega
    · rw [hcont2, hd1]

theorem churnRounds_spec (ops : LiteralOps) (key value : Literal)
    (hkey : IS_NULL key = false) (hrefl : ops.literalsAreEqual key key = true)
    (hs : IS_STRING value = false) (hi : IS_IDENTIFIER value = false) (n : Nat) :
    ∃ d, applyCalls ops (churnRounds key value n) = some d ∧ WellSized d ∧
      occupiedSlots d.entries = 0 ∧ d.count = 0 ∧ d.contains = n := by
  induction n with
  | zero =>
    refine ⟨_, init_eq ops, (init_wellSized ops _ (init_eq ops)).1, ?_, rfl, rfl⟩
    simp [occupiedSlots, isOccupied, TO_NULL_LITERAL, IS_NULL]
  | succ n ih =>
    obtain ⟨d, hd, hw, hocc, hcount, hcont⟩ := ih
    obtain ⟨d1, hset, hw2, hocc2, hcount2, hcont2⟩ :=
      churn_round ops d key value hw hocc hcount hkey hrefl hs hi
    refine ⟨removeLiteralDictionary ops d1 key, ?_, hw2, hocc2, hcount2, ?_⟩
    · rw [churnRounds, applyCalls_append ops _ _ d hd]
      simp [applyCall, hset]
    · rw [hcont2, hcont]
      push_cast
      ring

/-- C12: provided `literalsAreEqual` finds the key equal to itself, for every
`n`, every non-Null key and every value that is neither a String nor an
Identifier, `n` rounds of `setLiteralDictionary(d, k, v)` followed by
`removeLiteralDictionary(d, k)` on a fresh dictionary all complete and leave
`count = 0` and `contains = n` with no occupied slot: every insert claims a
slot that was empty, none reuses a tombstone; and the capacity is at least
`4 n / 3`, so it grows without bound. -/
theorem C12_churn_grows_table (ops : LiteralOps) (key value : Literal)
    (hkey : IS_NULL key = false) (hrefl : ops.literalsAreEqual key key = true)
    (hs : IS_STRING value = false) (hi : IS_IDENTIFIER value = false) (n : Nat) :
    ∃ d, applyCalls ops (churnRounds key value n) = some d ∧
      d.count = 0 ∧ d.contains = n ∧ occupiedSlots d.entries = 0 ∧
      4 * (n : Int) ≤ 3 * (d.capacity : Int) := by
  obtain ⟨d, hd, hw, hocc, hcount, hcont⟩ := churnRounds_spec ops key value hkey hrefl hs hi n
  refine ⟨d, hd, hcount, hcont, hocc, ?_⟩
  have := hw.load
  rw [hcont] at this
  exact this

/-- Witness of C12: seven rounds with key 1 under the sample helpers; the
seventh insert grows the table. -/
theorem C12_churn_grows_table_witness :
    ∃ d, applyCalls sampleOps (churnRounds (.number 1) (.boolean false) 7) = some d ∧
      d.count = 0 ∧ d.contains = (7 : Nat) ∧ occupiedSlots d.entries = 0 ∧
      4 * ((7 : Nat) : Int) ≤ 3 * (d.capacity : Int) :=
  C12_churn_grows_table sampleOps (.number 1) (.boolean false) rfl (by decide) rfl rfl 7

/-! ## Where the probe starts -/

theorem getEntryArray_first (ops : LiteralOps) (array : List _entry) (capacity : Nat)
    (key : Literal) (hash : Nat) (mustExist : Bool) (e : _entry) (hcap : 2 ≤ capacity)
    (he : array[(hash % capacity + 1) % capacity]? = some e)
    (hs : probeStops ops key mustExist e = true) :
    getEntryArray ops array capacity key hash mustExist = some ((hash % capacity + 1) % capacity) := by
  have hstart : hash % capacity < capacity := Nat.mod_lt _ (by omega)
  have hne : (hash % capacity + 1) % capacity ≠ hash % capacity := by
    rw [succ_mod_capacity _ capacity hstart]
    split <;> omega
  unfold getEntryArray
  simp only
  obtain ⟨n, hn⟩ : ∃ n, capacity = n + 1 := ⟨capacity - 1, by omega⟩
  rw [show getEntryLoop ops array capacity key mustExist (hash % capacity) capacity
        ((hash % capacity + 1) % capacity) =
      getEntryLoop ops array capacity key mustExist (hash % capacity) (n + 1)
        ((hash % capacity + 1) % capacity) by rw [← hn]]
  rw [getEntryLoop_succ, if_neg hne, he]
  simp [hs]

theorem getEntryLoop_first (ops : LiteralOps) (array : List _entry) (capacity : Nat)
    (key : Literal) (mustExist : Bool) (start : Nat) (hstart : start < capacity) :
    ∀ fuel index i, index < capacity →
      getEntryLoop ops array capacity key mustExist start fuel index = some i →
      ahead capacity start index i ∧
        ∀ j, ahead capacity i index j →
          ∃ e, array[j]? = some e ∧ probeStops ops key mustExist e = false := by
  intro fuel
  induction fuel with
  | zero => intro index i _ h; simp [getEntryLoop] at h
  | succ n ih =>
    intro index i hi h
    rw [getEntryLoop_succ] at h
    split at h
    · simp at h
    · next hne =>
      cases he : array[index]? with
      | none => simp [he] at h
      | some e =>
        simp only [he] at h
        split at h
        · next hs =>
          simp at h
          subst h
          refine ⟨?_, ?_⟩
          · unfold ahead
            split_ifs <;> omega
          · intro j hj
            unfold ahead at hj
            simp at hj
            omega
        · next hs =>
          rw [succ_mod_capacity index capacity hi] at h
          obtain ⟨h1, h2⟩ := ih _ i (by split_ifs <;> omega) h
          refine ⟨?_, ?_⟩
          · unfold ahead at h1 ⊢
            split_ifs at h1 ⊢ <;> omega
          · intro j hj
            by_cases hji : j = index
            · subst hji
              exact ⟨e, he, by simpa using hs⟩
            · refine h2 j ?_
              unfold ahead at h1 hj ⊢
              split_ifs at h1 hj ⊢ <;> omega

/-- C18 as stated fails: on a fresh dictionary (capacity 8) the entry for key 1,
whose hash is 1, is stored in slot 2; slot 1, at index `hash mod capacity`,
stays empty. -/
theorem C18_entry_is_stored_one_past_hash :
    sampleOps.hashLiteral (.number 1) % 8 = 1 ∧
      (applyCalls sampleOps [.set (.number 1) (.boolean false)]).map
          (fun d => (d.capacity, d.entries[1]?, d.entries[2]?)) =
        some (8, some emptyEntry, some { key := .number 1, value := .boolean false }) := by
  decide

/-- C18 amended: `getEntryArray` examines the slot one past `hash mod capacity`
first (if that slot stops the probe it is the result), probes forward with
wraparound (a result is preceded, from that first slot on, only by slots that do
not stop the probe), and never returns the slot at `hash mod capacity` itself,
which it does not examine.  In particular, on a fresh dictionary,
`setLiteralDictionary(d, k, v)` with a non-Null key writes its entry in the
slot at index `(hash(k) mod capacity + 1) mod capacity` and leaves every other
slot empty. -/
theorem C18_probe_starts_one_past_hash (ops : LiteralOps) (array : List _entry)
    (capacity : Nat) (key value : Literal) (hash : Nat) (mustExist : Bool)
    (hcap : 2 ≤ capacity) (hkey : IS_NULL key = false) :
    (∀ e, array[(hash % capacity + 1) % capacity]? = some e →
        probeStops ops key mustExist e = true →
        getEntryArray ops array capacity key hash mustExist =
          some ((hash % capacity + 1) % capacity)) ∧
      (∀ i, getEntryArray ops array capacity key hash mustExist = some i →
        i ≠ hash % capacity ∧
        ∀ j, ahead capacity i ((hash % capacity + 1) % capacity) j →
          ∃ e, array[j]? = some e ∧ probeStops ops key mustExist e = false) ∧
      applyCalls ops [DictCall.set key value] = some
        { entries := (List.replicate (GROW_CAPACITY 0) emptyEntry).set
            ((ops.hashLiteral key % GROW_CAPACITY 0 + 1) % GROW_CAPACITY 0)
            { key := setEntryArrayKey key value, value := value },
          capacity := GROW_CAPACITY 0, contains := 1, count := 1 } := by
  have hstart : hash % capacity < capacity := Nat.mod_lt _ (by omega)
  refine ⟨fun e he hs => getEntryArray_first ops array capacity key hash mustExist e hcap he hs,
    fun i h => ⟨(getEntryArray_sound _ _ _ _ _ _ _ h).1, ?_⟩, ?_⟩
  · exact (getEntryLoop_first ops array capacity key mustExist _ hstart capacity _ i
      (Nat.mod_lt _ (by omega)) h).2
  · have h8 : GROW_CAPACITY 0 = 8 := rfl
    have hfirst := getEntryArray_first ops (List.replicate 8 emptyEntry) 8 key
      (ops.hashLiteral key) false emptyEntry (by omega)
      (by rw [List.getElem?_replicate]; simp; omega) rfl
    have hget : (List.replicate 8 emptyEntry)[(ops.hashLiteral key % 8 + 1) % 8]? =
        some emptyEntry := by
      rw [List.getElem?_replicate]; simp; omega
    have hset : setLiteralDictionary ops
        { entries := List.replicate 8 emptyEntry, capacity := 8, contains := 0, count := 0 }
        key value = some
        { entries := (List.replicate 8 emptyEntry).set ((ops.hashLiteral key % 8 + 1) % 8)
            { key := setEntryArrayKey key value, value := value },
          capacity := 8, contains := 1, count := 1 } := by
      unfold setLiteralDictionary setEntryArray
      have hload : exceedsMaxLoad 0 8 = false := by decide
      simp only [hkey, Bool.false_eq_true, if_false, hload, hfirst, hget, setEntryValues_eq]
      rfl
    rw [h8]
    unfold applyCalls
    rw [init_eq]
    simp only [Option.some_bind, List.foldlM_cons, List.foldlM_nil, applyCall]
    exact (by simpa using hset)

/-- Witness of the amended C18: key 1 under the sample helpers, whose hash is 1,
probed in the table that holds a tombstone in slot 2 and key 2 in slot 3. -/
theorem C18_probe_starts_one_past_hash_witness :
    (∀ e, churnedDictionary.entries[(1 % 8 + 1) % 8]? = some e →
        probeStops sampleOps (.number 1) false e = true →
        getEntryArray sampleOps churnedDictionary.entries 8 (.number 1) 1 false =
          some ((1 % 8 + 1) % 8)) ∧
      (∀ i, getEntryArray sampleOps churnedDictionary.entries 8 (.number 1) 1 false = some i →
        i ≠ 1 % 8 ∧
        ∀ j, ahead 8 i ((1 % 8 + 1) % 8) j →
          ∃ e, churnedDictionary.entries[j]? = some e ∧
            probeStops sampleOps (.number 1) false e = false) ∧
      applyCalls sampleOps [DictCall.set (.number 1) (.boolean true)] = some
        { entries := (List.replicate (GROW_CAPACITY 0) emptyEntry).set
            ((sampleOps.hashLiteral (.number 1) % GROW_CAPACITY 0 + 1) % GROW_CAPACITY 0)
            { key := setEntryArrayKey (.number 1) (.boolean true), value := .boolean true },
          capacity := GROW_CAPACITY 0, contains := 1, count := 1 } :=
  C18_probe_starts_one_past_hash sampleOps churnedDictionary.entries 8 (.number 1)
    (.boolean true) 1 false (by decide) rfl

/-! ## What the rehash keeps -/

theorem occupiedPairs_set (es : List _entry) (i : Nat) (e new : _entry)
    (he : es[i]? = some e) (hocc : isOccupied e = false) (hnew : isOccupied new = true) :
    (occupiedPairs (es.set i new)).Perm ((new.key, new.value) :: occupiedPairs es) := by
  induction es generalizing i with
  | nil => simp at he
  | cons x t ih =>
    cases i with
    | zero =>
      simp at he
      subst he
      simp [occupiedPairs, List.filter_cons, hocc, hnew]
    | succ j =>
      simp at he
      have h := ih j he
      by_cases hx : isOccupied x = true
      · simp only [occupiedPairs, List.set_cons_succ, List.filter_cons, hx, if_true,
          List.map_cons] at h ⊢
        exact (List.Perm.cons _ h).trans (List.Perm.swap _ _ _)
      · simp only [occupiedPairs, List.set_cons_succ, List.filter_cons, hx, if_false,
          Bool.false_eq_true] at h ⊢
        exact h

theorem rehashEntry_pairs (ops : LiteralOps) (hnull : NullIsDistinct ops) (capacity : Nat)
    (acc acc' : List _entry) (old : _entry)
    (h : rehashEntry ops capacity acc old = some acc') :
    (occupiedPairs acc').Perm (occupiedPairs [old] ++ occupiedPairs acc) := by
  unfold rehashEntry at h
  by_cases hk : IS_NULL old.key = true
  · simp only [hk, if_true, Option.some.injEq] at h
    subst h
    simp [occupiedPairs, isOccupied, hk]
  · have hk' : IS_NULL old.key = false := by simpa using hk
    simp only [hk, if_false, Bool.false_eq_true] at h
    cases hi : getEntryArray ops acc capacity TO_NULL_LITERAL (ops.hashLiteral old.key) false with
    | none => simp [hi] at h
    | some i =>
      simp only [hi, Option.some.injEq] at h
      subst h
      obtain ⟨_, e, he, hstop⟩ := getEntryArray_sound _ _ _ _ _ _ _ hi
      have hocc : isOccupied e = false := by
        unfold isOccupied
        by_contra hne
        have hne' : IS_NULL e.key = false := by simpa using hne
        unfold probeStops at hstop
        simp [hne'] at hstop
        rw [hnull _ hne'] at hstop
        simp at hstop
      have := occupiedPairs_set acc i e { key := old.key, value := old.value } he hocc
        (by simp [isOccupied, hk'])
      simpa [occupiedPairs, isOccupied, hk'] using this

theorem rehash_fold_pairs (ops : LiteralOps) (hnull : NullIsDistinct ops) (capacity : Nat)
    (olds acc acc' : List _entry)
    (h : olds.foldlM (rehashEntry ops capacity) acc = some acc') :
    (occupiedPairs acc').Perm (occupiedPairs olds ++ occupiedPairs acc) := by
  induction olds generalizing acc with
  | nil =>
    simp at h
    subst h
    simp [occupiedPairs]
  | cons old t ih =>
    simp only [List.foldlM_cons, Option.bind_eq_bind] at h
    cases h1 : rehashEntry ops capacity acc old with
    | none => simp [h1] at h
    | some acc1 =>
      simp only [h1, Option.some_bind] at h
      have p1 := rehashEntry_pairs ops hnull capacity acc acc1 old h1
      have p2 := ih acc1 h
      have hsplit : occupiedPairs (old :: t) = occupiedPairs [old] ++ occupiedPairs t := by
        unfold occupiedPairs
        rw [← List.map_append, ← List.filter_append]
        rfl
      rw [hsplit]
      refine p2.trans ?_
      refine ((List.Perm.refl _).append p1).trans ?_
      rw [← List.append_assoc]
      exact List.Perm.append_right _ List.perm_append_comm

theorem adjustEntryCapacity_pairs (ops : LiteralOps) (hnull : NullIsDistinct ops)
    (es new : List _entry) (oldCapacity capacity : Nat) (hlen : es.length = oldCapacity)
    (h : adjustEntryCapacity ops es oldCapacity capacity = some new) :
    (occupiedPairs new).Perm (occupiedPairs es) := by
  unfold adjustEntryCapacity at h
  have htake : es.take oldCapacity = es := by rw [← hlen]; exact List.take_length es
  rw [htake] at h
  have := rehash_fold_pairs ops hnull capacity es _ new h
  have h0 : occupiedPairs (List.replicate capacity
      ({ key := TO_NULL_LITERAL, value := TO_NULL_LITERAL } : _entry)) = [] := by
    unfold occupiedPairs
    rw [List.map_eq_nil_iff, List.filter_eq_nil_iff]
    intro a ha
    rw [List.eq_of_mem_replicate ha]
    simp [isOccupied, TO_NULL_LITERAL, IS_NULL]
  rw [h0, List.append_nil] at this
  exact this

theorem IS_NULL_eq (l : Literal) (h : IS_NULL l = true) : l = TO_NULL_LITERAL := by
  cases l <;> simp_all [IS_NULL, TO_NULL_LITERAL]

/-- C20: provided `literalsAreEqual` never finds Null equal to a non-Null key,
when `setEntryArray` grows the table of a reachable dictionary the rehash of
`adjustEntryCapacity` completes, the new capacity is `GROW_CAPACITY` of the old
one, which is its double, the new slot array has that many slots, none of them
tombstoned, its occupied slots hold the same multiset of (key, value) pairs as
the occupied slots of the old array, and every other new slot is empty; the
array and capacity that `setEntryArray` returns are this new array with one
slot overwritten, and this new capacity. -/
theorem C20_growth_rehash (ops : LiteralOps) (hnull : NullIsDistinct ops)
    (d : LiteralDictionary) (h : Reachable ops d) (key value : Literal) (hash : Nat)
    (hgrow : exceedsMaxLoad d.contains d.capacity = true) :
    ∃ new, adjustEntryCapacity ops d.entries d.capacity (GROW_CAPACITY d.capacity) = some new ∧
      GROW_CAPACITY d.capacity = 2 * d.capacity ∧
      new.length = GROW_CAPACITY d.capacity ∧
      tombstonedSlots new = 0 ∧
      (occupiedPairs new).Perm (occupiedPairs d.entries) ∧
      (∀ e, e ∈ new → isOccupied e = false → e = emptyEntry) ∧
      (∀ es' capacity' increment,
        setEntryArray ops d.entries d.capacity d.contains key value hash =
          some (es', capacity', increment) →
        capacity' = GROW_CAPACITY d.capacity ∧
          ∃ i e, new[i]? = some e ∧
            es' = new.set i (setEntryValues e (setEntryArrayKey key value) value)) := by
  have hw := reachable_wellSized ops d h
  have hcap := hw.cap_ge
  have hg := GROW_CAPACITY_of_ge d.capacity hcap
  obtain ⟨new, hn, hlen, htomb, _, _⟩ := adjustEntryCapacity_spec ops d.entries d.capacity
    (GROW_CAPACITY d.capacity) hw.length_eq (by omega)
  refine ⟨new, hn, by omega, hlen, htomb,
    adjustEntryCapacity_pairs ops hnull d.entries new d.capacity _ hw.length_eq hn, ?_, ?_⟩
  · intro e he hocc
    have ht : isTombstone e = false := by
      have := (List.countP_eq_zero.mp htomb) e he
      simpa using this
    have hk : IS_NULL e.key = true := by simpa [isOccupied] using hocc
    have hv : IS_NULL e.value = true := by simpa [isTombstone, hk] using ht
    cases e with
    | mk k v =>
      simp only at hk hv
      rw [IS_NULL_eq k hk, IS_NULL_eq v hv]
      rfl
  · intro es' capacity' increment hsa
    obtain ⟨es0, i, e, hcase, _, he, hes', _⟩ := setEntryArray_shape ops _ _ _ _ _ _ _ _ _ hsa
    rcases hcase with ⟨hf, _, _⟩ | ⟨_, hadj, hc⟩
    · rw [hgrow] at hf
      simp at hf
    · rw [hn] at hadj
      cases hadj
      exact ⟨hc, i, e, he, hes'⟩

/-- Witness of C20: the insert of key 7 into the dictionary with five live
entries and one tombstone in a table of capacity 8. -/
theorem C20_growth_rehash_witness :
    ∃ new, adjustEntryCapacity sampleOps churnedDictionary.entries churnedDictionary.capacity
        (GROW_CAPACITY churnedDictionary.capacity) = some new ∧
      GROW_CAPACITY churnedDictionary.capacity = 2 * churnedDictionary.capacity ∧
      new.length = GROW_CAPACITY churnedDictionary.capacity ∧
      tombstonedSlots new = 0 ∧
      (occupiedPairs new).Perm (occupiedPairs churnedDictionary.entries) ∧
      (∀ e, e ∈ new → isOccupied e = false → e = emptyEntry) ∧
      (∀ es' capacity' increment,
        setEntryArray sampleOps churnedDictionary.entries churnedDictionary.capacity
            churnedDictionary.contains (.number 7) (.boolean false) 7 =
          some (es', capacity', increment) →
        capacity' = GROW_CAPACITY churnedDictionary.capacity ∧
          ∃ i e, new[i]? = some e ∧
            es' = new.set i
              (setEntryValues e (setEntryArrayKey (.number 7) (.boolean false))
                (.boolean false))) :=
  C20_growth_rehash sampleOps sampleOps_nullIsDistinct churnedDictionary
    churnedDictionary_reachable (.number 7) (.boolean false) 7 (by decide)

/-! ## Lookups in a table whose keys lie on their probe paths -/

theorem ahead_trichotomy (capacity start i j : Nat) (hstart : start < capacity)
    (hi : i < capacity) (hj : j < capacity) (hij : i ≠ j) :
    ahead capacity i ((start + 1) % capacity) j ∨ ahead capacity j ((start + 1) % capacity) i := by
  rw [succ_mod_capacity start capacity hstart]
  unfold ahead
  split_ifs <;> omega

theorem ahead_ne (capacity first i y : Nat) (h : ahead capacity i first y) : y ≠ i := by
  unfold ahead at h
  split_ifs at h <;> omega

theorem not_empty_of_not_stops (ops : LiteralOps) (key : Literal) (e : _entry)
    (h : probeStops ops key false e = false) : isEmptySlot e = false := by
  unfold probeStops at h
  unfold isEmptySlot
  by_cases hk : IS_NULL e.key = true
  · simp [hk] at h ⊢
    exact h
  · simp [hk]

theorem getEntryArray_before (ops : LiteralOps) (array : List _entry) (capacity : Nat)
    (key : Literal) (hash : Nat) (mustExist : Bool) (i : Nat) (hcap : 0 < capacity)
    (h : getEntryArray ops array capacity key hash mustExist = some i) :
    ∀ j, ahead capacity i ((hash % capacity + 1) % capacity) j →
      ∃ e, array[j]? = some e ∧ probeStops ops key mustExist e = false :=
  (getEntryLoop_first ops array capacity key mustExist _ (Nat.mod_lt _ hcap) capacity _ i
    (Nat.mod_lt _ hcap) h).2

theorem lt_length_of_getElem? {α : Type} (l : List α) (i : Nat) (a : α) (h : l[i]? = some a) :
    i < l.length := by
  by_contra hge
  rw [List.getElem?_eq_none (by omega)] at h
  simp at h

theorem onProbePath_write (ops : LiteralOps) (es : List _entry) (capacity : Nat)
    (probeKey : Literal) (h i : Nat) (new : _entry) (hcap : 0 < capacity)
    (hP : OnProbePath ops es capacity)
    (hprobe : getEntryArray ops es capacity probeKey h false = some i)
    (hnew : IS_NULL new.key = false)
    (hhash : ops.hashLiteral new.key % capacity = h % capacity) :
    OnProbePath ops (es.set i new) capacity := by
  obtain ⟨hne, e, he, _⟩ := getEntryArray_sound _ _ _ _ _ _ _ hprobe
  have hlt := lt_length_of_getElem? es i e he
  have hnewEmpty : isEmptySlot new = false := by simp [isEmptySlot, hnew]
  intro j x hx hxk
  by_cases hji : j = i
  · subst hji
    rw [List.getElem?_set_self hlt] at hx
    simp at hx
    subst hx
    rw [hhash]
    refine ⟨hne, fun y hy => ?_⟩
    have hyi := ahead_ne _ _ _ _ hy
    obtain ⟨e', he', hs'⟩ := getEntryArray_before ops es capacity probeKey h false j hcap hprobe y hy
    exact ⟨e', by rw [List.getElem?_set_ne (Ne.symm hyi)]; exact he',
      not_empty_of_not_stops ops probeKey e' hs'⟩
  · rw [List.getElem?_set_ne (Ne.symm hji)] at hx
    obtain ⟨h1, h2⟩ := hP j x hx hxk
    refine ⟨h1, fun y hy => ?_⟩
    by_cases hyi : y = i
    · subst hyi
      exact ⟨new, List.getElem?_set_self hlt, hnewEmpty⟩
    · obtain ⟨x', hx', hx'e⟩ := h2 y hy
      exact ⟨x', by rw [List.getElem?_set_ne (Ne.symm hyi)]; exact hx', hx'e⟩

/-- The must-exist lookup finds the slot that holds a key equal to the query
key. -/
theorem mustExist_finds (ops : LiteralOps) (hops : LawfulOps ops) (es : List _entry)
    (capacity : Nat) (hlen : es.length = capacity) (hcap : 0 < capacity)
    (hP : OnProbePath ops es capacity) (hU : UniqueKeys ops es)
    (key : Literal) (j : Nat) (e : _entry) (he : es[j]? = some e)
    (hek : IS_NULL e.key = false) (heq : ops.literalsAreEqual key e.key = true) :
    getEntryArray ops es capacity key (ops.hashLiteral key) true = some j := by
  have hjs : j ≠ ops.hashLiteral key % capacity := by
    rw [hops.hash_eq _ _ heq]
    exact (hP j e he hek).1
  have hj : j < capacity := by
    have := lt_length_of_getElem? es j e he
    omega
  cases hres : getEntryArray ops es capacity key (ops.hashLiteral key) true with
  | none =>
    obtain ⟨e', he', hs'⟩ := getEntryArray_none ops es capacity key _ true hlen hcap hres j hj hjs
    rw [he] at he'
    simp at he'
    subst he'
    simp [probeStops, hek, heq] at hs'
  | some j' =>
    obtain ⟨_, e', he', hs'⟩ := getEntryArray_sound _ _ _ _ _ _ _ hres
    obtain ⟨_, hnn⟩ := probeStops_mustExist ops key e' hs'
    have heq' : ops.literalsAreEqual key e'.key = true := by
      simpa [probeStops, hnn] using hs'
    have := hU j j' e e' he he' hek hnn (hops.trans _ _ _ (hops.symm _ _ heq) heq')
    rw [this]

/-- The must-exist lookup finds nothing when no slot holds a key equal to the
query key. -/
theorem mustExist_none (ops : LiteralOps) (es : List _entry) (capacity : Nat) (key : Literal)
    (hash : Nat)
    (h : ∀ (j : Nat) (e : _entry), es[j]? = some e → IS_NULL e.key = false →
      ops.literalsAreEqual key e.key = false) :
    getEntryArray ops es capacity key hash true = none := by
  cases hres : getEntryArray ops es capacity key hash true with
  | none => rfl
  | some j' =>
    exfalso
    obtain ⟨_, e', he', hs'⟩ := getEntryArray_sound _ _ _ _ _ _ _ hres
    obtain ⟨_, hnn⟩ := probeStops_mustExist ops key e' hs'
    have := h j' e' he' hnn
    simp [probeStops, hnn, this] at hs'

/-- The insertion-mode lookup returns the slot that holds a key equal to the
query key. -/
theorem insertion_finds (ops : LiteralOps) (hops : LawfulOps ops) (es : List _entry)
    (capacity : Nat) (hlen : es.length = capacity) (hcap : 0 < capacity)
    (hempty : 2 ≤ emptySlots es)
    (hP : OnProbePath ops es capacity) (hU : UniqueKeys ops es)
    (key : Literal) (j : Nat) (e : _entry) (he : es[j]? = some e)
    (hek : IS_NULL e.key = false) (heq : ops.literalsAreEqual key e.key = true) :
    getEntryArray ops es capacity key (ops.hashLiteral key) false = some j := by
  have hhash := hops.hash_eq _ _ heq
  obtain ⟨hjs, hpath⟩ := hP j e he hek
  rw [← hhash] at hjs hpath
  have hj : j < capacity := by
    have := lt_length_of_getElem? es j e he
    omega
  obtain ⟨i, hi⟩ := getEntryArray_isSome ops es capacity key (ops.hashLiteral key) hlen hcap hempty
  obtain ⟨his, e', he', hs'⟩ := getEntryArray_sound _ _ _ _ _ _ _ hi
  have hilt : i < capacity := by
    have := lt_length_of_getElem? es i e' he'
    omega
  rw [hi]
  by_cases hij : i = j
  · rw [hij]
  · exfalso
    rcases ahead_trichotomy capacity (ops.hashLiteral key % capacity) i j
        (Nat.mod_lt _ hcap) hilt hj hij with h1 | h2
    · -- slot j comes before the result and stops the probe
      obtain ⟨x, hx, hxs⟩ := getEntryArray_before ops es capacity key _ false i hcap hi j h1
      rw [he] at hx
      simp at hx
      subst hx
      simp [probeStops, hek, heq] at hxs
    · -- the result comes before slot j, so it is not empty and holds an equal key
      obtain ⟨x, hx, hxe⟩ := hpath i h2
      rw [he'] at hx
      simp at hx
      subst hx
      have hnn : IS_NULL e'.key = false := by
        by_contra hk
        have hk' : IS_NULL e'.key = true := by simpa using hk
        simp [probeStops, hk'] at hs'
        simp [isEmptySlot, hk', hs'] at hxe
      have heq' : ops.literalsAreEqual key e'.key = true := by
        simpa [probeStops, hnn] using hs'
      exact hij (hU i j e' e he' he hnn hek (hops.trans _ _ _ (hops.symm _ _ heq') heq))

/-! ## The invariant is kept -/

theorem uniqueKeys_write (ops : LiteralOps) (hops : LawfulOps ops) (es : List _entry)
    (capacity : Nat) (hlen : es.length = capacity) (hcap : 0 < capacity)
    (hempty : 2 ≤ emptySlots es)
    (hP : OnProbePath ops es capacity) (hU : UniqueKeys ops es)
    (key : Literal) (i : Nat) (new : _entry)
    (hprobe : getEntryArray ops es capacity key (ops.hashLiteral key) false = some i)
    (hnew : new.key = key) :
    UniqueKeys ops (es.set i new) := by
  obtain ⟨_, e, he, _⟩ := getEntryArray_sound _ _ _ _ _ _ _ hprobe
  have hlt := lt_length_of_getElem? es i e he
  intro j1 j2 e1 e2 h1 h2 n1 n2 heq
  by_cases hj1 : j1 = i
  · by_cases hj2 : j2 = i
    · rw [hj1, hj2]
    · exfalso
      subst hj1
      rw [List.getElem?_set_self hlt] at h1
      simp at h1
      subst h1
      rw [List.getElem?_set_ne (Ne.symm hj2)] at h2
      rw [hnew] at heq
      have := insertion_finds ops hops es capacity hlen hcap hempty hP hU key j2 e2 h2 n2 heq
      rw [hprobe] at this
      simp at this
      exact hj2 this.symm
  · by_cases hj2 : j2 = i
    · exfalso
      subst hj2
      rw [List.getElem?_set_self hlt] at h2
      simp at h2
      subst h2
      rw [List.getElem?_set_ne (Ne.symm hj1)] at h1
      rw [hnew] at heq
      have := insertion_finds ops hops es capacity hlen hcap hempty hP hU key j1 e1 h1 n1
        (hops.symm _ _ heq)
      rw [hprobe] at this
      simp at this
      exact hj1 this.symm
    · rw [List.getElem?_set_ne (Ne.symm hj1)] at h1
      rw [List.getElem?_set_ne (Ne.symm hj2)] at h2
      exact hU j1 j2 e1 e2 h1 h2 n1 n2 heq

theorem probed_tombstone (ops : LiteralOps) (es : List _entry) (capacity i : Nat) (e : _entry)
    (he : es[i]? = some e)
    (hP : OnProbePath ops es capacity) (hU : UniqueKeys ops es) :
    OnProbePath ops (es.set i { key := TO_NULL_LITERAL, value := TO_BOOLEAN_LITERAL true })
        capacity ∧
      UniqueKeys ops (es.set i { key := TO_NULL_LITERAL, value := TO_BOOLEAN_LITERAL true }) := by
  have hlt := lt_length_of_getElem? es i e he
  have hslot : ∀ (j : Nat) (x : _entry),
      (es.set i { key := TO_NULL_LITERAL, value := TO_BOOLEAN_LITERAL true })[j]? = some x →
      IS_NULL x.key = false → j ≠ i ∧ es[j]? = some x := by
    intro j x hx hxk
    by_cases hji : j = i
    · subst hji
      rw [List.getElem?_set_self hlt] at hx
      simp at hx
      subst hx
      simp [TO_NULL_LITERAL, IS_NULL] at hxk
    · rw [List.getElem?_set_ne (Ne.symm hji)] at hx
      exact ⟨hji, hx⟩
  constructor
  · intro j x hx hxk
    obtain ⟨_, hx'⟩ := hslot j x hx hxk
    obtain ⟨h1, h2⟩ := hP j x hx' hxk
    refine ⟨h1, fun y hy => ?_⟩
    by_cases hyi : y = i
    · subst hyi
      exact ⟨_, List.getElem?_set_self hlt,
        by simp [isEmptySlot, TO_NULL_LITERAL, TO_BOOLEAN_LITERAL, IS_NULL]⟩
    · obtain ⟨x', hx'', hx'e⟩ := h2 y hy
      exact ⟨x', by rw [List.getElem?_set_ne (Ne.symm hyi)]; exact hx'', hx'e⟩
  · intro j1 j2 e1 e2 h1 h2 n1 n2 heq
    exact hU j1 j2 e1 e2 (hslot j1 e1 h1 n1).2 (hslot j2 e2 h2 n2).2 n1 n2 heq

theorem rehashEntry_onProbePath (ops : LiteralOps) (capacity : Nat) (acc acc' : List _entry)
    (old : _entry) (hcap : 0 < capacity) (hP : OnProbePath ops acc capacity)
    (h : rehashEntry ops capacity acc old = some acc') : OnProbePath ops acc' capacity := by
  unfold rehashEntry at h
  by_cases hk : IS_NULL old.key = true
  · simp only [hk, if_true, Option.some.injEq] at h
    subst h
    exact hP
  · have hk' : IS_NULL old.key = false := by simpa using hk
    simp only [hk, if_false, Bool.false_eq_true] at h
    cases hi : getEntryArray ops acc capacity TO_NULL_LITERAL (ops.hashLiteral old.key) false with
    | none => simp [hi] at h
    | some i =>
      simp only [hi, Option.some.injEq] at h
      subst h
      exact onProbePath_write ops acc capacity TO_NULL_LITERAL _ i _ hcap hP hi hk' rfl

theorem rehash_fold_onProbePath (ops : LiteralOps) (capacity : Nat) (olds acc acc' : List _entry)
    (hcap : 0 < capacity) (hP : OnProbePath ops acc capacity)
    (h : olds.foldlM (rehashEntry ops capacity) acc = some acc') :
    OnProbePath ops acc' capacity := by
  induction olds generalizing acc with
  | nil =>
    simp at h
    subst h
    exact hP
  | cons old t ih =>
    simp only [List.foldlM_cons, Option.bind_eq_bind] at h
    cases h1 : rehashEntry ops capacity acc old with
    | none => simp [h1] at h
    | some acc1 =>
      simp only [h1, Option.some_bind] at h
      exact ih acc1 (rehashEntry_onProbePath ops capacity acc acc1 old hcap hP h1) h

theorem adjustEntryCapacity_onProbePath (ops : LiteralOps) (es new : List _entry)
    (oldCapacity capacity : Nat) (hcap : 0 < capacity)
    (h : adjustEntryCapacity ops es oldCapacity capacity = some new) :
    OnProbePath ops new capacity := by
  unfold adjustEntryCapacity at h
  refine rehash_fold_onProbePath ops capacity _ _ new hcap ?_ h
  intro j e he hek
  exfalso
  rw [List.getElem?_replicate] at he
  split at he
  · simp at he
    subst he
    simp [TO_NULL_LITERAL, IS_NULL] at hek
  · simp at he

theorem mem_occupiedPairs (es : List _entry) (k v : Literal) :
    (k, v) ∈ occupiedPairs es ↔
      ∃ j : Nat, es[j]? = some ({ key := k, value := v } : _entry) ∧ IS_NULL k = false := by
  unfold occupiedPairs
  rw [List.mem_map]
  constructor
  · rintro ⟨e, he, hkv⟩
    rw [List.mem_filter] at he
    obtain ⟨hmem, hocc⟩ := he
    obtain ⟨j, hj⟩ := List.mem_iff_getElem?.mp hmem
    cases e with
    | mk ek ev =>
      simp at hkv
      obtain ⟨h1, h2⟩ := hkv
      subst h1 h2
      exact ⟨j, hj, by simpa [isOccupied] using hocc⟩
  · rintro ⟨j, hj, hk⟩
    exact ⟨{ key := k, value := v },
      List.mem_filter.mpr ⟨List.getElem?_mem hj, by simp [isOccupied, hk]⟩, rfl⟩

theorem uniqueKeys_cons (ops : LiteralOps) (hops : LawfulOps ops) (x : _entry)
    (t : List _entry) :
    UniqueKeys ops (x :: t) ↔
      UniqueKeys ops t ∧
        (IS_NULL x.key = false → ∀ e, e ∈ t → IS_NULL e.key = false →
          ops.literalsAreEqual x.key e.key = false) := by
  constructor
  · intro h
    constructor
    · intro j1 j2 e1 e2 h1 h2 n1 n2 heq
      have := h (j1 + 1) (j2 + 1) e1 e2 (by simpa using h1) (by simpa using h2) n1 n2 heq
      omega
    · intro hx e he hek
      obtain ⟨j, hj⟩ := List.mem_iff_getElem?.mp he
      by_contra hne
      have heq : ops.literalsAreEqual x.key e.key = true := by simpa using hne
      have := h 0 (j + 1) x e (by simp) (by simpa using hj) hx hek heq
      omega
  · rintro ⟨hU, hx⟩ j1 j2 e1 e2 h1 h2 n1 n2 heq
    cases j1 with
    | zero =>
      cases j2 with
      | zero => rfl
      | succ j2 =>
        exfalso
        simp at h1 h2
        subst h1
        have := hx n1 e2 (List.getElem?_mem h2) n2
        rw [this] at heq
        simp at heq
    | succ j1 =>
      cases j2 with
      | zero =>
        exfalso
        simp at h1 h2
        subst h2
        have := hx n2 e1 (List.getElem?_mem h1) n1
        rw [hops.symm _ _ heq] at this
        simp at this
      | succ j2 =>
        simp at h1 h2
        rw [hU j1 j2 e1 e2 h1 h2 n1 n2 heq]

theorem uniqueKeys_iff_pairwise (ops : LiteralOps) (hops : LawfulOps ops) (es : List _entry) :
    UniqueKeys ops es ↔
      (occupiedPairs es).Pairwise (fun p q => ops.literalsAreEqual p.1 q.1 = false) := by
  induction es with
  | nil =>
    constructor
    · intro _
      simp [occupiedPairs]
    · intro _ j1 j2 e1 e2 h1
      simp at h1
  | cons x t ih =>
    rw [uniqueKeys_cons ops hops, ih]
    by_cases hx : IS_NULL x.key = true
    · have hocc : occupiedPairs (x :: t) = occupiedPairs t := by
        simp [occupiedPairs, List.filter_cons, isOccupied, hx]
      rw [hocc]
      simp [hx]
    · have hx' : IS_NULL x.key = false := by simpa using hx
      have hocc : occupiedPairs (x :: t) = (x.key, x.value) :: occupiedPairs t := by
        simp [occupiedPairs, List.filter_cons, isOccupied, hx']
      rw [hocc, List.pairwise_cons]
      constructor
      · rintro ⟨hp, hall⟩
        refine ⟨?_, hp⟩
        intro q hq
        obtain ⟨qk, qv⟩ := q
        obtain ⟨j, hj, hqk⟩ := (mem_occupiedPairs t qk qv).mp hq
        exact hall hx' _ (List.getElem?_mem hj) hqk
      · rintro ⟨hall, hp⟩
        refine ⟨hp, fun _ e he hek => ?_⟩
        have hmem : (e.key, e.value) ∈ occupiedPairs t := by
          rw [mem_occupiedPairs]
          obtain ⟨j, hj⟩ := List.mem_iff_getElem?.mp he
          exact ⟨j, hj, hek⟩
        exact hall _ hmem

theorem uniqueKeys_of_perm (ops : LiteralOps) (hops : LawfulOps ops) (es new : List _entry)
    (hperm : (occupiedPairs new).Perm (occupiedPairs es)) (hU : UniqueKeys ops es) :
    UniqueKeys ops new := by
  rw [uniqueKeys_iff_pairwise ops hops] at hU ⊢
  refine (List.Perm.pairwise_iff ?_ hperm).mpr hU
  intro p q hpq
  by_contra hne
  have : ops.literalsAreEqual q.1 p.1 = true := by simpa using hne
  rw [hops.symm _ _ this] at hpq
  simp at hpq

/-- What `setLiteralDictionary` does with a non-Null key and a value that is
neither String nor Identifier, on a dictionary that satisfies the invariants:
the array probed (the old one, or the rehashed one after a growth) satisfies
them too and holds the same pairs, and the new array is that array with one
slot overwritten by `(key, value)`. -/
theorem set_analysis (ops : LiteralOps) (hops : LawfulOps ops) (d : LiteralDictionary)
    (hw : WellSized d) (hp : Probed ops d) (key value : Literal)
    (hkey : IS_NULL key = false) (hs : IS_STRING value = false)
    (hi : IS_IDENTIFIER value = false) (d' : LiteralDictionary)
    (hset : setLiteralDictionary ops d key value = some d') :
    ∃ es0 i e, d'.entries = es0.set i { key := key, value := value } ∧
      es0.length = d'.capacity ∧ 0 < d'.capacity ∧ 2 ≤ emptySlots es0 ∧
      OnProbePath ops es0 d'.capacity ∧ UniqueKeys ops es0 ∧
      getEntryArray ops es0 d'.capacity key (ops.hashLiteral key) false = some i ∧
      es0[i]? = some e ∧
      (∀ p, p ∈ occupiedPairs es0 ↔ p ∈ occupiedPairs d.entries) := by
  unfold setLiteralDictionary at hset
  simp only [hkey, Bool.false_eq_true, if_false] at hset
  cases hsa : setEntryArray ops d.entries d.capacity d.contains key value (ops.hashLiteral key) with
  | none => simp [hsa] at hset
  | some r =>
    obtain ⟨es', cap', inc⟩ := r
    obtain ⟨es0, i, e, hgrow, hprobe, he, hes', _⟩ :=
      setEntryArray_shape ops _ _ _ _ _ _ _ _ _ hsa
    have hentries : d'.entries = es' ∧ d'.capacity = cap' := by
      simp only [hsa] at hset
      cases inc <;> simp at hset <;> subst hset <;> exact ⟨rfl, rfl⟩
    rw [setEntryArrayKey_plain key value hs hi, setEntryValues_eq] at hes'
    have hcap := hw.cap_ge
    rw [hentries.1, hentries.2]
    refine ⟨es0, i, e, hes', ?_⟩
    rcases hgrow with ⟨_, h0, hc⟩ | ⟨_, hadj, hc⟩
    · subst h0 hc
      exact ⟨hw.length_eq, by omega, wellSized_two_empty d hw, hp.onPath, hp.unique, hprobe, he,
        fun _ => Iff.rfl⟩
    · have hg := GROW_CAPACITY_of_ge d.capacity hcap
      obtain ⟨new, hn, hlen, htomb, hocc, _⟩ := adjustEntryCapacity_spec ops d.entries d.capacity
        (GROW_CAPACITY d.capacity) hw.length_eq (by omega)
      rw [hadj] at hn
      cases hn
      have hperm := adjustEntryCapacity_pairs ops hops.null_distinct d.entries es0 d.capacity
        (GROW_CAPACITY d.capacity) hw.length_eq hadj
      have hpart := slot_partition es0
      have hpart0 := slot_partition d.entries
      have hl0 := hw.length_eq
      subst hc
      exact ⟨hlen, by omega, by omega,
        adjustEntryCapacity_onProbePath ops d.entries es0 d.capacity _ (by omega) hadj,
        uniqueKeys_of_perm ops hops d.entries es0 hperm hp.unique, hprobe, he,
        fun _ => hperm.mem_iff⟩

theorem set_probed (ops : LiteralOps) (hops : LawfulOps ops) (d : LiteralDictionary)
    (hw : WellSized d) (hp : Probed ops d) (key value : Literal)
    (hs : IS_STRING value = false) (hi : IS_IDENTIFIER value = false) (d' : LiteralDictionary)
    (hset : setLiteralDictionary ops d key value = some d') : Probed ops d' := by
  by_cases hk : IS_NULL key = true
  · unfold setLiteralDictionary at hset
    simp only [hk, if_true, Option.some.injEq] at hset
    subst hset
    exact hp
  · have hkey : IS_NULL key = false := by simpa using hk
    obtain ⟨es0, i, e, hes, hlen, hcap, hempty, hP, hU, hprobe, _, _⟩ :=
      set_analysis ops hops d hw hp key value hkey hs hi d' hset
    constructor
    · rw [hes]
      exact onProbePath_write ops es0 d'.capacity key _ i _ hcap hP hprobe hkey rfl
    · rw [hes]
      exact uniqueKeys_write ops hops es0 d'.capacity hlen hcap hempty hP hU key i _ hprobe rfl

theorem remove_probed (ops : LiteralOps) (d : LiteralDictionary) (hp : Probed ops d)
    (key : Literal) : Probed ops (removeLiteralDictionary ops d key) := by
  by_cases hk : IS_NULL key = true
  · unfold removeLiteralDictionary
    simp only [hk, if_true]
    exact hp
  · have hkey : IS_NULL key = false := by simpa using hk
    cases h : getEntryArray ops d.entries d.capacity key (ops.hashLiteral key) true with
    | none =>
      rw [removeLiteralDictionary_not_found ops d key h]
      exact hp
    | some i =>
      rw [removeLiteralDictionary_found ops d key hkey i h]
      obtain ⟨_, e, he, _⟩ := getEntryArray_sound _ _ _ _ _ _ _ h
      obtain ⟨h1, h2⟩ := probed_tombstone ops d.entries d.capacity i e he hp.onPath hp.unique
      exact ⟨h1, h2⟩

theorem plainReachable_reachable (ops : LiteralOps) (d : LiteralDictionary)
    (h : PlainReachable ops d) : Reachable ops d := by
  induction h with
  | init hi => exact Reachable.init hi
  | set key value _ _ _ hs ih => exact Reachable.set key value ih hs
  | remove key _ ih => exact Reachable.remove key ih

theorem plainReachable_probed (ops : LiteralOps) (hops : LawfulOps ops) (d : LiteralDictionary)
    (h : PlainReachable ops d) : Probed ops d := by
  induction h with
  | init hi =>
    rw [init_eq] at hi
    simp at hi
    subst hi
    have hnone : ∀ (j : Nat) (e : _entry),
        (List.replicate 8 ({ key := TO_NULL_LITERAL, value := TO_NULL_LITERAL } : _entry))[j]?
          = some e → IS_NULL e.key = false → False := by
      intro j e he hek
      rw [List.getElem?_replicate] at he
      split at he
      · simp at he
        subst he
        simp [TO_NULL_LITERAL, IS_NULL] at hek
      · simp at he
    exact ⟨fun j e he hek => (hnone j e he hek).elim,
      fun j1 _ e1 _ h1 _ n1 _ _ => (hnone j1 e1 h1 n1).elim⟩
  | set key value hs hi hr hset ih =>
    exact set_probed ops hops _
      (reachable_wellSized ops _ (plainReachable_reachable ops _ hr)) ih key value hs hi _ hset
  | remove key _ ih => exact remove_probed ops _ ih key

theorem get_of_slot (ops : LiteralOps) (hops : LawfulOps ops) (d : LiteralDictionary)
    (hlen : d.entries.length = d.capacity) (hcap : 0 < d.capacity) (hp : Probed ops d)
    (key : Literal) (hkey : IS_NULL key = false) (j : Nat) (e : _entry)
    (he : d.entries[j]? = some e) (hek : IS_NULL e.key = false)
    (heq : ops.literalsAreEqual key e.key = true) :
    getLiteralDictionary ops d key = e.value := by
  have := mustExist_finds ops hops d.entries d.capacity hlen hcap hp.onPath hp.unique key j e he
    hek heq
  unfold getLiteralDictionary
  simp only [hkey, Bool.false_eq_true, if_false, this, he]

theorem get_of_no_slot (ops : LiteralOps) (d : LiteralDictionary) (key : Literal)
    (h : ∀ (j : Nat) (e : _entry), d.entries[j]? = some e → IS_NULL e.key = false →
      ops.literalsAreEqual key e.key = false) :
    getLiteralDictionary ops d key = TO_NULL_LITERAL := by
  have := mustExist_none ops d.entries d.capacity key (ops.hashLiteral key) h
  unfold getLiteralDictionary
  simp only [this]
  split <;> rfl

theorem applyCalls_foldl_plainReachable (ops : LiteralOps) (calls : List DictCall)
    (hplain : plainCalls calls = true) (d d' : LiteralDictionary) (hd : PlainReachable ops d)
    (h : calls.foldlM (applyCall ops) d = some d') : PlainReachable ops d' := by
  induction calls generalizing d with
  | nil => simp at h; subst h; exact hd
  | cons c t ih =>
    simp only [List.foldlM_cons, Option.bind_eq_bind] at h
    simp only [plainCalls, List.all_cons, Bool.and_eq_true] at hplain
    cases hc : applyCall ops d c with
    | none => simp [hc] at h
    | some d1 =>
      simp [hc] at h
      refine ih (by simpa [plainCalls] using hplain.2) d1 ?_ h
      cases c with
      | set key value =>
        have hv := hplain.1
        simp at hv
        exact PlainReachable.set key value hv.1 hv.2 hd hc
      | remove key =>
        simp [applyCall] at hc
        subst hc
        exact PlainReachable.remove key hd

theorem applyCalls_plainReachable (ops : LiteralOps) (calls : List DictCall)
    (hplain : plainCalls calls = true) (d : LiteralDictionary)
    (h : applyCalls ops calls = some d) : PlainReachable ops d := by
  unfold applyCalls at h
  cases hi : initLiteralDictionary ops with
  | none => simp [hi] at h
  | some d0 =>
    simp [hi] at h
    exact applyCalls_foldl_plainReachable ops calls hplain d0 d (PlainReachable.init hi) h

theorem sampleOps_lawful : LawfulOps sampleOps where
  refl := by intro a; simp [sampleOps]
  symm := by intro a b h; simp [sampleOps] at h ⊢; exact h.symm
  trans := by intro a b c h1 h2; simp [sampleOps] at h1 h2 ⊢; exact h1.trans h2
  hash_eq := by intro a b h; simp [sampleOps] at h; rw [h]
  null_distinct := sampleOps_nullIsDistinct

theorem churnedDictionary_plainReachable : PlainReachable sampleOps churnedDictionary :=
  applyCalls_plainReachable sampleOps (churnCalls.take 7) (by decide) churnedDictionary
    churnedDictionary_run

/-! ## exists, get and the map-update law -/

/-- C21 as stated fails: after `set(d, 5, "a")`, `set(d, "a", 1)` and
`remove(d, "a")` the probe for `"a"` reads slots 2, 3, 4, 5, 6 in this order;
slot 2 is a tombstone, slot 3 is truly empty and slot 6 holds the key `"a"`.
`existsLiteralDictionary(d, "a")` is false, while the must-exist lookup goes past
the empty slot 3 and finds slot 6, and `getLiteralDictionary(d, "a")` returns
`"a"`, not Null. -/
theorem C21_must_exist_passes_empty_slot :
    (applyCalls sampleOps strayKeyCalls).map
        (fun d => (existsLiteralDictionary sampleOps d (.string "a"),
          getEntryArray sampleOps d.entries d.capacity (.string "a")
            (sampleOps.hashLiteral (.string "a")) true,
          d.entries[2]?, d.entries[3]?, d.entries[6]?,
          getLiteralDictionary sampleOps d (.string "a"))) =
      some (some false, some 6, some { key := .null, value := .boolean true },
        some emptyEntry, some { key := .string "a", value := .string "a" },
        Literal.string "a") :=
  rfl

/-- C21 amended: assume `literalsAreEqual` is an equivalence relation under
which equal keys have equal hashes and Null equals no non-Null key.  For every
dictionary built from `initLiteralDictionary` by `set` calls whose values are
never String or Identifier and by `remove` calls, and every key (non-Null
keys included), `existsLiteralDictionary` returns a result, which is true if and only if the
must-exist lookup used by `getLiteralDictionary` and `removeLiteralDictionary`
finds a slot; a false result implies that `getLiteralDictionary` returns Null;
and the must-exist lookup, which skips empty slots as it skips tombstones,
reports not-found exactly when no occupied slot holds a key equal to the query
key. -/
theorem C21_exists_agrees_with_lookup (ops : LiteralOps) (hops : LawfulOps ops)
    (d : LiteralDictionary) (h : PlainReachable ops d) (key : Literal) :
    ∃ b, existsLiteralDictionary ops d key = some b ∧
      (b = true ↔
        ∃ i, getEntryArray ops d.entries d.capacity key (ops.hashLiteral key) true = some i) ∧
      (b = false → getLiteralDictionary ops d key = TO_NULL_LITERAL) ∧
      (getEntryArray ops d.entries d.capacity key (ops.hashLiteral key) true = none ↔
        ∀ (j : Nat) (e : _entry), d.entries[j]? = some e → IS_NULL e.key = false →
          ops.literalsAreEqual key e.key = false) := by
  have hw := reachable_wellSized ops d (plainReachable_reachable ops d h)
  have hp := plainReachable_probed ops hops d h
  have hcap : 0 < d.capacity := by have := hw.cap_ge; omega
  have hempty := wellSized_two_empty d hw
  obtain ⟨i, hi⟩ := getEntryArray_isSome ops d.entries d.capacity key (ops.hashLiteral key)
    hw.length_eq hcap hempty
  obtain ⟨_, e, he, hstop⟩ := getEntryArray_sound _ _ _ _ _ _ _ hi
  have hex : existsLiteralDictionary ops d key = some (!(IS_NULL e.key && IS_NULL e.value)) := by
    simp [existsLiteralDictionary, hi, he]
  have hlast : getEntryArray ops d.entries d.capacity key (ops.hashLiteral key) true = none ↔
      ∀ (j : Nat) (x : _entry), d.entries[j]? = some x → IS_NULL x.key = false →
        ops.literalsAreEqual key x.key = false := by
    constructor
    · intro hnone j x hx hxk
      by_contra hne
      have heq : ops.literalsAreEqual key x.key = true := by simpa using hne
      have := mustExist_finds ops hops d.entries d.capacity hw.length_eq hcap hp.onPath
        hp.unique key j x hx hxk heq
      rw [hnone] at this
      simp at this
    · exact mustExist_none ops d.entries d.capacity key _
  refine ⟨_, hex, ?_, ?_, hlast⟩
  · by_cases hk : IS_NULL e.key = true
    · -- the insertion-mode lookup stopped at an empty slot
      have hnone : getEntryArray ops d.entries d.capacity key (ops.hashLiteral key) true
          = none := by
        rw [hlast]
        intro j x hx hxk
        by_contra hne
        have heq : ops.literalsAreEqual key x.key = true := by simpa using hne
        have := insertion_finds ops hops d.entries d.capacity hw.length_eq hcap hempty hp.onPath
          hp.unique key j x hx hxk heq
        rw [hi] at this
        simp at this
        subst this
        rw [he] at hx
        simp at hx
        subst hx
        rw [hk] at hxk
        simp at hxk
      have hv : IS_NULL e.value = true := by simpa [probeStops, hk] using hstop
      simp [hk, hv, hnone]
    · have hk' : IS_NULL e.key = false := by simpa using hk
      have heq : ops.literalsAreEqual key e.key = true := by simpa [probeStops, hk'] using hstop
      have := mustExist_finds ops hops d.entries d.capacity hw.length_eq hcap hp.onPath
        hp.unique key i e he hk' heq
      simp [hk', this]
  · intro hb
    have hk : IS_NULL e.key = true := by
      by_contra hne
      have hne' : IS_NULL e.key = false := by simpa using hne
      simp [hne'] at hb
    apply get_of_no_slot
    intro j x hx hxk
    by_contra hne
    have heq : ops.literalsAreEqual key x.key = true := by simpa using hne
    have := insertion_finds ops hops d.entries d.capacity hw.length_eq hcap hempty hp.onPath
      hp.unique key j x hx hxk heq
    rw [hi] at this
    simp at this
    subst this
    rw [he] at hx
    simp at hx
    subst hx
    rw [hk] at hxk
    simp at hxk

/-- Witness of the amended C21: key 3 in the dictionary with five live entries
and one tombstone. -/
theorem C21_exists_agrees_with_lookup_witness :
    ∃ b, existsLiteralDictionary sampleOps churnedDictionary (.number 3) = some b ∧
      (b = true ↔
        ∃ i, getEntryArray sampleOps churnedDictionary.entries churnedDictionary.capacity
          (.number 3) (sampleOps.hashLiteral (.number 3)) true = some i) ∧
      (b = false → getLiteralDictionary sampleOps churnedDictionary (.number 3) =
        TO_NULL_LITERAL) ∧
      (getEntryArray sampleOps churnedDictionary.entries churnedDictionary.capacity
          (.number 3) (sampleOps.hashLiteral (.number 3)) true = none ↔
        ∀ (j : Nat) (e : _entry), churnedDictionary.entries[j]? = some e →
          IS_NULL e.key = false → sampleOps.literalsAreEqual (.number 3) e.key = false) :=
  C21_exists_agrees_with_lookup sampleOps sampleOps_lawful churnedDictionary
    churnedDictionary_plainReachable (.number 3)

/-- C22: assume `literalsAreEqual` is an equivalence relation under which equal
keys have equal hashes and Null equals no non-Null key.  For every dictionary
built from `initLiteralDictionary` by `set` calls whose values are never String
or Identifier and by `remove` calls, every non-Null key `key`, every value that
is neither String nor Identifier and every non-Null key `key2`:
`setLiteralDictionary(d, key, value)` completes, and afterwards
`getLiteralDictionary(d, key2)` returns `value` when `key2` equals `key` and
otherwise what it returned before the call, whether or not the call grew the
table. -/
theorem C22_map_update_law (ops : LiteralOps) (hops : LawfulOps ops)
    (d : LiteralDictionary) (h : PlainReachable ops d) (key value key2 : Literal)
    (hkey : IS_NULL key = false) (hs : IS_STRING value = false)
    (hi : IS_IDENTIFIER value = false) (hkey2 : IS_NULL key2 = false) :
    ∃ d', setLiteralDictionary ops d key value = some d' ∧
      (ops.literalsAreEqual key2 key = true → getLiteralDictionary ops d' key2 = value) ∧
      (ops.literalsAreEqual key2 key = false →
        getLiteralDictionary ops d' key2 = getLiteralDictionary ops d key2) := by
  have hr := plainReachable_reachable ops d h
  have hw := reachable_wellSized ops d hr
  have hp := plainReachable_probed ops hops d h
  obtain ⟨d', hset, hw', _⟩ := set_wellSized ops d key value hw
  have hp' := set_probed ops hops d hw hp key value hs hi d' hset
  obtain ⟨es0, i, e, hes, hlen0, hcap', _, _, _, hprobe, he, hsame⟩ :=
    set_analysis ops hops d hw hp key value hkey hs hi d' hset
  have hcap : 0 < d.capacity := by have := hw.cap_ge; omega
  have hlt := lt_length_of_getElem? es0 i e he
  have hslot : d'.entries[i]? = some { key := key, value := value } := by
    rw [hes]
    exact List.getElem?_set_self hlt
  refine ⟨d', hset, ?_, ?_⟩
  · intro heq
    exact get_of_slot ops hops d' hw'.length_eq hcap' hp' key2 hkey2 i _ hslot hkey heq
  · intro hne
    by_cases hex : ∃ (j : Nat) (x : _entry), d.entries[j]? = some x ∧ IS_NULL x.key = false ∧
        ops.literalsAreEqual key2 x.key = true
    · obtain ⟨j, x, hx, hxk, hxeq⟩ := hex
      rw [get_of_slot ops hops d hw.length_eq hcap hp key2 hkey2 j x hx hxk hxeq]
      have hmem : (x.key, x.value) ∈ occupiedPairs es0 :=
        (hsame _).mpr ((mem_occupiedPairs d.entries x.key x.value).mpr ⟨j, hx, hxk⟩)
      obtain ⟨j0, hj0, _⟩ := (mem_occupiedPairs es0 x.key x.value).mp hmem
      have hj0i : j0 ≠ i := by
        intro hji
        subst hji
        rw [he] at hj0
        simp at hj0
        subst hj0
        obtain ⟨_, e', he', hstop⟩ := getEntryArray_sound _ _ _ _ _ _ _ hprobe
        rw [he] at he'
        simp at he'
        subst he'
        have hk : ops.literalsAreEqual key x.key = true := by
          simpa [probeStops, hxk] using hstop
        rw [hops.trans _ _ _ hxeq (hops.symm _ _ hk)] at hne
        simp at hne
      have hslot0 : d'.entries[j0]? = some { key := x.key, value := x.value } := by
        rw [hes, List.getElem?_set_ne (Ne.symm hj0i)]
        exact hj0
      exact get_of_slot ops hops d' hw'.length_eq hcap' hp' key2 hkey2 j0 _ hslot0 hxk hxeq
    · have hnone : ∀ (j : Nat) (x : _entry), d.entries[j]? = some x → IS_NULL x.key = false →
          ops.literalsAreEqual key2 x.key = false := by
        intro j x hx hxk
        by_contra hc
        exact hex ⟨j, x, hx, hxk, by simpa using hc⟩
      rw [get_of_no_slot ops d key2 hnone]
      apply get_of_no_slot
      intro j x hx hxk
      by_cases hji : j = i
      · subst hji
        rw [hslot] at hx
        simp at hx
        subst hx
        exact hne
      · rw [hes, List.getElem?_set_ne (Ne.symm hji)] at hx
        have hmem : (x.key, x.value) ∈ occupiedPairs d.entries :=
          (hsame _).mp ((mem_occupiedPairs es0 x.key x.value).mpr ⟨j, hx, hxk⟩)
        obtain ⟨j1, hj1, _⟩ := (mem_occupiedPairs d.entries x.key x.value).mp hmem
        exact hnone j1 _ hj1 hxk

/-- Witness of C22: the insert of key 7, which grows the table, read back at
key 3. -/
theorem C22_map_update_law_witness :
    ∃ d', setLiteralDictionary sampleOps churnedDictionary (.number 7) (.boolean true) =
        some d' ∧
      (sampleOps.literalsAreEqual (.number 3) (.number 7) = true →
        getLiteralDictionary sampleOps d' (.number 3) = .boolean true) ∧
      (sampleOps.literalsAreEqual (.number 3) (.number 7) = false →
        getLiteralDictionary sampleOps d' (.number 3) =
          getLiteralDictionary sampleOps churnedDictionary (.number 3)) :=
  C22_map_update_law sampleOps sampleOps_lawful churnedDictionary
    churnedDictionary_plainReachable (.number 7) (.boolean true) (.number 3) rfl rfl rfl rfl

/-! ## Lemmas on the runner natives -/

theorem Toy_popLiteralArray_concat (array : List Literal) (literal : Literal) :
    Toy_popLiteralArray (array ++ [literal]) = (literal, array) := by
  simp [Toy_popLiteralArray]

theorem moveLiterals_spec (keep : Nat) (pre : List Literal) (hpre : pre.length = keep) :
    ∀ (fuel : Nat) (xs target : List Literal), xs.length ≤ fuel →
      moveLiterals keep fuel (pre ++ xs) target = (pre, target ++ xs.reverse) := by
  intro fuel
  induction fuel with
  | zero =>
    intro xs target hlen
    have : xs = [] := List.eq_nil_of_length_eq_zero (by omega)
    subst this
    simp [moveLiterals]
  | succ n ih =>
    intro xs target hlen
    rcases List.eq_nil_or_concat xs with hnil | ⟨ys, y, hxs⟩
    · subst hnil
      simp [moveLiterals, hpre]
    · subst hxs
      rw [List.concat_eq_append] at hlen ⊢
      have hgt : (pre ++ (ys ++ [y])).length > keep := by simp; omega
      rw [moveLiterals, if_pos hgt, ← List.append_assoc, Toy_popLiteralArray_concat]
      simp only
      rw [ih ys _ (by simp at hlen; omega)]
      simp [Toy_pushLiteralArray]

theorem opaque_not_identifier (ptr : Nat) (tag : Int) :
    IS_IDENTIFIER (Literal.opaqueLiteral ptr tag) = false := rfl

theorem asRunner_valid (w : World) (ptr : Nat) (runner : Toy_Runner)
    (hheap : w.runners ptr = some runner) :
    asRunner w (.opaqueLiteral ptr TOY_OPAQUE_TAG_RUNNER) = some (Except.ok (ptr, runner)) := by
  simp [asRunner, hheap]

theorem pop_single (literal : Literal) : Toy_popLiteralArray [literal] = (literal, []) :=
  Toy_popLiteralArray_concat [] literal

theorem pop_pair (first second : Literal) :
    Toy_popLiteralArray [first, second] = (second, [first]) :=
  Toy_popLiteralArray_concat [first] second

theorem nativeRunScript_dirty (ext : Externals) (w : World) (runnerLiteral : Literal)
    (ptr : Nat) (runner : Toy_Runner)
    (hrunner : resolveIdentifier ext w.interpreter runnerLiteral =
      .opaqueLiteral ptr TOY_OPAQUE_TAG_RUNNER)
    (hheap : w.runners ptr = some runner) (hd : runner.dirty = true) :
    nativeRunScript ext w [runnerLiteral] =
      some ⟨-1, w.sendError "Can't re-run a dirty script (try resetting it first)\n", []⟩ := by
  simp [nativeRunScript, pop_single, hrunner, opaque_not_identifier, asRunner_valid w ptr runner hheap, hd]

theorem nativeRunScript_clean (ext : Externals) (w : World) (runnerLiteral : Literal)
    (ptr : Nat) (runner : Toy_Runner)
    (hrunner : resolveIdentifier ext w.interpreter runnerLiteral =
      .opaqueLiteral ptr TOY_OPAQUE_TAG_RUNNER)
    (hheap : w.runners ptr = some runner) (hd : runner.dirty = false)
    (hsize : runner.bytecode.length = runner.size) :
    nativeRunScript ext w [runnerLiteral] =
      some ⟨0, (w.record (Call.runInterpreter ptr runner.bytecode runner.size)).setRunner ptr
        (some { runner with
          interpreter := ext.runInterpreter runner.interpreter runner.bytecode runner.size,
          dirty := true }), []⟩ := by
  have htake : runner.bytecode.take runner.size = runner.bytecode :=
    List.take_of_length_le (by omega)
  simp [nativeRunScript, pop_single, hrunner, opaque_not_identifier, asRunner_valid w ptr runner hheap, hd,
    htake]

theorem nativeResetScript_clean (ext : Externals) (w : World) (runnerLiteral : Literal)
    (ptr : Nat) (runner : Toy_Runner)
    (hrunner : resolveIdentifier ext w.interpreter runnerLiteral =
      .opaqueLiteral ptr TOY_OPAQUE_TAG_RUNNER)
    (hheap : w.runners ptr = some runner) (hd : runner.dirty = false) :
    nativeResetScript ext w [runnerLiteral] =
      some ⟨-1, w.sendError "Can't reset a non-dirty script (try running it first)\n", []⟩ := by
  simp [nativeResetScript, pop_single, hrunner, opaque_not_identifier, asRunner_valid w ptr runner hheap,
    hd]

theorem nativeResetScript_dirty (ext : Externals) (w : World) (runnerLiteral : Literal)
    (ptr : Nat) (runner : Toy_Runner)
    (hrunner : resolveIdentifier ext w.interpreter runnerLiteral =
      .opaqueLiteral ptr TOY_OPAQUE_TAG_RUNNER)
    (hheap : w.runners ptr = some runner) (hd : runner.dirty = true) :
    nativeResetScript ext w [runnerLiteral] =
      some ⟨0, (w.record (Call.resetInterpreter ptr)).setRunner ptr
        (some { runner with
          interpreter := ext.resetInterpreter runner.interpreter, dirty := false }), []⟩ := by
  simp [nativeResetScript, pop_single, hrunner, opaque_not_identifier, asRunner_valid w ptr runner hheap,
    hd]

theorem nativeGetScriptVar_clean (ext : Externals) (w : World) (runnerLiteral varName : Literal)
    (ptr : Nat) (runner : Toy_Runner)
    (hrunner : resolveIdentifier ext w.interpreter runnerLiteral =
      .opaqueLiteral ptr TOY_OPAQUE_TAG_RUNNER)
    (hname : IS_IDENTIFIER (resolveIdentifier ext w.interpreter varName) = false)
    (hheap : w.runners ptr = some runner) (hd : runner.dirty = false) :
    nativeGetScriptVar ext w [runnerLiteral, varName] =
      some ⟨-1, w.sendError
        "Can't access variable from a non-dirty script (try running it first)\n", []⟩ := by
  simp [nativeGetScriptVar, pop_pair, pop_single, hrunner, hname, opaque_not_identifier,
    asRunner_valid w ptr runner hheap, hd]

theorem callScriptFn_collect (runnerLiteral varName : Literal) (rest : List Literal) :
    moveLiterals 2 (runnerLiteral :: varName :: rest).length (runnerLiteral :: varName :: rest) []
        = ([runnerLiteral, varName], rest.reverse) ∧
      moveLiterals 0 rest.reverse.length rest.reverse [] = ([], rest) := by
  constructor
  · have := moveLiterals_spec 2 [runnerLiteral, varName] rfl
      (runnerLiteral :: varName :: rest).length rest [] (by simp; omega)
    simpa using this
  · have := moveLiterals_spec 0 [] rfl rest.reverse.length rest.reverse [] (le_refl _)
    simpa using this

theorem nativeCallScriptFn_clean (ext : Externals) (w : World) (runnerLiteral varName : Literal)
    (rest : List Literal) (ptr : Nat) (runner : Toy_Runner)
    (hrunner : resolveIdentifier ext w.interpreter runnerLiteral =
      .opaqueLiteral ptr TOY_OPAQUE_TAG_RUNNER)
    (hname : IS_IDENTIFIER (resolveIdentifier ext w.interpreter varName) = false)
    (hheap : w.runners ptr = some runner) (hd : runner.dirty = false) :
    nativeCallScriptFn ext w (runnerLiteral :: varName :: rest) =
      some ⟨-1, w.sendError
        "Can't access fn from a non-dirty script (try running it first)\n", []⟩ := by
  obtain ⟨h1, h2⟩ := callScriptFn_collect runnerLiteral varName rest
  simp only [List.length_cons] at h1
  simp [nativeCallScriptFn, h1, h2, pop_pair, pop_single, hrunner, hname, opaque_not_identifier,
    asRunner_valid w ptr runner hheap, hd]

theorem nativeCallScriptFn_nonFunction (ext : Externals) (w : World)
    (runnerLiteral varName : Literal) (rest : List Literal) (ptr : Nat) (runner : Toy_Runner)
    (name : String)
    (hrunner : resolveIdentifier ext w.interpreter runnerLiteral =
      .opaqueLiteral ptr TOY_OPAQUE_TAG_RUNNER)
    (hname : resolveIdentifier ext w.interpreter varName = .string name)
    (hheap : w.runners ptr = some runner) (hd : runner.dirty = true)
    (hfn : IS_FUNCTION
      (scopeVariableOrNull ext runner.interpreter.scope (TO_IDENTIFIER_LITERAL name)) = false) :
    nativeCallScriptFn ext w (runnerLiteral :: varName :: rest) =
      some ⟨1, { w with
        errorOutput := w.errorOutput ++ ["Can't run a non-function literal\n"],
        calls := w.calls ++ [Call.callLiteralFn w.interpreter
          (scopeVariableOrNull ext runner.interpreter.scope (TO_IDENTIFIER_LITERAL name))
          (ext.freeLiteralArray rest)],
        interpreter :=
          { (ext.callLiteralFn w.interpreter
              (scopeVariableOrNull ext runner.interpreter.scope (TO_IDENTIFIER_LITERAL name))
              (ext.freeLiteralArray rest)).1 with
            stack := Toy_pushLiteralArray
              (ext.callLiteralFn w.interpreter
                (scopeVariableOrNull ext runner.interpreter.scope (TO_IDENTIFIER_LITERAL name))
                (ext.freeLiteralArray rest)).1.stack
              (if (ext.callLiteralFn w.interpreter
                    (scopeVariableOrNull ext runner.interpreter.scope
                      (TO_IDENTIFIER_LITERAL name))
                    (ext.freeLiteralArray rest)).2.length > 0 then
                  (Toy_popLiteralArray (ext.callLiteralFn w.interpreter
                    (scopeVariableOrNull ext runner.interpreter.scope
                      (TO_IDENTIFIER_LITERAL name))
                    (ext.freeLiteralArray rest)).2).1
                else TO_NULL_LITERAL) } }, []⟩ := by
  obtain ⟨h1, h2⟩ := callScriptFn_collect runnerLiteral varName rest
  simp only [List.length_cons] at h1
  simp only [List.length_reverse] at h2
  have hs : IS_IDENTIFIER (Literal.string name) = false := rfl
  have hlen : ¬ (rest.length + 1 + 1 < 2) := by omega
  simp [nativeCallScriptFn, h1, h2, pop_pair, pop_single, hrunner, hname, hs, hlen,
    opaque_not_identifier, asRunner_valid w ptr runner hheap, hd, stringToIdentifier, hfn]
  rfl

theorem nativeCheckScriptDirty_valid (ext : Externals) (w : World) (runnerLiteral : Literal)
    (ptr : Nat) (runner : Toy_Runner)
    (hrunner : resolveIdentifier ext w.interpreter runnerLiteral =
      .opaqueLiteral ptr TOY_OPAQUE_TAG_RUNNER)
    (hheap : w.runners ptr = some runner) :
    nativeCheckScriptDirty ext w [runnerLiteral] =
      some ⟨0, w.pushStack (TO_BOOLEAN_LITERAL runner.dirty), []⟩ := by
  simp [nativeCheckScriptDirty, pop_single, hrunner, opaque_not_identifier,
    asRunner_valid w ptr runner hheap]

/-! ## Claims on the runner -/

/-- C4: `nativeRunScript` on a Runner whose dirty flag is true, and
`nativeGetScriptVar`, `nativeCallScriptFn` and `nativeResetScript` on a Runner
whose dirty flag is false, return -1; the world they leave differs from the one
they found by one message appended to the error sink only, so that no Runner
(dirty flag, bytecode, nested interpreter) has changed, no interpreter has been
run or reset, and the caller's stack is as it was. -/
theorem C4_state_errors (ext : Externals) (w : World)
    (dirtyLiteral cleanLiteral varName : Literal) (rest : List Literal)
    (dirtyPtr cleanPtr : Nat) (dirtyRunner cleanRunner : Toy_Runner)
    (hdirtyLiteral : resolveIdentifier ext w.interpreter dirtyLiteral =
      .opaqueLiteral dirtyPtr TOY_OPAQUE_TAG_RUNNER)
    (hcleanLiteral : resolveIdentifier ext w.interpreter cleanLiteral =
      .opaqueLiteral cleanPtr TOY_OPAQUE_TAG_RUNNER)
    (hname : IS_IDENTIFIER (resolveIdentifier ext w.interpreter varName) = false)
    (hdirtyHeap : w.runners dirtyPtr = some dirtyRunner)
    (hcleanHeap : w.runners cleanPtr = some cleanRunner)
    (hdirty : dirtyRunner.dirty = true) (hclean : cleanRunner.dirty = false) :
    nativeRunScript ext w [dirtyLiteral] =
        some ⟨-1, { w with errorOutput := w.errorOutput ++
          ["Can't re-run a dirty script (try resetting it first)\n"] }, []⟩ ∧
      nativeGetScriptVar ext w [cleanLiteral, varName] =
        some ⟨-1, { w with errorOutput := w.errorOutput ++
          ["Can't access variable from a non-dirty script (try running it first)\n"] }, []⟩ ∧
      nativeCallScriptFn ext w (cleanLiteral :: varName :: rest) =
        some ⟨-1, { w with errorOutput := w.errorOutput ++
          ["Can't access fn from a non-dirty script (try running it first)\n"] }, []⟩ ∧
      nativeResetScript ext w [cleanLiteral] =
        some ⟨-1, { w with errorOutput := w.errorOutput ++
          ["Can't reset a non-dirty script (try running it first)\n"] }, []⟩ :=
  ⟨nativeRunScript_dirty ext w dirtyLiteral dirtyPtr dirtyRunner hdirtyLiteral hdirtyHeap hdirty,
    nativeGetScriptVar_clean ext w cleanLiteral varName cleanPtr cleanRunner hcleanLiteral hname
      hcleanHeap hclean,
    nativeCallScriptFn_clean ext w cleanLiteral varName rest cleanPtr cleanRunner hcleanLiteral
      hname hcleanHeap hclean,
    nativeResetScript_clean ext w cleanLiteral cleanPtr cleanRunner hcleanLiteral hcleanHeap
      hclean⟩

/-- Witness of C4: the sample world, with the executed runner at address 0 and
the loaded runner at address 1. -/
theorem C4_state_errors_witness :
    nativeRunScript sampleExternals sampleWorld [.opaqueLiteral 0 TOY_OPAQUE_TAG_RUNNER] =
        some ⟨-1, { sampleWorld with errorOutput := sampleWorld.errorOutput ++
          ["Can't re-run a dirty script (try resetting it first)\n"] }, []⟩ ∧
      nativeGetScriptVar sampleExternals sampleWorld
          [.opaqueLiteral 1 TOY_OPAQUE_TAG_RUNNER, .string "answer"] =
        some ⟨-1, { sampleWorld with errorOutput := sampleWorld.errorOutput ++
          ["Can't access variable from a non-dirty script (try running it first)\n"] }, []⟩ ∧
      nativeCallScriptFn sampleExternals sampleWorld
          (.opaqueLiteral 1 TOY_OPAQUE_TAG_RUNNER :: .string "answer" :: [.number 1, .number 2]) =
        some ⟨-1, { sampleWorld with errorOutput := sampleWorld.errorOutput ++
          ["Can't access fn from a non-dirty script (try running it first)\n"] }, []⟩ ∧
      nativeResetScript sampleExternals sampleWorld [.opaqueLiteral 1 TOY_OPAQUE_TAG_RUNNER] =
        some ⟨-1, { sampleWorld with errorOutput := sampleWorld.errorOutput ++
          ["Can't reset a non-dirty script (try running it first)\n"] }, []⟩ :=
  C4_state_errors sampleExternals sampleWorld (.opaqueLiteral 0 TOY_OPAQUE_TAG_RUNNER)
    (.opaqueLiteral 1 TOY_OPAQUE_TAG_RUNNER) (.string "answer") [.number 1, .number 2] 0 1
    executedRunner loadedRunner rfl rfl rfl rfl rfl rfl rfl

theorem setRunner_same (w : World) (ptr : Nat) (runner : Option Toy_Runner) :
    (w.setRunner ptr runner).runners ptr = runner := by
  simp [World.setRunner]

/-- C5: on a Runner with `dirty = false` (whose buffer has `size` bytes),
`nativeRunScript` returns 0, hands the nested interpreter a buffer of `size`
bytes equal to the owned bytecode, sets `dirty = true` and leaves bytecode and
size as they were; on a Runner with `dirty = true`, `nativeResetScript` returns
0, resets the nested interpreter, sets `dirty = false` and leaves bytecode and
size as they were.  Hence Run, Reset, Run on a Runner with `dirty = false`
returns 0, 0, 0, both runs are handed the same bytes, and nothing else than that
Runner changes. -/
theorem C5_run_reset_cycle (ext : Externals) (w : World)
    (cleanLiteral dirtyLiteral : Literal) (cleanPtr dirtyPtr : Nat)
    (cleanRunner dirtyRunner : Toy_Runner)
    (hcleanLiteral : resolveIdentifier ext w.interpreter cleanLiteral =
      .opaqueLiteral cleanPtr TOY_OPAQUE_TAG_RUNNER)
    (hdirtyLiteral : resolveIdentifier ext w.interpreter dirtyLiteral =
      .opaqueLiteral dirtyPtr TOY_OPAQUE_TAG_RUNNER)
    (hcleanHeap : w.runners cleanPtr = some cleanRunner)
    (hdirtyHeap : w.runners dirtyPtr = some dirtyRunner)
    (hclean : cleanRunner.dirty = false) (hdirty : dirtyRunner.dirty = true)
    (hsize : cleanRunner.bytecode.length = cleanRunner.size) :
    nativeRunScript ext w [cleanLiteral] =
        some ⟨0, { w with
          calls := w.calls ++ [Call.runInterpreter cleanPtr cleanRunner.bytecode cleanRunner.size],
          runners := fun p => if p = cleanPtr then
              some { interpreter := ext.runInterpreter cleanRunner.interpreter
                       cleanRunner.bytecode cleanRunner.size,
                     bytecode := cleanRunner.bytecode, size := cleanRunner.size, dirty := true }
            else w.runners p }, []⟩ ∧
      nativeResetScript ext w [dirtyLiteral] =
        some ⟨0, { w with
          calls := w.calls ++ [Call.resetInterpreter dirtyPtr],
          runners := fun p => if p = dirtyPtr then
              some { interpreter := ext.resetInterpreter dirtyRunner.interpreter,
                     bytecode := dirtyRunner.bytecode, size := dirtyRunner.size, dirty := false }
            else w.runners p }, []⟩ ∧
      runResetRun ext w cleanLiteral =
        some ([0, 0, 0], { w with
          calls := w.calls ++
            [Call.runInterpreter cleanPtr cleanRunner.bytecode cleanRunner.size,
             Call.resetInterpreter cleanPtr,
             Call.runInterpreter cleanPtr cleanRunner.bytecode cleanRunner.size],
          runners := fun p => if p = cleanPtr then
              some { interpreter := ext.runInterpreter (ext.resetInterpreter
                       (ext.runInterpreter cleanRunner.interpreter cleanRunner.bytecode
                         cleanRunner.size)) cleanRunner.bytecode cleanRunner.size,
                     bytecode := cleanRunner.bytecode, size := cleanRunner.size, dirty := true }
            else w.runners p }) := by
  have r1 := nativeRunScript_clean ext w cleanLiteral cleanPtr cleanRunner hcleanLiteral
    hcleanHeap hclean hsize
  have r2 := nativeResetScript_dirty ext w dirtyLiteral dirtyPtr dirtyRunner hdirtyLiteral
    hdirtyHeap hdirty
  refine ⟨r1, r2, ?_⟩
  have s2 := nativeResetScript_dirty ext
    ((w.record (Call.runInterpreter cleanPtr cleanRunner.bytecode cleanRunner.size)).setRunner
      cleanPtr (some { cleanRunner with
        interpreter := ext.runInterpreter cleanRunner.interpreter cleanRunner.bytecode
          cleanRunner.size,
        dirty := true }))
    cleanLiteral cleanPtr _ hcleanLiteral (setRunner_same _ _ _) rfl
  have s3 := nativeRunScript_clean ext
    (((((w.record (Call.runInterpreter cleanPtr cleanRunner.bytecode cleanRunner.size)).setRunner
      cleanPtr (some { cleanRunner with
        interpreter := ext.runInterpreter cleanRunner.interpreter cleanRunner.bytecode
          cleanRunner.size,
        dirty := true }))).record (Call.resetInterpreter cleanPtr)).setRunner cleanPtr
      (some { interpreter := ext.resetInterpreter (ext.runInterpreter cleanRunner.interpreter
                cleanRunner.bytecode cleanRunner.size),
              bytecode := cleanRunner.bytecode, size := cleanRunner.size, dirty := false }))
    cleanLiteral cleanPtr _ hcleanLiteral (setRunner_same _ _ _) rfl hsize
  unfold runResetRun
  rw [r1]
  simp only
  rw [s2]
  simp only
  rw [s3]
  simp only [World.record, World.setRunner, List.append_assoc, List.singleton_append,
    Option.some.injEq, Prod.mk.injEq, true_and, World.mk.injEq]
  refine ⟨?_, by simp⟩
  funext p
  by_cases hp : p = cleanPtr <;> simp [hp]

/-- Witness of C5: the sample world, with the loaded runner at address 1 and
the executed runner at address 0. -/
theorem C5_run_reset_cycle_witness :
    nativeRunScript sampleExternals sampleWorld [.opaqueLiteral 1 TOY_OPAQUE_TAG_RUNNER] =
        some ⟨0, { sampleWorld with
          calls := sampleWorld.calls ++ [Call.runInterpreter 1 loadedRunner.bytecode
            loadedRunner.size],
          runners := fun p => if p = 1 then
              some { interpreter := sampleExternals.runInterpreter loadedRunner.interpreter
                       loadedRunner.bytecode loadedRunner.size,
                     bytecode := loadedRunner.bytecode, size := loadedRunner.size, dirty := true }
            else sampleWorld.runners p }, []⟩ ∧
      nativeResetScript sampleExternals sampleWorld [.opaqueLiteral 0 TOY_OPAQUE_TAG_RUNNER] =
        some ⟨0, { sampleWorld with
          calls := sampleWorld.calls ++ [Call.resetInterpreter 0],
          runners := fun p => if p = 0 then
              some { interpreter := sampleExternals.resetInterpreter executedRunner.interpreter,
                     bytecode := executedRunner.bytecode, size := executedRunner.size,
                     dirty := false }
            else sampleWorld.runners p }, []⟩ ∧
      runResetRun sampleExternals sampleWorld (.opaqueLiteral 1 TOY_OPAQUE_TAG_RUNNER) =
        some ([0, 0, 0], { sampleWorld with
          calls := sampleWorld.calls ++
            [Call.runInterpreter 1 loadedRunner.bytecode loadedRunner.size,
             Call.resetInterpreter 1,
             Call.runInterpreter 1 loadedRunner.bytecode loadedRunner.size],
          runners := fun p => if p = 1 then
              some { interpreter := sampleExternals.runInterpreter
                       (sampleExternals.resetInterpreter
                         (sampleExternals.runInterpreter loadedRunner.interpreter
                           loadedRunner.bytecode loadedRunner.size))
                       loadedRunner.bytecode loadedRunner.size,
                     bytecode := loadedRunner.bytecode, size := loadedRunner.size, dirty := true }
            else sampleWorld.runners p }) :=
  C5_run_reset_cycle sampleExternals sampleWorld (.opaqueLiteral 1 TOY_OPAQUE_TAG_RUNNER)
    (.opaqueLiteral 0 TOY_OPAQUE_TAG_RUNNER) 1 0 loadedRunner executedRunner
    rfl rfl rfl rfl rfl rfl rfl

/-- C6 (defect in `nativeCallScriptFn`): the branch for a value that is not a
function has no `return`.  With the executed runner, whose scope binds `answer`
to the number 42 and does not declare `missing`, the native sends its message,
then calls the function-call primitive on that value all the same, pushes a
result (Null) on the caller's stack, which held one value, and returns 1. -/
theorem C6_non_function_is_called :
    (nativeCallScriptFn sampleExternals sampleWorld
        [.opaqueLiteral 0 TOY_OPAQUE_TAG_RUNNER, .string "answer", .number 1]).map
        Outcome.observe =
      some (1, [.number 7, Literal.null], ["Can't run a non-function literal\n"],
        [Call.callLiteralFn sampleWorld.interpreter (.number 42) []], []) ∧
    (nativeCallScriptFn sampleExternals sampleWorld
        [.opaqueLiteral 0 TOY_OPAQUE_TAG_RUNNER, .string "missing"]).map Outcome.observe =
      some (1, [.number 7, Literal.null], ["Can't run a non-function literal\n"],
        [Call.callLiteralFn sampleWorld.interpreter Literal.null []], []) :=
  ⟨rfl, rfl⟩

/-- C7 (defect in `nativeCheckScriptDirty`): on a valid Runner the native pushes
`Boolean(dirty)` on the caller's stack, which grows from one value to two, and
returns 0, the code for "nothing pushed", where the convention asks for 1. -/
theorem C7_check_dirty_pushes_and_returns_zero :
    (nativeCheckScriptDirty sampleExternals sampleWorld
        [.opaqueLiteral 0 TOY_OPAQUE_TAG_RUNNER]).map Outcome.observe =
      some (0, [.number 7, .boolean true], [], [], []) ∧
    (nativeCheckScriptDirty sampleExternals sampleWorld
        [.opaqueLiteral 1 TOY_OPAQUE_TAG_RUNNER]).map Outcome.observe =
      some (0, [.number 7, .boolean false], [], [], []) :=
  ⟨rfl, rfl⟩

/-! ## Calling a script function -/

theorem nativeCallScriptFn_function (ext : Externals) (w : World)
    (runnerLiteral varName : Literal) (rest : List Literal) (ptr : Nat) (runner : Toy_Runner)
    (name : String)
    (hrunner : resolveIdentifier ext w.interpreter runnerLiteral =
      .opaqueLiteral ptr TOY_OPAQUE_TAG_RUNNER)
    (hname : resolveIdentifier ext w.interpreter varName = .string name)
    (hheap : w.runners ptr = some runner) (hd : runner.dirty = true)
    (hfn : IS_FUNCTION
      (scopeVariableOrNull ext runner.interpreter.scope (TO_IDENTIFIER_LITERAL name)) = true) :
    nativeCallScriptFn ext w (runnerLiteral :: varName :: rest) =
      some ⟨1, { w with
        calls := w.calls ++ [Call.callLiteralFn w.interpreter
          (scopeVariableOrNull ext runner.interpreter.scope (TO_IDENTIFIER_LITERAL name)) rest],
        interpreter :=
          { (ext.callLiteralFn w.interpreter
              (scopeVariableOrNull ext runner.interpreter.scope (TO_IDENTIFIER_LITERAL name))
              rest).1 with
            stack := Toy_pushLiteralArray
              (ext.callLiteralFn w.interpreter
                (scopeVariableOrNull ext runner.interpreter.scope (TO_IDENTIFIER_LITERAL name))
                rest).1.stack
              (if (ext.callLiteralFn w.interpreter
                    (scopeVariableOrNull ext runner.interpreter.scope
                      (TO_IDENTIFIER_LITERAL name)) rest).2.length > 0 then
                  (Toy_popLiteralArray (ext.callLiteralFn w.interpreter
                    (scopeVariableOrNull ext runner.interpreter.scope
                      (TO_IDENTIFIER_LITERAL name)) rest).2).1
                else TO_NULL_LITERAL) } }, []⟩ := by
  obtain ⟨h1, h2⟩ := callScriptFn_collect runnerLiteral varName rest
  simp only [List.length_cons] at h1
  simp only [List.length_reverse] at h2
  have hs : IS_IDENTIFIER (Literal.string name) = false := rfl
  have hlen : ¬ (rest.length + 1 + 1 < 2) := by omega
  simp [nativeCallScriptFn, h1, h2, pop_pair, pop_single, hrunner, hname, hs, hlen,
    opaque_not_identifier, asRunner_valid w ptr runner hheap, hd, stringToIdentifier, hfn]
  rfl

/-- C14: for the argument list `[runner, name, a1, ..., an]` with a valid dirty
runner and a name bound to a Function, the first loop of `nativeCallScriptFn`
leaves `[runner, name]` in the argument array and `an, ..., a1` in `tmp`, the
second leaves `a1, ..., an` in `rest`; `name` and then `runner` are the two values
popped next; and the argument array handed to the function-call primitive is
`[a1, ..., an]`, after which the native returns 1 with the argument array
empty. -/
theorem C14_call_argument_order (ext : Externals) (w : World)
    (runnerLiteral varName : Literal) (rest : List Literal) (ptr : Nat) (runner : Toy_Runner)
    (name : String)
    (hrunner : resolveIdentifier ext w.interpreter runnerLiteral =
      .opaqueLiteral ptr TOY_OPAQUE_TAG_RUNNER)
    (hname : resolveIdentifier ext w.interpreter varName = .string name)
    (hheap : w.runners ptr = some runner) (hd : runner.dirty = true)
    (hfn : IS_FUNCTION
      (scopeVariableOrNull ext runner.interpreter.scope (TO_IDENTIFIER_LITERAL name)) = true) :
    moveLiterals 2 (runnerLiteral :: varName :: rest).length (runnerLiteral :: varName :: rest) []
        = ([runnerLiteral, varName], rest.reverse) ∧
      moveLiterals 0 rest.reverse.length rest.reverse [] = ([], rest) ∧
      Toy_popLiteralArray [runnerLiteral, varName] = (varName, [runnerLiteral]) ∧
      Toy_popLiteralArray [runnerLiteral] = (runnerLiteral, []) ∧
      ∃ o, nativeCallScriptFn ext w (runnerLiteral :: varName :: rest) = some o ∧
        o.code = 1 ∧ o.arguments = [] ∧
        o.world.calls = w.calls ++ [Call.callLiteralFn w.interpreter
          (scopeVariableOrNull ext runner.interpreter.scope (TO_IDENTIFIER_LITERAL name)) rest] := by
  obtain ⟨h1, h2⟩ := callScriptFn_collect runnerLiteral varName rest
  exact ⟨h1, h2, pop_pair _ _, pop_single _,
    _, nativeCallScriptFn_function ext w runnerLiteral varName rest ptr runner name hrunner hname
      hheap hd hfn, rfl, rfl, rfl⟩

/-- Witness of C14: `callScriptFn(runner, "add", 2, 3, 5)` on the runner whose
scope binds `add` to a function. -/
theorem C14_call_argument_order_witness :
    moveLiterals 2
        (Literal.opaqueLiteral 2 TOY_OPAQUE_TAG_RUNNER :: Literal.string "add" ::
          [Literal.number 2, Literal.number 3, Literal.number 5]).length
        (Literal.opaqueLiteral 2 TOY_OPAQUE_TAG_RUNNER :: Literal.string "add" ::
          [Literal.number 2, Literal.number 3, Literal.number 5]) []
        = ([Literal.opaqueLiteral 2 TOY_OPAQUE_TAG_RUNNER, Literal.string "add"],
            [Literal.number 2, Literal.number 3, Literal.number 5].reverse) ∧
      moveLiterals 0 [Literal.number 2, Literal.number 3, Literal.number 5].reverse.length
          [Literal.number 2, Literal.number 3, Literal.number 5].reverse [] =
        ([], [Literal.number 2, Literal.number 3, Literal.number 5]) ∧
      Toy_popLiteralArray [Literal.opaqueLiteral 2 TOY_OPAQUE_TAG_RUNNER, Literal.string "add"] =
        (Literal.string "add", [Literal.opaqueLiteral 2 TOY_OPAQUE_TAG_RUNNER]) ∧
      Toy_popLiteralArray [Literal.opaqueLiteral 2 TOY_OPAQUE_TAG_RUNNER] =
        (Literal.opaqueLiteral 2 TOY_OPAQUE_TAG_RUNNER, []) ∧
      ∃ o, nativeCallScriptFn echoExternals callWorld
          (Literal.opaqueLiteral 2 TOY_OPAQUE_TAG_RUNNER :: Literal.string "add" ::
            [Literal.number 2, Literal.number 3, Literal.number 5]) = some o ∧
        o.code = 1 ∧ o.arguments = [] ∧
        o.world.calls = callWorld.calls ++ [Call.callLiteralFn callWorld.interpreter
          (scopeVariableOrNull echoExternals functionRunner.interpreter.scope
            (TO_IDENTIFIER_LITERAL "add"))
          [Literal.number 2, Literal.number 3, Literal.number 5]] :=
  C14_call_argument_order echoExternals callWorld (.opaqueLiteral 2 TOY_OPAQUE_TAG_RUNNER)
    (.string "add") [.number 2, .number 3, .number 5] 2 functionRunner "add" rfl rfl rfl rfl rfl

/-- C15 as stated fails: in `callScriptFn(runner, "add", 2, 3)` the interpreter
handed to the function-call primitive is the caller's interpreter (stack `[7]`,
scope `outer`), not the nested interpreter of the runner (empty stack, scope
`add`). -/
theorem C15_primitive_gets_caller_interpreter :
    (nativeCallScriptFn echoExternals callWorld
        [.opaqueLiteral 2 TOY_OPAQUE_TAG_RUNNER, .string "add", .number 2, .number 3]).map
        (fun o => o.world.calls) =
      some [Call.callLiteralFn { stack := [.number 7], scope := [("outer", .number 1)] }
        (.function [10, 20, 30] 0) [.number 2, .number 3]] ∧
    callWorld.interpreter = { stack := [.number 7], scope := [("outer", .number 1)] } ∧
    functionRunner.interpreter = { stack := [], scope := [("add", .function [10, 20, 30] 0)] } ∧
    callWorld.interpreter ≠ functionRunner.interpreter :=
  ⟨rfl, rfl, rfl, by decide⟩

/-- C15 amended: for a valid dirty runner and a name bound to a Function in the
runner's nested scope, `nativeCallScriptFn` looks the function up in the nested
interpreter's scope and hands the caller's interpreter to the function-call
primitive; it returns 1, and afterwards the caller's interpreter is the one the
primitive left, with the single result value pushed on its stack: the last
value of the primitive's result array, or Null when that array is empty. -/
theorem C15_call_uses_caller_interpreter (ext : Externals) (w : World)
    (runnerLiteral varName : Literal) (rest : List Literal) (ptr : Nat) (runner : Toy_Runner)
    (name : String)
    (hrunner : resolveIdentifier ext w.interpreter runnerLiteral =
      .opaqueLiteral ptr TOY_OPAQUE_TAG_RUNNER)
    (hname : resolveIdentifier ext w.interpreter varName = .string name)
    (hheap : w.runners ptr = some runner) (hd : runner.dirty = true)
    (hfn : IS_FUNCTION
      (scopeVariableOrNull ext runner.interpreter.scope (TO_IDENTIFIER_LITERAL name)) = true) :
    ∃ o, nativeCallScriptFn ext w (runnerLiteral :: varName :: rest) = some o ∧
      o.code = 1 ∧
      o.world.calls = w.calls ++ [Call.callLiteralFn w.interpreter
        (scopeVariableOrNull ext runner.interpreter.scope (TO_IDENTIFIER_LITERAL name)) rest] ∧
      o.world.interpreter =
        { (ext.callLiteralFn w.interpreter
            (scopeVariableOrNull ext runner.interpreter.scope (TO_IDENTIFIER_LITERAL name))
            rest).1 with
          stack := Toy_pushLiteralArray
            (ext.callLiteralFn w.interpreter
              (scopeVariableOrNull ext runner.interpreter.scope (TO_IDENTIFIER_LITERAL name))
              rest).1.stack
            (if (ext.callLiteralFn w.interpreter
                  (scopeVariableOrNull ext runner.interpreter.scope
                    (TO_IDENTIFIER_LITERAL name)) rest).2.length > 0 then
                (Toy_popLiteralArray (ext.callLiteralFn w.interpreter
                  (scopeVariableOrNull ext runner.interpreter.scope
                    (TO_IDENTIFIER_LITERAL name)) rest).2).1
              else TO_NULL_LITERAL) } :=
  ⟨_, nativeCallScriptFn_function ext w runnerLiteral varName rest ptr runner name hrunner
    hname hheap hd hfn, rfl, rfl, rfl⟩

/-- Witness of the amended C15: `callScriptFn(runner, "add", 2, 3)` on the
runner whose scope binds `add` to a function; the primitive returns `[2, 3]`,
so 3 is the value pushed. -/
theorem C15_call_uses_caller_interpreter_witness :
    ∃ o, nativeCallScriptFn echoExternals callWorld
        (Literal.opaqueLiteral 2 TOY_OPAQUE_TAG_RUNNER :: Literal.string "add" ::
          [Literal.number 2, Literal.number 3]) = some o ∧
      o.code = 1 ∧
      o.world.calls = callWorld.calls ++ [Call.callLiteralFn callWorld.interpreter
        (scopeVariableOrNull echoExternals functionRunner.interpreter.scope
          (TO_IDENTIFIER_LITERAL "add")) [Literal.number 2, Literal.number 3]] ∧
      o.world.interpreter =
        { (echoExternals.callLiteralFn callWorld.interpreter
            (scopeVariableOrNull echoExternals functionRunner.interpreter.scope
              (TO_IDENTIFIER_LITERAL "add")) [Literal.number 2, Literal.number 3]).1 with
          stack := Toy_pushLiteralArray
            (echoExternals.callLiteralFn callWorld.interpreter
              (scopeVariableOrNull echoExternals functionRunner.interpreter.scope
                (TO_IDENTIFIER_LITERAL "add")) [Literal.number 2, Literal.number 3]).1.stack
            (if (echoExternals.callLiteralFn callWorld.interpreter
                  (scopeVariableOrNull echoExternals functionRunner.interpreter.scope
                    (TO_IDENTIFIER_LITERAL "add")) [Literal.number 2, Literal.number 3]).2.length
                  > 0 then
                (Toy_popLiteralArray (echoExternals.callLiteralFn callWorld.interpreter
                  (scopeVariableOrNull echoExternals functionRunner.interpreter.scope
                    (TO_IDENTIFIER_LITERAL "add")) [Literal.number 2, Literal.number 3]).2).1
              else TO_NULL_LITERAL) } :=
  C15_call_uses_caller_interpreter echoExternals callWorld (.opaqueLiteral 2 TOY_OPAQUE_TAG_RUNNER)
    (.string "add") [.number 2, .number 3] 2 functionRunner "add" rfl rfl rfl rfl rfl

/-! ## Rejected arguments -/

theorem asRunner_wrong_tag (w : World) (ptr : Nat) (tag : Int) (htag : tag ≠ TOY_OPAQUE_TAG_RUNNER) :
    asRunner w (.opaqueLiteral ptr tag) = some (Except.error ()) := by
  simp [asRunner, htag]

/-- C16, argument counts: each of the eight natives, called with a wrong number
of arguments (not 1; not 2 for `getScriptVar`; fewer than 2 for
`callScriptFn`), returns -1 and leaves the argument array as it was and the
world as it was but for one message appended to the error sink.  Opaque tags:
each of the six natives that take a runner, when the runner argument resolves
to an Opaque literal whose tag is not the Runner tag, returns -1 with the
caller's interpreter, every runner and the collaborator calls as they were, and
sends its message "Unrecognized opaque literal"; for `getScriptVar` and
`callScriptFn` the message is that one provided the name argument is not left
an unresolved Identifier, the case in which they return -1 before the tag is
looked at. -/
theorem C16_invalid_arguments_rejected (ext : Externals) (lx : LoadExternals) (w : World)
    (notOne notTwo lessThanTwo : List Literal)
    (runnerLiteral varName : Literal) (rest : List Literal) (ptr : Nat) (tag : Int)
    (hnotOne : notOne.length ≠ 1) (hnotTwo : notTwo.length ≠ 2)
    (hlessThanTwo : lessThanTwo.length < 2)
    (hrunner : resolveIdentifier ext w.interpreter runnerLiteral = .opaqueLiteral ptr tag)
    (htag : tag ≠ TOY_OPAQUE_TAG_RUNNER) :
    (nativeLoadScript ext lx w notOne =
        some ⟨-1, w.sendError "Incorrect number of arguments to loadScript\n", notOne⟩ ∧
      nativeLoadScriptBytecode ext lx w notOne =
        some ⟨-1, w.sendError "Incorrect number of arguments to loadScriptBytecode\n", notOne⟩ ∧
      nativeRunScript ext w notOne =
        some ⟨-1, w.sendError "Incorrect number of arguments to runScript\n", notOne⟩ ∧
      nativeGetScriptVar ext w notTwo =
        some ⟨-1, w.sendError "Incorrect number of arguments to getScriptVar\n", notTwo⟩ ∧
      nativeCallScriptFn ext w lessThanTwo =
        some ⟨-1, w.sendError "Incorrect number of arguments to callScriptFn\n", lessThanTwo⟩ ∧
      nativeResetScript ext w notOne =
        some ⟨-1, w.sendError "Incorrect number of arguments to resetScript\n", notOne⟩ ∧
      nativeFreeScript ext w notOne =
        some ⟨-1, w.sendError "Incorrect number of arguments to freeScript\n", notOne⟩ ∧
      nativeCheckScriptDirty ext w notOne =
        some ⟨-1, w.sendError "Incorrect number of arguments to checkScriptDirty\n", notOne⟩) ∧
    (nativeRunScript ext w [runnerLiteral] =
        some ⟨-1, w.sendError "Unrecognized opaque literal in runScript\n", []⟩ ∧
      nativeResetScript ext w [runnerLiteral] =
        some ⟨-1, w.sendError "Unrecognized opaque literal in resetScript\n", []⟩ ∧
      nativeFreeScript ext w [runnerLiteral] =
        some ⟨-1, w.sendError "Unrecognized opaque literal in freeScript\n", []⟩ ∧
      nativeCheckScriptDirty ext w [runnerLiteral] =
        some ⟨-1, w.sendError "Unrecognized opaque literal in checkScriptDirty\n", []⟩ ∧
      (∃ o, nativeGetScriptVar ext w [runnerLiteral, varName] = some o ∧ o.code = -1 ∧
        o.world.interpreter = w.interpreter ∧ o.world.runners = w.runners ∧
        o.world.calls = w.calls ∧
        (IS_IDENTIFIER (resolveIdentifier ext w.interpreter varName) = false →
          o.world.errorOutput =
            w.errorOutput ++ ["Unrecognized opaque literal in getScriptVar\n"])) ∧
      (∃ o, nativeCallScriptFn ext w (runnerLiteral :: varName :: rest) = some o ∧ o.code = -1 ∧
        o.world.interpreter = w.interpreter ∧ o.world.runners = w.runners ∧
        o.world.calls = w.calls ∧
        (IS_IDENTIFIER (resolveIdentifier ext w.interpreter varName) = false →
          o.world.errorOutput =
            w.errorOutput ++ ["Unrecognized opaque literal in callScriptFn\n"]))) := by
  have hwrong := asRunner_wrong_tag w ptr tag htag
  have hlt : ¬ (2 ≤ lessThanTwo.length) := by omega
  obtain ⟨h1, h2⟩ := callScriptFn_collect runnerLiteral varName rest
  simp only [List.length_cons] at h1
  simp only [List.length_reverse] at h2
  have hlen : ¬ (rest.length + 1 + 1 < 2) := by omega
  refine ⟨⟨?_, ?_, ?_, ?_, ?_, ?_, ?_, ?_⟩, ?_, ?_, ?_, ?_, ?_, ?_⟩
  · simp [nativeLoadScript, hnotOne]
  · simp [nativeLoadScriptBytecode, hnotOne]
  · simp [nativeRunScript, hnotOne]
  · simp [nativeGetScriptVar, hnotTwo]
  · simp [nativeCallScriptFn, hlessThanTwo]
  · simp [nativeResetScript, hnotOne]
  · simp [nativeFreeScript, hnotOne]
  · simp [nativeCheckScriptDirty, hnotOne]
  · simp [nativeRunScript, pop_single, hrunner, opaque_not_identifier, hwrong]
  · simp [nativeResetScript, pop_single, hrunner, opaque_not_identifier, hwrong]
  · simp [nativeFreeScript, pop_single, hrunner, opaque_not_identifier, hwrong]
  · simp [nativeCheckScriptDirty, pop_single, hrunner, opaque_not_identifier, hwrong]
  · by_cases hname : IS_IDENTIFIER (resolveIdentifier ext w.interpreter varName) = true
    · refine ⟨⟨-1, w, []⟩, ?_, rfl, rfl, rfl, rfl, fun h => ?_⟩
      · simp [nativeGetScriptVar, pop_pair, pop_single, hrunner, opaque_not_identifier, hname]
      · rw [hname] at h
        simp at h
    · have hname' : IS_IDENTIFIER (resolveIdentifier ext w.interpreter varName) = false := by
        simpa using hname
      refine ⟨⟨-1, w.sendError "Unrecognized opaque literal in getScriptVar\n", []⟩, ?_, rfl,
        rfl, rfl, rfl, fun _ => rfl⟩
      simp [nativeGetScriptVar, pop_pair, pop_single, hrunner, opaque_not_identifier, hname',
        hwrong]
  · by_cases hname : IS_IDENTIFIER (resolveIdentifier ext w.interpreter varName) = true
    · refine ⟨⟨-1, w, []⟩, ?_, rfl, rfl, rfl, rfl, fun h => ?_⟩
      · simp [nativeCallScriptFn, h1, h2, pop_pair, pop_single, hrunner, opaque_not_identifier,
          hname, hlen]
      · rw [hname] at h
        simp at h
    · have hname' : IS_IDENTIFIER (resolveIdentifier ext w.interpreter varName) = false := by
        simpa using hname
      refine ⟨⟨-1, w.sendError "Unrecognized opaque literal in callScriptFn\n", []⟩, ?_, rfl,
        rfl, rfl, rfl, fun _ => rfl⟩
      simp [nativeCallScriptFn, h1, h2, pop_pair, pop_single, hrunner, opaque_not_identifier,
        hname', hwrong, hlen]

/-- Witness of C16: the sample world, argument arrays of length 0 and 1, and an
Opaque literal with tag 7. -/
theorem C16_invalid_arguments_rejected_witness :
    (nativeLoadScript sampleExternals sampleLoadExternals sampleWorld [] =
        some ⟨-1, sampleWorld.sendError "Incorrect number of arguments to loadScript\n", []⟩ ∧
      nativeLoadScriptBytecode sampleExternals sampleLoadExternals sampleWorld [] =
        some ⟨-1, sampleWorld.sendError "Incorrect number of arguments to loadScriptBytecode\n", []⟩ ∧
      nativeRunScript sampleExternals sampleWorld [] =
        some ⟨-1, sampleWorld.sendError "Incorrect number of arguments to runScript\n", []⟩ ∧
      nativeGetScriptVar sampleExternals sampleWorld [Literal.number 1] =
        some ⟨-1, sampleWorld.sendError "Incorrect number of arguments to getScriptVar\n", [Literal.number 1]⟩ ∧
      nativeCallScriptFn sampleExternals sampleWorld [Literal.number 1] =
        some ⟨-1, sampleWorld.sendError "Incorrect number of arguments to callScriptFn\n", [Literal.number 1]⟩ ∧
      nativeResetScript sampleExternals sampleWorld [] =
        some ⟨-1, sampleWorld.sendError "Incorrect number of arguments to resetScript\n", []⟩ ∧
      nativeFreeScript sampleExternals sampleWorld [] =
        some ⟨-1, sampleWorld.sendError "Incorrect number of arguments to freeScript\n", []⟩ ∧
      nativeCheckScriptDirty sampleExternals sampleWorld [] =
        some ⟨-1, sampleWorld.sendError "Incorrect number of arguments to checkScriptDirty\n", []⟩) ∧
    (nativeRunScript sampleExternals sampleWorld [Literal.opaqueLiteral 0 7] =
        some ⟨-1, sampleWorld.sendError "Unrecognized opaque literal in runScript\n", []⟩ ∧
      nativeResetScript sampleExternals sampleWorld [Literal.opaqueLiteral 0 7] =
        some ⟨-1, sampleWorld.sendError "Unrecognized opaque literal in resetScript\n", []⟩ ∧
      nativeFreeScript sampleExternals sampleWorld [Literal.opaqueLiteral 0 7] =
        some ⟨-1, sampleWorld.sendError "Unrecognized opaque literal in freeScript\n", []⟩ ∧
      nativeCheckScriptDirty sampleExternals sampleWorld [Literal.opaqueLiteral 0 7] =
        some ⟨-1, sampleWorld.sendError "Unrecognized opaque literal in checkScriptDirty\n", []⟩ ∧
      (∃ o, nativeGetScriptVar sampleExternals sampleWorld [Literal.opaqueLiteral 0 7, Literal.string "answer"] = some o ∧ o.code = -1 ∧
        o.world.interpreter = sampleWorld.interpreter ∧ o.world.runners = sampleWorld.runners ∧
        o.world.calls = sampleWorld.calls ∧
        (IS_IDENTIFIER (resolveIdentifier sampleExternals sampleWorld.interpreter (Literal.string "answer")) = false →
          o.world.errorOutput =
            sampleWorld.errorOutput ++ ["Unrecognized opaque literal in getScriptVar\n"])) ∧
      (∃ o, nativeCallScriptFn sampleExternals sampleWorld (Literal.opaqueLiteral 0 7 :: Literal.string "answer" :: [Literal.number 1]) = some o ∧ o.code = -1 ∧
        o.world.interpreter = sampleWorld.interpreter ∧ o.world.runners = sampleWorld.runners ∧
        o.world.calls = sampleWorld.calls ∧
        (IS_IDENTIFIER (resolveIdentifier sampleExternals sampleWorld.interpreter (Literal.string "answer")) = false →
          o.world.errorOutput =
            sampleWorld.errorOutput ++ ["Unrecognized opaque literal in callScriptFn\n"]))) :=
  C16_invalid_arguments_rejected sampleExternals sampleLoadExternals sampleWorld [] [.number 1]
    [.number 1] (.opaqueLiteral 0 7) (.string "answer") [.number 1] 0 7 (by decide) (by decide)
    (by decide) rfl (by decide)

/-! ## The hook -/

end Toy
